import Mathlib

/-!
# Ouvrai command-line utilities: study deployment

A shallow embedding of `src/cli/cli-utils.js` (the MTurk and Prolific deployment helpers)
and theorems about it.

Conventions of the embedding.

* JavaScript numbers that count things (participants, batch positions, clock fields) are
  natural numbers; configuration values whose JavaScript type is not fixed by the code are
  values of `JsAtom` / `JsValue`.
* Fields that the source dereferences unconditionally (`config.mturk.reward`,
  `config.prolific.reward`) are mandatory fields of the structures; fields reached through
  optional chaining (`config.mturk?.x`) are `Option`s.
* An `async` function that talks to the marketplace, asks the user or writes to the console
  is a function in the state-passing monad `Run`: the environment `Env` supplies the answers
  of the outside world, the `World` records every marketplace call, prompt and message in
  the order they happen, and an `Outcome` says whether the function returned, threw, or ended
  the process with `process.exit`.
-/

namespace Ouvrai

/-! ## JavaScript primitives -/

/-- JavaScript `String(n)` for a natural number `n`: the decimal numeral of `n`. -/
def jsStringOfNat (n : Nat) : String := Nat.repr n

/-- JavaScript `s.padStart(targetLength, padString)`: `s` itself when it is long enough (or the pad is
empty), otherwise `padString` repeated and cut to the missing length, followed by `s`. -/
def padStart (s : String) (targetLength : Nat) (padString : String) : String :=
  if targetLength ≤ s.length ∨ padString.length = 0 then s
  else
    let fillLen := targetLength - s.length
    String.mk ((List.replicate fillLen padString.data).flatten.take fillLen) ++ s

/-- Relative index of `String.prototype.slice`: a negative index counts from the end, and
the result is clamped to `[0, len]`. -/
def sliceIndex (len : Nat) (k : Int) : Nat :=
  if k < 0 then (max ((len : Int) + k) 0).toNat else min k.toNat len

/-- JavaScript `s.slice(start, end)`; `stop = none` is a call without the second argument. -/
def jsSlice (s : String) (start : Int) (stop : Option Int) : String :=
  let first := sliceIndex s.length start
  let last := match stop with
    | none => s.length
    | some e => sliceIndex s.length e
  String.mk ((s.data.drop first).take (last - first))

/-- JavaScript `xs.slice(start)` on an array. -/
def jsSliceList {α : Type} (xs : List α) (start : Int) : List α :=
  xs.drop (sliceIndex xs.length start)

/-- JavaScript `xs.join(sep)` on an array of strings. -/
def jsJoin (sep : String) : List String → String
  | [] => ""
  | [x] => x
  | x :: y :: rest => x ++ sep ++ jsJoin sep (y :: rest)

/-- The fields of a JavaScript `Date` in local time, as the getters return them. -/
structure JsDate where
  /-- JavaScript `getFullYear()` -/
  fullYear : Nat
  /-- JavaScript `getMonth()`, 0-indexed -/
  month : Nat
  /-- JavaScript `getDate()` -/
  date : Nat
  /-- JavaScript `getHours()` -/
  hours : Nat
  /-- JavaScript `getMinutes()` -/
  minutes : Nat
  /-- JavaScript `getSeconds()` -/
  seconds : Nat
  deriving DecidableEq, Repr

/-- JavaScript `('0' + x).slice(-2)` -/
def twoDigits (x : Nat) : String := jsSlice ("0" ++ jsStringOfNat x) (-2) none

/-- JavaScript `dateStringYMDHMS()`, with the `new Date()` it reads as an argument. -/
def dateStringYMDHMS (date : JsDate) : String :=
  let formattedYear := jsStringOfNat date.fullYear
  let formattedMonth := twoDigits (date.month + 1)
  let formattedDate := twoDigits date.date
  let formattedHours := twoDigits date.hours
  let formattedMinutes := twoDigits date.minutes
  let formattedSeconds := twoDigits date.seconds
  formattedYear ++ formattedMonth ++ formattedDate ++ "_" ++
    formattedHours ++ formattedMinutes ++ formattedSeconds

/-- A finite or non-finite JavaScript number. -/
inductive JsNumber
  | nan
  | posInf
  | negInf
  | finite (q : ℚ)
  deriving DecidableEq

/-- JavaScript values without structure of their own. -/
inductive JsAtom
  | undefined
  | null
  | bool (b : Bool)
  | number (x : JsNumber)
  | string (s : String)
  deriving DecidableEq

/-- JavaScript values as they occur in a study configuration. -/
inductive JsValue
  | atom (a : JsAtom)
  | array (elems : List JsAtom)
  /-- any other object -/
  | object
  deriving DecidableEq

/-- Truthiness of a number: everything but `0` and `NaN`. -/
def JsNumber.truthy : JsNumber → Bool
  | .nan => false
  | .finite q => decide (q ≠ 0)
  | _ => true

/-- Truthiness, as tested by `if (v)`. -/
def JsAtom.truthy : JsAtom → Bool
  | .undefined => false
  | .null => false
  | .bool b => b
  | .number x => x.truthy
  | .string s => decide (s ≠ "")

/-- Truthiness, as tested by `if (v)`: arrays and objects are truthy. -/
def JsValue.truthy : JsValue → Bool
  | .atom a => a.truthy
  | _ => true

/-- JavaScript `Number.isInteger(v)`: `v` is a number, finite, and has no fractional part. -/
def numberIsInteger : JsValue → Bool
  | .atom (.number (.finite q)) => decide (q.den = 1)
  | _ => false

/-- JavaScript `Array.isArray(v)` -/
def arrayIsArray : JsValue → Bool
  | .array _ => true
  | _ => false

/-- JavaScript `v[i]` on a value already known to be an array; out of range gives `undefined`. -/
def JsValue.index (v : JsValue) (i : Nat) : JsAtom :=
  match v with
  | .array elems => elems.getD i .undefined
  | _ => .undefined

/-! ## Study configuration -/

/-- JavaScript `config.mturk.keywords`: a string, or an array of strings. -/
inductive Keywords
  | text (s : String)
  | list (xs : List String)
  deriving DecidableEq

/-- The argument of `dhmToSeconds`; a missing field defaults to `0`. -/
structure Dhm where
  days : Nat := 0
  hours : Nat := 0
  minutes : Nat := 0
  deriving DecidableEq

/-- JavaScript `config.mturk` -/
structure MturkConfig where
  keywords : Option Keywords := none
  reward : String := ""
  allottedTime : Dhm := {}
  expiration : Dhm := {}
  autoApprove : Dhm := {}
  qualificationBlocklist : Option (List String) := none
  qualificationAllowlist : Option (List String) := none
  restrictLocation : JsValue := .atom .undefined
  restrictApprovalRate : JsValue := .atom .undefined
  deriving DecidableEq

/-- JavaScript `config.prolific`; `screeners` is an object, kept as its list of keys and values in the
order they are written (a JavaScript object has each key once). -/
structure ProlificConfig where
  estimatedCompletionTime : JsAtom := .undefined
  maximumAllowedTime : JsAtom := .undefined
  reward : JsAtom := .undefined
  compatibleDevices : List String := []
  naivety : JsAtom := .undefined
  project : Option String := none
  screeners : Option (List (String × JsValue)) := none
  deriving DecidableEq

/-- The study configuration (`study-config.js`). A list-valued field is `none` when the
configuration does not hold an array there. -/
structure StudyConfig where
  title : String := ""
  description : Option String := none
  requirementsList : Option (List String) := none
  requirementsPara : Option (List String) := none
  summaryPara : Option (List String) := none
  instructionsList : Option (List String) := none
  instructionsPara : Option (List String) := none
  totalAvailablePlaces : Nat := 0
  workersToCompensate : Option (List String) := none
  mturk : Option MturkConfig := none
  prolific : ProlificConfig := {}
  deriving DecidableEq

/-- The command-line options the MTurk functions read. -/
structure Options where
  sandbox : Bool := false
  compensation : Bool := false
  deriving DecidableEq

/-! ## Marketplace data -/

/-- A qualification type as the marketplace lists it. -/
structure QualificationType where
  QualificationTypeId : String
  Name : String
  deriving DecidableEq

/-- What the code stores in a requirement's `QualificationTypeId`: nothing, an id string,
or a whole listed record. -/
inductive QualificationRef
  | undefined
  | id (s : String)
  | record (q : QualificationType)
  deriving DecidableEq

/-- Template-literal rendering of a `QualificationRef`. -/
def QualificationRef.render : QualificationRef → String
  | .undefined => "undefined"
  | .id s => s
  | .record _ => "[object Object]"

/-- One entry of `LocaleValues`. -/
structure Locale where
  Country : String
  deriving DecidableEq

/-- One element of `QualificationRequirements`; a field the object literal does not have is
`none`. -/
structure QualificationRequirement where
  QualificationTypeId : QualificationRef
  Comparator : String
  IntegerValues : Option (List Int) := none
  LocaleValues : Option (List Locale) := none
  ActionsGuarded : String
  deriving DecidableEq

/-- Input of `ListQualificationTypesCommand`. -/
structure ListQualificationTypesInput where
  Query : String
  MustBeRequestable : Bool
  MustBeOwnedByCaller : Bool
  deriving DecidableEq

/-- Input of `CreateQualificationTypeCommand`. -/
structure CreateQualificationTypeInput where
  Name : String
  Description : String
  Keywords : String
  QualificationTypeStatus : String
  deriving DecidableEq

/-- Input of `AssociateQualificationWithWorkerCommand`. -/
structure AssociateQualificationWithWorkerInput where
  QualificationTypeId : QualificationRef
  WorkerId : String
  SendNotification : Bool
  IntegerValue : Nat
  deriving DecidableEq

/-- Input of `CreateHITCommand` (the object `mturkCreateHIT` builds). -/
structure CreateHITInput where
  Title : String
  Description : String
  Keywords : Option Keywords
  Reward : String
  MaxAssignments : Nat
  AssignmentDurationInSeconds : Nat
  LifetimeInSeconds : Nat
  AutoApprovalDelayInSeconds : Nat
  Question : String
  RequesterAnnotation : String
  QualificationRequirements : List QualificationRequirement
  UniqueRequestToken : String
  deriving DecidableEq

/-- The `HIT` of a `CreateHITCommand` output. -/
structure HIT where
  HITId : String
  HITGroupId : String
  deriving DecidableEq

/-- A command sent to the marketplace with `client.send`. -/
inductive Command
  | listQualificationTypes (req : ListQualificationTypesInput)
  | createQualificationType (req : CreateQualificationTypeInput)
  | associateQualificationWithWorker (req : AssociateQualificationWithWorkerInput)
  | createHIT (req : CreateHITInput)
  deriving DecidableEq

/-! ## The history journal -/

/-- A value of the journal object: an array of identifiers, a string, `null`, or anything
else (a number, a boolean, an object). -/
inductive JournalValue
  | seq (xs : List String)
  | text (s : String)
  | null
  | other
  deriving DecidableEq

/-- The journal object of `study-history.json`: its own properties, keys and values, in the
order in which JavaScript lists them. -/
abbrev Journal := List (String × JournalValue)

/-- The state of an experiment's `study-history.json`. -/
inductive JournalFile
  | absent
  /-- the file exists and `readJSON` throws on it -/
  | unreadable
  | present (j : Journal)
  deriving DecidableEq

/-! ## Effects -/

/-- A line written to the terminal. -/
inductive Output
  | log (msg : String)
  | succeed (msg : String)
  | fail (msg : String)
  | info (msg : String)
  deriving DecidableEq

/-- Everything the functions change or leave behind: the marketplace calls, the prompts
asked and the terminal lines, each oldest first, the number of clock readings taken, and
the journal file of every experiment. -/
structure World where
  calls : List Command := []
  prompts : List String := []
  output : List Output := []
  clockReads : Nat := 0
  journals : String → JournalFile := fun _ => .absent

/-- The outside world's answers. Each one may depend on everything that happened before. -/
structure Env where
  /-- response to a `ListQualificationTypesCommand`, or the error's message -/
  listQualificationTypes : World → ListQualificationTypesInput →
    Except String (List QualificationType)
  /-- response to a `CreateQualificationTypeCommand` -/
  createQualificationType : World → CreateQualificationTypeInput →
    Except String QualificationType
  /-- response to an `AssociateQualificationWithWorkerCommand` -/
  associateQualificationWithWorker : World → AssociateQualificationWithWorkerInput →
    Except String Unit
  /-- response to a `CreateHITCommand` -/
  createHIT : World → CreateHITInput → Except String HIT
  /-- answer to the `confirm` prompt of the given name -/
  confirm : World → String → Bool
  /-- the k-th reading of the clock (`new Date()`) -/
  clock : Nat → JsDate
  /-- whether writing the journal of an experiment succeeds -/
  writeFile : World → String → Journal → Except String Unit

/-- How a call ends. -/
inductive Outcome (α : Type)
  | returned (a : α)
  | threw (message : String)
  /-- JavaScript `process.exit(code)` -/
  | exited (code : Nat)
  deriving DecidableEq

/-- The value returned, if the call returned. -/
def Outcome.toOption {α : Type} : Outcome α → Option α
  | .returned a => some a
  | _ => none

/-- An effectful computation. -/
def Run (α : Type) : Type := Env → World → Outcome α × World

/-- Return a value. -/
def Run.pure {α : Type} (a : α) : Run α := fun _ w => (.returned a, w)

/-- Sequencing: a throw or an exit of the first part ends the whole. -/
def Run.bind {α β : Type} (m : Run α) (f : α → Run β) : Run β := fun env w =>
  match m env w with
  | (.returned a, w1) => f a env w1
  | (.threw msg, w1) => (.threw msg, w1)
  | (.exited code, w1) => (.exited code, w1)

instance : Monad Run where
  pure := Run.pure
  bind := Run.bind

/-- JavaScript `try`/`catch`: the handler gets the message of what the body threw;
`process.exit` is not caught. -/
def tryCatch {α : Type} (body : Run α) (handler : String → Run α) : Run α := fun env w =>
  match body env w with
  | (.threw msg, w1) => handler msg env w1
  | r => r

/-- JavaScript `throw` -/
def jsThrow {α : Type} (msg : String) : Run α := fun _ w => (.threw msg, w)

/-- JavaScript `process.exit(code)` -/
def processExit {α : Type} (code : Nat) : Run α := fun _ w => (.exited code, w)

/-- Write a line to the terminal. -/
def say (o : Output) : Run Unit := fun _ w =>
  (.returned (), { w with output := w.output ++ [o] })

/-- JavaScript `inquirer.prompt` with one question of type `confirm`. -/
def promptConfirm (name : String) : Run Bool := fun env w =>
  (.returned (env.confirm w name), { w with prompts := w.prompts ++ [name] })

/-- JavaScript `new Date()` -/
def newDate : Run JsDate := fun env w =>
  (.returned (env.clock w.clockReads), { w with clockReads := w.clockReads + 1 })

/-- Turn the marketplace's answer into a return or a throw. -/
def ofExcept {α : Type} : Except String α → World → Outcome α × World
  | .ok a, w => (.returned a, w)
  | .error msg, w => (.threw msg, w)

/-- JavaScript `client.send(new ListQualificationTypesCommand(req))` -/
def sendListQualificationTypes (req : ListQualificationTypesInput) :
    Run (List QualificationType) := fun env w =>
  ofExcept (env.listQualificationTypes w req)
    { w with calls := w.calls ++ [.listQualificationTypes req] }

/-- JavaScript `client.send(new CreateQualificationTypeCommand(req))` -/
def sendCreateQualificationType (req : CreateQualificationTypeInput) :
    Run QualificationType := fun env w =>
  ofExcept (env.createQualificationType w req)
    { w with calls := w.calls ++ [.createQualificationType req] }

/-- JavaScript `client.send(new AssociateQualificationWithWorkerCommand(req))` -/
def sendAssociateQualificationWithWorker (req : AssociateQualificationWithWorkerInput) :
    Run Unit := fun env w =>
  ofExcept (env.associateQualificationWithWorker w req)
    { w with calls := w.calls ++ [.associateQualificationWithWorker req] }

/-- JavaScript `client.send(new CreateHITCommand(req))` -/
def sendCreateHIT (req : CreateHITInput) : Run HIT := fun env w =>
  ofExcept (env.createHIT w req) { w with calls := w.calls ++ [.createHIT req] }

/-! ## Basic utilities -/

/-- Seconds in the given days, hours and minutes. -/
def dhmToSeconds (t : Dhm) : Nat :=
  ((24 * t.days + t.hours) * 60 + t.minutes) * 60

/-! ## The history journal: `getStudyHistory`, `updateStudyHistory` -/

/-- Path of an experiment's journal, relative to the module. -/
def studyHistoryPath (expName : String) : String :=
  "../experiments/" ++ expName ++ "/study-history.json"

/-- Whether the experiment's journal file can be accessed (the function `exists`). -/
def journalExists (expName : String) : Run Bool := fun _ w =>
  (.returned (decide (w.journals expName ≠ .absent)), w)

/-- Parse the journal file (`readJSON`); throws when it cannot be read as a journal. -/
def readJSON (expName : String) : Run Journal := fun _ w =>
  match w.journals expName with
  | .present j => (.returned j, w)
  | _ => (.threw "readJSON failed", w)

/-- Read the journal: `undefined` (here `none`) with a warning when the file is absent. -/
def getStudyHistory (expName : String) : Run (Option Journal) := do
  -- Read
  if ← journalExists expName then
    let studyHistoryJSON ← tryCatch (readJSON expName) (fun err => jsThrow err)
    return some studyHistoryJSON
  else
    say (.log ("Warning: Study history not found at " ++ studyHistoryPath expName ++ "."))
    return none

/-- The number that a property key stands for when it is an array index, the decimal
numeral of an integer below `2^32 - 1` without leading zeros: JavaScript lists the own
properties with such keys first, in ascending order, and the other string keys after them,
in the order of their creation. -/
def jsArrayIndex (key : String) : Option Nat :=
  if key.data.all Char.isDigit then
    let n := key.data.foldl (fun n c => n * 10 + (c.toNat - 48)) 0
    if jsStringOfNat n = key ∧ n < 4294967295 then some n else none
  else none

/-- The own properties after the value of the existing own property `key` is replaced: the
property keeps its place. -/
def Journal.replace (key : String) (v : JournalValue) : Journal → Journal
  | [] => []
  | (k, x) :: rest =>
    if k = key then (k, v) :: rest else (k, x) :: Journal.replace key v rest

/-- The own properties after the new own property `key` is created: an array index goes
before the first key that is not an array index or is a greater one, and any other key goes
last. -/
def Journal.add (key : String) (v : JournalValue) : Journal → Journal
  | [] => [(key, v)]
  | (k, x) :: rest =>
    match jsArrayIndex key, jsArrayIndex k with
    | some n, some m =>
      if m < n then (k, x) :: Journal.add key v rest else (key, v) :: (k, x) :: rest
    | some _, none => (key, v) :: (k, x) :: rest
    | none, _ => (k, x) :: Journal.add key v rest

/-- The own properties of the journal object after `obj[key] = v`, and after a change made
to the array that `obj[key]` gives. An own property is replaced in place. A key that is not
an own property is created, except `__proto__`: on that key the assignment goes to the
accessor inherited from `Object.prototype`, which makes `v` the prototype of the object,
`obj[key]` then gives that prototype, and the own properties, which are all that
`JSON.stringify` writes, stay as they are. -/
def Journal.set (j : Journal) (key : String) (v : JournalValue) : Journal :=
  if (j.lookup key).isSome then Journal.replace key v j
  else if key = "__proto__" then j
  else Journal.add key v j

/-- Read `obj[key]` when it is an array. -/
def Journal.seqOf (j : Journal) (key : String) : Option (List String) :=
  match j.lookup key with
  | some (.seq xs) => some xs
  | _ => none

/-- JavaScript `writeFile(studyHistoryURL, JSON.stringify(...))`: the journal file now holds
`j`. -/
def writeJournal (expName : String) (j : Journal) : Run Unit := fun env w =>
  match env.writeFile w expName j with
  | .ok _ =>
    (.returned (), { w with journals := Function.update w.journals expName (.present j) })
  | .error msg => (.threw msg, w)

/-- Append `value` to the sequence under `key` in the experiment's journal. -/
def updateStudyHistory (expName key value : String) : Run Nat := do
  -- Read
  let read ← tryCatch (getStudyHistory expName) (fun err => jsThrow err)
  let studyHistoryJSON : Journal ← (match read with
    | none => do
      say (.log "Initializing new study history.")
      pure [("HITId", .seq []), ("projectId", .seq []), ("siteId", .seq [])]
    | some j => pure j)
  -- Update
  let studyHistoryJSON : Journal ← (match Journal.seqOf studyHistoryJSON key with
    | some _ => pure studyHistoryJSON
    | none => do
      say (.log ("Warning: Field '" ++ key ++
        "' does not exist in study-history.json. Creating new field..."))
      pure (Journal.set studyHistoryJSON key (.seq [])))
  let studyHistoryJSON := Journal.set studyHistoryJSON key
    (.seq ((Journal.seqOf studyHistoryJSON key).getD [] ++ [value]))
  -- Write
  tryCatch (writeJournal expName studyHistoryJSON) (fun err => do
    say (.log ("Error: Write failed to " ++ studyHistoryPath expName))
    jsThrow err)
  say (.log ("Study history updated. Most recent " ++ key ++ " is '" ++ value ++ "'."))
  pure 0

/-- The URL of the site the study was last deployed to. Reading `history.siteId.slice`
throws a `TypeError` when the journal has no `siteId`, or a value without a `slice`
method; the array that `slice(-1)` returns is turned into text by the template literal. -/
def getLatestDeploySite (expName : String) : Run String := do
  let history ← getStudyHistory expName
  let history : Journal ← (match history with
    | none => do
      say (.log "Error: You have never deployed this study to a Firebase Hosting site.")
      processExit 1
    | some j => pure j)
  match history.lookup "siteId" with
  | some (.seq xs) => pure ("https://" ++ jsJoin "," (jsSliceList xs (-1)) ++ ".web.app")
  | some (.text s) => pure ("https://" ++ jsSlice s (-1) none ++ ".web.app")
  | none => jsThrow "TypeError: Cannot read properties of undefined (reading 'slice')"
  | some .null => jsThrow "TypeError: Cannot read properties of null (reading 'slice')"
  | some .other => jsThrow "TypeError: history.siteId.slice is not a function"

/-- The value of `history.projectId?.slice(-1)`: what `slice(-1)` returns on the recorded
value (for an array, the array of its last element), `undefined` when there is none. -/
def getLatestDeployProject (expName : String) : Run JsValue := do
  let history ← getStudyHistory expName
  let history : Journal ← (match history with
    | none => do
      say (.log "Error: You have never deployed this study to a Firebase Hosting site.")
      processExit 1
    | some j => pure j)
  match history.lookup "projectId" with
  | some (.seq xs) => pure (.array ((jsSliceList xs (-1)).map JsAtom.string))
  | some (.text s) => pure (.atom (.string (jsSlice s (-1) none)))
  | none => pure (.atom .undefined)
  | some .null => pure (.atom .undefined)
  | some .other => jsThrow "TypeError: history.projectId?.slice is not a function"

/-! ## MTurk utilities -/

/-- The elements `...(config.mturk?.keywords || '')` spreads into an array: the characters
of a string, the elements of an array, nothing when the keywords are missing. -/
def spreadKeywords : Option Keywords → List String
  | none => []
  | some (.text s) => s.data.map fun c => String.mk [c]
  | some (.list xs) => xs

/-- Build the input of the create-HIT request. The clock reading `date` is the one
`dateStringYMDHMS()` takes inside. Throws (a `TypeError`) when `config.summaryPara` or
`config.mturk` is missing. -/
def mturkCreateHIT (date : JsDate) (expName htmlQuestion : String)
    (qualificationRequirements : List QualificationRequirement) (config : StudyConfig) :
    Except String CreateHITInput :=
  -- Default label is YYYYMMDD_HHMM so you can only post once per clock-minute
  let batchLabel := jsSlice (dateStringYMDHMS date) 0 (some 13)
  match config.summaryPara, config.mturk with
  | some summaryPara, some mturk =>
    .ok
      { Title := config.title
        Description := jsJoin " " summaryPara
        Keywords := mturk.keywords
        Reward := mturk.reward
        MaxAssignments := config.totalAvailablePlaces
        AssignmentDurationInSeconds := dhmToSeconds mturk.allottedTime
        LifetimeInSeconds := dhmToSeconds mturk.expiration
        AutoApprovalDelayInSeconds := dhmToSeconds mturk.autoApprove
        Question := htmlQuestion
        RequesterAnnotation := expName
        QualificationRequirements := qualificationRequirements
        UniqueRequestToken := expName ++ "_" ++ batchLabel }
  | _, _ => .error "TypeError: Cannot read properties of undefined"

/-- Plan the batch sizes for `totalAvailablePlaces` participants; above 9 the user is asked
whether to avoid the extra fee. -/
def mturkPromptPostCopies (totalAvailablePlaces : Nat) : Run (List Nat) := do
  if totalAvailablePlaces > 9 then
    let avoidExtraFee ← promptConfirm "avoidExtraFee"
    if avoidExtraFee then
      let sampleSizes := List.replicate (totalAvailablePlaces / 9) 9
      if totalAvailablePlaces % 9 > 0 then
        pure (sampleSizes ++ [totalAvailablePlaces % 9])
      else
        pure sampleSizes
    else
      pure [totalAvailablePlaces]
  else
    pure [totalAvailablePlaces]

/-- List the caller's qualification types that match `query`. -/
def mturkListQualifications (query : String) : Run (List QualificationType) :=
  tryCatch
    (sendListQualificationTypes
      { Query := query, MustBeRequestable := false, MustBeOwnedByCaller := true })
    (fun error => jsThrow error)

/-- The first listed qualification type whose name is `name`, or `undefined` (`none`). -/
def mturkGetQualificationByName (name : String) : Run (Option QualificationType) := do
  let res ← tryCatch (mturkListQualifications name) (fun error => jsThrow error)
  let found := (res.filter fun x => x.Name == name).head?
  pure found

/-- The loop of `mturkPrepareQualifications` that assigns the qualification to each
worker. -/
def mturkPrepareQualifications.assign (qid : QualificationRef) : List String → Run Unit
  | [] => pure ()
  | wkr :: rest => do
    let text := "Assigning qualification " ++ qid.render ++ " to " ++ wkr
    tryCatch
      (do
        sendAssociateQualificationWithWorker
          { QualificationTypeId := qid, WorkerId := wkr, SendNotification := true,
            IntegerValue := 1 }
        say (.succeed text))
      (fun error => say (.fail ("Failed to assign qualification to " ++ wkr ++ ": " ++ error)))
    mturkPrepareQualifications.assign qid rest

/-- Compensation mode of `mturkPrepareQualifications` (source lines 944-995): a one-off
qualification is created, assigned to the workers, and required to exist. -/
def mturkPrepareQualifications.compensation (config : StudyConfig) :
    Run (List QualificationRequirement) := do
  let workers ← (match config.workersToCompensate with
    | some (wkr :: rest) => pure (wkr :: rest)
    | _ => do
      say (.log ("Error: You must specify workersToCompensate in " ++
        "/experiments/compensation/study-config.js."))
      processExit 1)
  let date ← newDate
  let req : CreateQualificationTypeInput :=
    { Name := "Compensation " ++ dateStringYMDHMS date
      Description := "Qualification for a compensation HIT for the following worker(s): " ++
        jsJoin "," workers
      Keywords := "compensation, " ++ jsJoin ", " workers
      QualificationTypeStatus := "Active" }
  let qid ← tryCatch
    (do
      let res ← sendCreateQualificationType req
      say (.succeed "Creating qualification for compensation HIT...")
      pure (QualificationRef.id res.QualificationTypeId))
    (fun error => do
      say (.fail error)
      pure QualificationRef.undefined)

  -- Assign to the workers
  mturkPrepareQualifications.assign qid workers

  let QualificationRequirements : List QualificationRequirement :=
    [{ Comparator := "Exists", QualificationTypeId := qid,
       ActionsGuarded := "DiscoverPreviewAndAccept" }]
  pure QualificationRequirements

/-- The variable `studyConsentQID` of `mturkPrepareQualifications` (source lines 998-1017):
the qualification named after the experiment as the lookup returns it, or the id of a newly
created one, or `undefined` when the creation fails. -/
def mturkPrepareQualifications.studyConsent (expName : String) (config : StudyConfig) :
    Run QualificationRef := do
  let studyConsentQID ← mturkGetQualificationByName expName
  match studyConsentQID with
  | some q => pure (QualificationRef.record q)
  | none =>
    say (.info "No qualification exists for this study.")
    let req : CreateQualificationTypeInput :=
      { Name := expName
        Description := "Assigned to workers who consent to participate in study '" ++
          expName ++ "'"
        Keywords := jsJoin ", " (["ouvrai", "consent"] ++
          spreadKeywords (config.mturk.bind fun m => m.keywords))
        QualificationTypeStatus := "Active" }
    tryCatch
      (do
        let res ← sendCreateQualificationType req
        say (.succeed ("Creating qualification for '" ++ expName ++ "'..."))
        pure (QualificationRef.id res.QualificationTypeId))
      (fun error => do
        say (.fail error)
        pure QualificationRef.undefined)

/-- The list `QualificationRequirements` that `mturkPrepareQualifications` builds outside
compensation mode (source lines 998-1103), before the sandbox question. The mutable array of
the source is the variable `QualificationRequirements`, rebound at each `push`. -/
def mturkPrepareQualifications.build (expName : String) (config : StudyConfig) :
    Run (List QualificationRequirement) := do
  let QualificationRequirements : List QualificationRequirement := []
  let studyConsentQID ← mturkPrepareQualifications.studyConsent expName config

  let QualificationRequirements := QualificationRequirements ++
    [{ Comparator := "DoesNotExist", QualificationTypeId := studyConsentQID,
       ActionsGuarded := "DiscoverPreviewAndAccept" }]

  -- Block list
  let QualificationRequirements := QualificationRequirements ++
    ((config.mturk.bind fun m => m.qualificationBlocklist).getD []).map fun exqid =>
      { Comparator := "DoesNotExist", QualificationTypeId := .id exqid,
        ActionsGuarded := "DiscoverPreviewAndAccept" }

  -- Allow list
  let QualificationRequirements := QualificationRequirements ++
    ((config.mturk.bind fun m => m.qualificationAllowlist).getD []).map fun reqid =>
      { Comparator := "Exists", QualificationTypeId := .id reqid,
        ActionsGuarded := "DiscoverPreviewAndAccept" }

  -- Location allow
  let QualificationRequirements :=
    if (config.mturk.map fun m => m.restrictLocation) = some (.atom (.string "US")) then
      QualificationRequirements ++
        [{ QualificationTypeId := .id "00000000000000000071", Comparator := "In",
           LocaleValues := some [{ Country := "US" }],
           ActionsGuarded := "DiscoverPreviewAndAccept" }]
    else QualificationRequirements

  -- Approval rate cutoff
  let restrictApprovalRate : JsValue :=
    (config.mturk.map fun m => m.restrictApprovalRate).getD (.atom .undefined)
  if restrictApprovalRate.truthy then
    let cutoff : Int :=
      match restrictApprovalRate with
      | .atom (.number (.finite q)) =>
        if numberIsInteger restrictApprovalRate then q.num else 99
      | _ => 99
    let QualificationRequirements := QualificationRequirements ++
      [{ QualificationTypeId := .id "000000000000000000L0", -- percentage approved
         Comparator := "GreaterThanOrEqualTo", IntegerValues := some [cutoff],
         ActionsGuarded := "DiscoverPreviewAndAccept" }]
    -- Note: percentage approved is locked to 100% until a worker completes 100 HITs
    -- Prompt to block these workers
    let blockUnder100 ← promptConfirm "blockUnder100"
    if blockUnder100 then
      pure (QualificationRequirements ++
        [{ QualificationTypeId := .id "00000000000000000040", -- number approved
           Comparator := "GreaterThan", IntegerValues := some [100],
           ActionsGuarded := "DiscoverPreviewAndAccept" }])
    else pure QualificationRequirements
  else pure QualificationRequirements

/-- Build the `QualificationRequirements` of the study. -/
def mturkPrepareQualifications (expName : String) (config : StudyConfig) (options : Options) :
    Run (List QualificationRequirement) := do
  if options.compensation || expName == "compensation" then
    mturkPrepareQualifications.compensation config
  else
    let QualificationRequirements ← mturkPrepareQualifications.build expName config

    if QualificationRequirements.length > 0 && options.sandbox then
      let disableQualifications ← promptConfirm "disableQualifications"
      if disableQualifications then
        pure []
      else pure QualificationRequirements
    else pure QualificationRequirements

/-- One round of the batch loop of `mturkPostStudy`, after the request has been updated:
the `try` block that creates the HIT and records its id, and its `catch`. -/
def mturkPostStudy.submit (expName previewURL : String)
    (createHITCommandInput : CreateHITInput) : Run Unit :=
  tryCatch
    (do
      let createHITCommandOutput ← sendCreateHIT createHITCommandInput
      say (.log ("Successfully created draft study! (" ++ createHITCommandOutput.HITId ++
        ")" ++ "\nPreview it at " ++ (previewURL ++ createHITCommandOutput.HITGroupId) ++
        "."))
      let _ ← updateStudyHistory expName "HITId" createHITCommandOutput.HITId
      pure ())
    (fun error => do
      say (.log error)
      processExit 1)

/-- The batch loop of `mturkPostStudy`: batch number `i + 1` carries the first size of the
list. The loop variable `createHITCommandInput` is updated in place at each round. -/
def mturkPostStudy.batches (expName previewURL baseToken : String) :
    CreateHITInput → Nat → List Nat → Run Unit
  | _, _, [] => pure ()
  | createHITCommandInput, i, n :: rest => do
    say (.log "-------------------")
    let i := i + 1
    let createHITCommandInput :=
      { createHITCommandInput with
        UniqueRequestToken := baseToken ++ ("_v" ++ padStart (jsStringOfNat i) 3 "0")
        MaxAssignments := n }
    mturkPostStudy.submit expName previewURL createHITCommandInput
    mturkPostStudy.batches expName previewURL baseToken createHITCommandInput i rest

/-- The constant `mturkConfig`. -/
structure MturkEndpoints where
  endpoint : String
  sandboxEndpoint : String
  previewURL : String
  sandboxPreviewURL : String

/-- The exported `mturkConfig`. -/
def mturkConfig : MturkEndpoints :=
  { endpoint := "https://mturk-requester.us-east-1.amazonaws.com"
    sandboxEndpoint := "https://mturk-requester-sandbox.us-east-1.amazonaws.com"
    previewURL := "https://worker.mturk.com/mturk/preview?groupId="
    sandboxPreviewURL := "https://workersandbox.mturk.com/mturk/preview?groupId=" }

/-- Post the study on MTurk. The page builder `mturkPrepareHTML(expName, studyURL, config,
firebaseConfig, options)` is the argument `prepareHTML`. The value returned is the
configuration object as the call leaves it (the JavaScript function returns nothing). -/
def mturkPostStudy (prepareHTML : Run String) (expName : String) (config : StudyConfig)
    (mturkConfig : MturkEndpoints) (options : Options) : Run StudyConfig := do
  (if !options.sandbox then do
    let confirm ← promptConfirm "confirm"
    if !confirm then do
      say (.log "\nYour study has NOT been posted to MTurk.\n")
      processExit 1
    else pure ()
  else pure ())

  let htmlQuestion ← prepareHTML

  let qualificationRequirements ← mturkPrepareQualifications expName config options

  let config ← (
    if options.compensation then
      match config.workersToCompensate with
      | some workers => pure { config with totalAvailablePlaces := workers.length }
      | none => jsThrow "TypeError: Cannot read properties of undefined"
    else pure config)
  let date ← newDate
  let createHITCommandInput ← (
    match mturkCreateHIT date expName htmlQuestion qualificationRequirements config with
    | .ok input => pure input
    | .error msg => jsThrow msg)

  let sampleSizes ← mturkPromptPostCopies config.totalAvailablePlaces

  let previewURL := if options.sandbox then mturkConfig.sandboxPreviewURL
    else mturkConfig.previewURL

  let baseToken := createHITCommandInput.UniqueRequestToken
  mturkPostStudy.batches expName previewURL baseToken createHITCommandInput 0 sampleSizes
  return config

/-! ## The task page: `mturkPrepareHTML` -/

/-- JavaScript line terminators: in a regular expression `.` matches every character but
these, and with the flag `m` a line starts after one and ends before one. -/
def jsLineTerminator (c : Char) : Bool :=
  c = '\n' || c = '\r' || c = Char.ofNat 0x2028 || c = Char.ofNat 0x2029

/-- The match of the regular expression `/^.*marker.*$/m`: the first line that holds
`marker`, with the text before it and the text after it. The text is read from left to
right; `before` is the text of the lines already passed and `line` the part of the current
line already read. -/
def findMarkedLine (marker : List Char) :
    List Char → List Char → List Char → Option (List Char × List Char × List Char)
  | before, line, [] => if marker <:+: line then some (before, line, []) else none
  | before, line, c :: rest =>
    if jsLineTerminator c then
      if marker <:+: line then some (before, line, c :: rest)
      else findMarkedLine marker (before ++ line ++ [c]) [] rest
    else findMarkedLine marker before (line ++ [c]) rest

/-- The text that `String.prototype.replace` puts in place of a match of a pattern without
groups, for the replacement text given last: `$$` stands for `$`, `$&` for the match, `$`
followed by a backtick for the text before the match, `$` followed by an apostrophe for the
text after it, and every other character for itself. -/
def jsExpandReplacement (before matched after : List Char) : List Char → List Char
  | [] => []
  | [c] => [c]
  | c :: d :: rest =>
    if c = '$' then
      if d = '$' then '$' :: jsExpandReplacement before matched after rest
      else if d = '&' then matched ++ jsExpandReplacement before matched after rest
      else if d = Char.ofNat 96 then before ++ jsExpandReplacement before matched after rest
      else if d = Char.ofNat 39 then after ++ jsExpandReplacement before matched after rest
      else '$' :: jsExpandReplacement before matched after (d :: rest)
    else c :: jsExpandReplacement before matched after (d :: rest)

/-- JavaScript `text.replace(/^.*marker.*$/m, replacement)`: the first line that holds
`marker` is replaced; a text without such a line is returned as it is. -/
def replaceMarkedLine (marker replacement text : String) : String :=
  match findMarkedLine marker.data [] [] text.data with
  | some (before, line, after) =>
    String.mk (before ++ jsExpandReplacement before line after replacement.data ++ after)
  | none => text

/-- An element that the page builder creates and fills: a list (`ul` or `ol`) with the text
assigned to its `style` and one `li` per item, or a paragraph `p`; the text of an item or
paragraph is its `textContent`. -/
inductive NewElement
  | list (tag style : String) (items : List String)
  | paragraph (text : String)
  deriving DecidableEq

/-- An edit of the document; `id` names the element that `document.getElementById(id)`
returned. -/
inductive DomEdit
  /-- JavaScript `element.textContent = text` -/
  | setTextContent (id text : String)
  /-- JavaScript `element.appendChild(child)` -/
  | appendChild (id : String) (child : NewElement)
  /-- JavaScript `element.parentElement?.removeChild(element)` -/
  | removeFromParent (id : String)
  deriving DecidableEq

/-- What `mturkPrepareHTML` takes from its libraries and from the clock. -/
structure PageTools where
  /-- the text of `new Date()` -/
  dateText : String
  /-- whether `document.getElementById(id)` finds an element in the document parsed from the
  text, after the edits made so far -/
  hasElement : String → List DomEdit → String → Bool
  /-- JavaScript `dom.serialize()` for the document parsed from the text, after the edits -/
  serialize : String → List DomEdit → String
  /-- JavaScript `minify(html, options)`, or the message of the error it throws -/
  minify : String → Except String String

/-- The two layout files: the text of each, or the message of the error that reading it
throws. -/
structure LayoutFiles where
  /-- the file `../config/layout/mturk-layout.html` -/
  layout : Except String String
  /-- the file `../config/layout/mturk-layout-compensation.html` -/
  compensationLayout : Except String String

/-- The argument `firebaseConfig`. -/
structure FirebaseConfig where
  databaseURL : Option String := none

/-- How a call of `mturkPrepareHTML` ends, the layout files as it leaves them, and the lines
it writes to the terminal. -/
structure PageResult where
  outcome : Outcome String
  files : LayoutFiles
  output : List Output

/-- Template-literal rendering of a value that may be `undefined`. -/
def jsTemplate : Option String → String
  | some s => s
  | none => "undefined"

/-- The opening of an `HTMLQuestion`. -/
def beginXmlTags : String :=
  "<HTMLQuestion xmlns=\"http://mechanicalturk.amazonaws.com/" ++
    "AWSMechanicalTurkDataSchemas/2011-11-11/HTMLQuestion.xsd\"> <HTMLContent><![CDATA["

/-- The closing of an `HTMLQuestion`. -/
def endXmlTags : String := "]]> </HTMLContent> <FrameHeight>0</FrameHeight> </HTMLQuestion>"

/-- The step `if (Array.isArray(items) && items.length > 0)` that appends a list to the
element `id` (found or not) and clears the removal flag; the state is the edits made so far
and the flag. -/
def mturkPrepareHTML.appendList (found : Bool) (id tag : String) (items : Option (List String))
    (state : List DomEdit × Bool) : Except String (List DomEdit × Bool) :=
  match items with
  | some (x :: xs) =>
    if found then
      .ok (state.1 ++ [.appendChild id (.list tag "padding-left: 1em" (x :: xs))], false)
    else .error "TypeError: Cannot read properties of null (reading 'appendChild')"
  | _ => .ok state

/-- The step `if (Array.isArray(paras) && paras.length > 0)` that appends one paragraph per
entry to the element `id` and clears the removal flag. -/
def mturkPrepareHTML.appendParagraphs (found : Bool) (id : String)
    (paras : Option (List String)) (state : List DomEdit × Bool) :
    Except String (List DomEdit × Bool) :=
  match paras with
  | some (x :: xs) =>
    if found then
      .ok (state.1 ++ (x :: xs).map fun p => .appendChild id (.paragraph p), false)
    else .error "TypeError: Cannot read properties of null (reading 'appendChild')"
  | _ => .ok state

/-- The step `if (remove) element.parentElement?.removeChild(element)`. -/
def mturkPrepareHTML.removeIf (remove found : Bool) (id : String) (edits : List DomEdit) :
    Except String (List DomEdit) :=
  if remove then
    if found then .ok (edits ++ [.removeFromParent id])
    else .error "TypeError: Cannot read properties of null (reading 'parentElement')"
  else .ok edits

/-- Step 2 of `mturkPrepareHTML` (source lines 837-917): the edits made to the document
parsed from `text`, or the message of the `TypeError` thrown when an element is missing. -/
def mturkPrepareHTML.modifyDOM (tools : PageTools) (text : String) (config : StudyConfig) :
    Except String (List DomEdit) := do
  -- Title
  let edits : List DomEdit ← (
    if tools.hasElement text [] "title-text" then
      pure [.setTextContent "title-text" config.title]
    else throw "TypeError: Cannot set properties of null (setting 'textContent')")
  -- Requirements
  let reqdiv := tools.hasElement text edits "requirements"
  let state ← mturkPrepareHTML.appendList reqdiv "requirements" "ul" config.requirementsList
    (edits, true)
  let state ← mturkPrepareHTML.appendParagraphs reqdiv "requirements" config.requirementsPara
    state
  let edits := state.1
  let removeReqDiv := state.2
  -- Summary
  let summarydiv := tools.hasElement text edits "summary"
  let state ← mturkPrepareHTML.appendParagraphs summarydiv "summary" config.summaryPara
    (edits, true)
  let edits := state.1
  let removeSummaryDiv := state.2
  -- Instructions
  let instrdiv := tools.hasElement text edits "instructions"
  let state ← mturkPrepareHTML.appendList instrdiv "instructions" "ol" config.instructionsList
    (edits, true)
  let state ← mturkPrepareHTML.appendParagraphs instrdiv "instructions"
    config.instructionsPara state
  let edits := state.1
  let removeInstrDiv := state.2
  let edits ← mturkPrepareHTML.removeIf removeReqDiv reqdiv "requirements" edits
  let edits ← mturkPrepareHTML.removeIf removeSummaryDiv summarydiv "summary" edits
  let edits ← mturkPrepareHTML.removeIf removeInstrDiv instrdiv "instructions" edits
  pure edits

/-- The end of `mturkPrepareHTML` (source lines 923-937): the page is minified and wrapped
in the XML of an `HTMLQuestion`. -/
def mturkPrepareHTML.wrap (tools : PageTools) (html : String) (files : LayoutFiles) :
    PageResult :=
  match tools.minify html with
  | .error msg => ⟨.threw msg, files, []⟩
  | .ok minified => ⟨.returned (beginXmlTags ++ minified ++ endXmlTags), files, []⟩

/-- Build the `HTMLQuestion` of the study. The replacement step rewrites the layout file,
and the document is parsed from the file as rewritten. -/
def mturkPrepareHTML (tools : PageTools) (expName studyURL : String) (config : StudyConfig)
    (firebaseConfig : FirebaseConfig) (options : Options) (files : LayoutFiles) : PageResult :=
  if options.compensation then
    match files.compensationLayout with
    | .error msg => ⟨.threw msg, files, []⟩
    | .ok html => mturkPrepareHTML.wrap tools html files
  else
    -- 1. Overwrite JavaScript variables
    let timestampComment := "// " ++ tools.dateText
    match files.layout with
    | .error msg => ⟨.exited 1, files, [.log msg]⟩
    | .ok text =>
      let text := replaceMarkedLine "expName = "
        ("        const expName = '" ++ expName ++ "'; " ++ timestampComment) text
      let text := replaceMarkedLine "taskURL = "
        ("        const taskURL = '" ++ studyURL ++ "'; " ++ timestampComment) text
      let text := replaceMarkedLine "databaseURL = "
        ("        const databaseURL = '" ++ jsTemplate firebaseConfig.databaseURL ++ "'; " ++
          timestampComment) text
      let files := { files with layout := .ok text }
      -- 2. Modify the DOM
      match mturkPrepareHTML.modifyDOM tools text config with
      | .error msg => ⟨.threw msg, files, []⟩
      | .ok edits => mturkPrepareHTML.wrap tools (tools.serialize text edits) files

/-! ## Prolific utilities -/

/-- JavaScript `s.indexOf(sub) === -1` negated: `sub` occurs in `s`. -/
def jsIncludes (s sub : String) : Bool := decide (sub.data <:+: s.data)

/-- The HTML description of the study, built from the configured lists and paragraphs. -/
def prolificPrepareDescriptionHTML (config : StudyConfig) : String :=
  let description := ""
  -- Requirements
  -- If requirements list items are supplied
  let description :=
    match config.requirementsList with
    | some (req :: reqs) =>
      -- Add the header, then the ordered list
      description ++ "<h2>Requirements</h2>" ++ "<p><ul>" ++
        String.join ((req :: reqs).map fun req => "<li>" ++ req ++ "</li>") ++ "</ul><p>"
    | _ => description
  -- If requirements paragraphs are supplied
  let description :=
    match config.requirementsPara with
    | some (reqp :: reqps) =>
      -- Add the header if it is not there already
      (if jsIncludes description "<h2>Requirements</h2>" then description
        else description ++ "<h2>Requirements</h2>") ++
        String.join ((reqp :: reqps).map fun reqp => "<p>" ++ reqp ++ "</p>")
    | _ => description
  -- Summary
  let description :=
    match config.summaryPara with
    | some (summp :: summps) =>
      description ++ "<h2>Summary</h2>" ++
        String.join ((summp :: summps).map fun summp => "<p>" ++ summp ++ "</p>")
    | _ => description
  -- Instructions
  -- If instructions list items are supplied
  let description :=
    match config.instructionsList with
    | some (instr :: instrs) =>
      description ++ "<h2>Instructions</h2>" ++ "<p><ol>" ++
        String.join ((instr :: instrs).map fun instr => "<li>" ++ instr ++ "</li>") ++ "</ol><p>"
    | _ => description
  -- If instructions paragraphs are supplied
  let description :=
    match config.instructionsPara with
    | some (instrp :: instrps) =>
      -- Add the header if it is not there already
      (if jsIncludes description "<h2>Instructions</h2>" then description
        else description ++ "<h2>Instructions</h2>") ++
        String.join ((instrp :: instrps).map fun instrp => "<p>" ++ instrp ++ "</p>")
    | _ => description
  description

/-- One entry of a requirement's `attributes`. -/
structure EligibilityAttribute where
  name : String
  value : JsAtom
  index : Option Nat := none
  deriving DecidableEq

/-- The `query` of a requirement. -/
structure EligibilityQuery where
  id : String
  question : Option String := none
  participant_help_text : Option String := none
  deriving DecidableEq

/-- One element of `eligibility_requirements`; `query` is `none` when the object literal has
no `query`. -/
structure EligibilityRequirement where
  _cls : String
  query : Option EligibilityQuery := none
  attributes : List EligibilityAttribute
  deriving DecidableEq

/-- One entry of `completion_codes`. -/
structure CompletionCode where
  code : String
  code_type : String
  actions : List String
  deriving DecidableEq

/-- The study object sent to Prolific. -/
structure StudyObject where
  name : String
  internal_name : String
  description : Option String
  external_study_url : String
  prolific_id_option : String
  completion_option : String
  completion_codes : List CompletionCode
  total_available_places : Nat
  estimated_completion_time : JsAtom
  maximum_allowed_time : JsAtom
  reward : JsAtom
  device_compatibility : List String
  peripheral_requirements : List String
  eligibility_requirements : List EligibilityRequirement
  naivety_distribution_rate : JsAtom
  project : Option String
  deriving DecidableEq

/-- The value of `config.prolific.screeners?.[key]`: `undefined` when there are no screeners
or no such key. -/
def StudyConfig.screener (config : StudyConfig) (key : String) : JsValue :=
  ((config.prolific.screeners.getD []).lookup key).getD (.atom .undefined)

/-- Build the study object. The project chooser `prolificSelectProject()` is the argument
`prolificSelectProject`; `existingStudy` is the truthiness of the argument of that name. The
second component of the result is the configuration object as the call leaves it. -/
def prolificCreateStudyObject (prolificSelectProject : Run String) (expName studyURL : String)
    (config : StudyConfig) (existingStudy : Bool) : Run (StudyObject × StudyConfig) := do
  let config := { config with description := some (prolificPrepareDescriptionHTML config) }
  let studyObject : StudyObject :=
    { name := config.title
      internal_name := expName
      description := config.description
      external_study_url := studyURL ++
        "?PROLIFIC_PID=\x7b\x7b%PROLIFIC_PID%\x7d\x7d&STUDY_ID=\x7b\x7b%STUDY_ID%\x7d\x7d" ++
        "&SESSION_ID=\x7b\x7b%SESSION_ID%\x7d\x7d"
      prolific_id_option := "url_parameters"
      completion_option := "url"
      completion_codes :=
        [{ code := "OUVRAI", code_type := "COMPLETED", actions := ["MANUALLY_REVIEW"] }]
      total_available_places := config.totalAvailablePlaces
      estimated_completion_time := config.prolific.estimatedCompletionTime
      maximum_allowed_time := config.prolific.maximumAllowedTime
      reward := config.prolific.reward
      device_compatibility := config.prolific.compatibleDevices
      peripheral_requirements := []
      eligibility_requirements := []
      naivety_distribution_rate := config.prolific.naivety
      project := config.prolific.project }
  let studyObject ← (
    if !existingStudy && !(decide (studyObject.project ≠ none ∧ studyObject.project ≠ some ""))
    then do
      let project ← prolificSelectProject
      pure { studyObject with project := some project }
    else pure studyObject)
  let eligibility_requirements := studyObject.eligibility_requirements
  let eligibility_requirements :=
    if arrayIsArray (config.screener "ageRange") then
      eligibility_requirements ++
        [{ _cls := "web.eligibility.models.AgeRangeEligibilityRequirement"
           query := some { id := "54ac6ea9fdf99b2204feb893" }
           attributes :=
            [{ value := (config.screener "ageRange").index 0, name := "min_age" },
             { value := (config.screener "ageRange").index 1, name := "max_age" }] }]
    else eligibility_requirements
  let eligibility_requirements :=
    if arrayIsArray (config.screener "approvalRateRange") then
      eligibility_requirements ++
        [{ _cls := "web.eligibility.models.ApprovalRateEligibilityRequirement"
           attributes :=
            [{ name := "minimum_approval_rate",
               value := (config.screener "approvalRateRange").index 0 },
             { name := "maximum_approval_rate",
               value := (config.screener "approvalRateRange").index 1 }] }]
    else eligibility_requirements
  let eligibility_requirements :=
    if (config.screener "fluentEnglish").truthy then
      eligibility_requirements ++
        [{ _cls := "web.eligibility.models.MultiSelectAnswerEligibilityRequirement"
           query := some
            { id := "58c6b44ea4dd0a4799361afc"
              question := some "Which of the following languages are you fluent in?" }
           attributes := [{ name := "English", value := .bool true, index := some 19 }] }]
    else eligibility_requirements
  let eligibility_requirements :=
    if (config.screener "excludeDementia").truthy then
      eligibility_requirements ++
        [{ _cls := "web.eligibility.models.SelectAnswerEligibilityRequirement"
           query := some
            { id := "59cb6f8c21454d000194c364"
              question := some ("Have you ever been diagnosed with mild cognitive " ++
                "impairment or dementia?") }
           attributes := [{ name := "No", value := .bool true, index := some 1 }] }]
    else eligibility_requirements
  let eligibility_requirements :=
    if (config.screener "excludeMS").truthy then
      eligibility_requirements ++
        [{ _cls := "web.eligibility.models.SelectAnswerEligibilityRequirement"
           query := some
            { id := "5d825cdfbe876600168b6d16"
              question := some "Have you ever been diagnosed with multiple sclerosis (MS)?" }
           attributes := [{ name := "No", value := .bool true, index := some 1 }] }]
    else eligibility_requirements
  let eligibility_requirements :=
    if (config.screener "excludeMentalHealthImpact").truthy then
      eligibility_requirements ++
        [{ _cls := "web.eligibility.models.SelectAnswerEligibilityRequirement"
           query := some
            { id := "58c951b0a4dd0a08048f3017"
              question := some ("Do you have any diagnosed mental health condition that is " ++
                "uncontrolled (by medication or intervention) and which has a significant " ++
                "impact on your daily life / activities?") }
           attributes := [{ name := "No", value := .bool true, index := some 1 }] }]
    else eligibility_requirements
  let eligibility_requirements :=
    if (config.screener "normalVision").truthy then
      eligibility_requirements ++
        [{ _cls := "web.eligibility.models.SelectAnswerEligibilityRequirement"
           query := some
            { id := "57a0c4d2717b34954e81b919"
              question := some "Do you have normal or corrected-to-normal vision?"
              participant_help_text := some ("For example, you can see colour normally, " ++
                "and if you need glasses, you are wearing them or contact lenses") }
           attributes := [{ name := "Yes", value := .bool true, index := some 0 }] }]
    else eligibility_requirements
  let eligibility_requirements :=
    if (config.screener "ownVR").truthy then
      eligibility_requirements ++
        [{ _cls := "web.eligibility.models.SelectAnswerEligibilityRequirement"
           query := some
            { id := "5eac255ff716eb05e0ed3853"
              question := some "Do you own a VR (Virtual Reality) headset?" }
           attributes := [{ name := "Yes", value := .bool true, index := some 0 }] }]
    else eligibility_requirements
  -- TODO: blocklist and allowlist (the source keeps them commented out)
  return ({ studyObject with eligibility_requirements := eligibility_requirements }, config)

/-! ## Definitions used to state the properties -/

/-- An outside world in which every marketplace request and every file write succeeds,
every prompt gets the answer `yes`, no qualification is listed, and the clock stands at
2024-01-01 12:00:05. -/
def Env.answering (yes : Bool) : Env :=
  { listQualificationTypes := fun _ _ => .ok []
    createQualificationType := fun _ req => .ok ⟨"Q-" ++ req.Name, req.Name⟩
    associateQualificationWithWorker := fun _ _ => .ok ()
    createHIT := fun _ req => .ok ⟨"HIT-" ++ req.UniqueRequestToken, "GROUP"⟩
    confirm := fun _ _ => yes
    clock := fun _ => ⟨2024, 0, 1, 12, 0, 5⟩
    writeFile := fun _ _ _ => .ok () }

/-- The same outside world with the clock standing at `d`. -/
def Env.atTime (env : Env) (d : JsDate) : Env :=
  { env with clock := fun _ => d }

/-- A study of 23 places with a one-paragraph summary, whose MTurk section holds the empty
string as reward, durations of zero days, hours and minutes, and nothing else. -/
def sampleConfig : StudyConfig :=
  { summaryPara := some ["A study."], totalAvailablePlaces := 23, mturk := some {} }

/-- The clock reading has a four-digit year and fields in the ranges the getters return. -/
def JsDate.InRange (d : JsDate) : Prop :=
  1000 ≤ d.fullYear ∧ d.fullYear ≤ 9999 ∧ d.month ≤ 11 ∧ 1 ≤ d.date ∧ d.date ≤ 31 ∧
    d.hours ≤ 23 ∧ d.minutes ≤ 59 ∧ d.seconds ≤ 59

instance (d : JsDate) : Decidable d.InRange := by
  unfold JsDate.InRange
  infer_instance

/-- The two clock readings fall in the same clock minute. -/
def JsDate.SameMinute (a b : JsDate) : Prop :=
  a.fullYear = b.fullYear ∧ a.month = b.month ∧ a.date = b.date ∧ a.hours = b.hours ∧
    a.minutes = b.minutes

instance (a b : JsDate) : Decidable (a.SameMinute b) := by
  unfold JsDate.SameMinute
  infer_instance

/-- A study whose MTurk section holds only the approval-rate value `v`. -/
def approvalConfig (v : JsValue) : StudyConfig :=
  { summaryPara := some ["A study."], totalAvailablePlaces := 23,
    mturk := some { restrictApprovalRate := v } }

/-- A study with two blocklisted and one allowlisted qualification, restricted to the US and
to an approval rate of 95. -/
def restrictedConfig : StudyConfig :=
  { summaryPara := some ["A study."], totalAvailablePlaces := 23,
    mturk := some
      { qualificationBlocklist := some ["B1", "B2"], qualificationAllowlist := some ["A1"],
        restrictLocation := .atom (.string "US"),
        restrictApprovalRate := .atom (.number (.finite 95)) } }

/-- The value the code keeps from the answer to a create-qualification request: the new
id, or `undefined` when the request failed. -/
def QualificationRef.ofResponse : Except String QualificationType → QualificationRef
  | .ok res => .id res.QualificationTypeId
  | .error _ => .undefined

/-- The assignment request for one worker. -/
def assignRequest (qid : QualificationRef) (wkr : String) : Command :=
  .associateQualificationWithWorker
    { QualificationTypeId := qid, WorkerId := wkr, SendNotification := true, IntegerValue := 1 }

/-- The restricted study, to be posted as a compensation for three workers. -/
def compensationConfig : StudyConfig :=
  { restrictedConfig with workersToCompensate := some ["W1", "W2", "W3"] }

/-- The age-range requirement. -/
def ageRangeRequirement (minAge maxAge : JsAtom) : EligibilityRequirement :=
  { _cls := "web.eligibility.models.AgeRangeEligibilityRequirement"
    query := some { id := "54ac6ea9fdf99b2204feb893" }
    attributes := [{ value := minAge, name := "min_age" }, { value := maxAge, name := "max_age" }] }

/-- The approval-rate-range requirement; it has no `query`. -/
def approvalRateRangeRequirement (minRate maxRate : JsAtom) : EligibilityRequirement :=
  { _cls := "web.eligibility.models.ApprovalRateEligibilityRequirement"
    attributes :=
      [{ name := "minimum_approval_rate", value := minRate },
       { name := "maximum_approval_rate", value := maxRate }] }

/-- The requirement of a screener answered by one option of a question. -/
def answerRequirement (cls id question : String) (help : Option String) (answer : String)
    (index : Nat) : EligibilityRequirement :=
  { _cls := cls
    query := some { id := id, question := some question, participant_help_text := help }
    attributes := [{ name := answer, value := .bool true, index := some index }] }

/-- The requirements of the flag screeners, in the order of the source: their key in
`screeners` and the requirement each contributes when enabled. -/
def flagScreeners : List (String × EligibilityRequirement) :=
  [("fluentEnglish",
      answerRequirement "web.eligibility.models.MultiSelectAnswerEligibilityRequirement"
        "58c6b44ea4dd0a4799361afc" "Which of the following languages are you fluent in?" none
        "English" 19),
   ("excludeDementia",
      answerRequirement "web.eligibility.models.SelectAnswerEligibilityRequirement"
        "59cb6f8c21454d000194c364"
        "Have you ever been diagnosed with mild cognitive impairment or dementia?" none "No" 1),
   ("excludeMS",
      answerRequirement "web.eligibility.models.SelectAnswerEligibilityRequirement"
        "5d825cdfbe876600168b6d16"
        "Have you ever been diagnosed with multiple sclerosis (MS)?" none "No" 1),
   ("excludeMentalHealthImpact",
      answerRequirement "web.eligibility.models.SelectAnswerEligibilityRequirement"
        "58c951b0a4dd0a08048f3017"
        ("Do you have any diagnosed mental health condition that is uncontrolled (by " ++
          "medication or intervention) and which has a significant impact on your daily " ++
          "life / activities?") none "No" 1),
   ("normalVision",
      answerRequirement "web.eligibility.models.SelectAnswerEligibilityRequirement"
        "57a0c4d2717b34954e81b919" "Do you have normal or corrected-to-normal vision?"
        (some ("For example, you can see colour normally, and if you need glasses, you are " ++
          "wearing them or contact lenses")) "Yes" 0),
   ("ownVR",
      answerRequirement "web.eligibility.models.SelectAnswerEligibilityRequirement"
        "5eac255ff716eb05e0ed3853" "Do you own a VR (Virtual Reality) headset?" none "Yes" 0)]

/-- The eligibility requirements the specification describes: zero or one per screener, in
the fixed order age range, approval-rate range, then the six flags. -/
def screenerRequirements (config : StudyConfig) : List EligibilityRequirement :=
  (if arrayIsArray (config.screener "ageRange") then
    [ageRangeRequirement ((config.screener "ageRange").index 0)
      ((config.screener "ageRange").index 1)] else []) ++
  (if arrayIsArray (config.screener "approvalRateRange") then
    [approvalRateRangeRequirement ((config.screener "approvalRateRange").index 0)
      ((config.screener "approvalRateRange").index 1)] else []) ++
  (flagScreeners.filter fun s => (config.screener s.1).truthy).map Prod.snd

/-- The number of enabled screeners: the two ranges count when they are arrays, the six
flags when they are truthy. -/
def enabledScreeners (config : StudyConfig) : Nat :=
  (if arrayIsArray (config.screener "ageRange") then 1 else 0) +
  (if arrayIsArray (config.screener "approvalRateRange") then 1 else 0) +
  (flagScreeners.filter fun s => (config.screener s.1).truthy).length

/-- A study screened by age (18 to 40), approval rate (95 to 100) and normal vision. -/
def screenedConfig : StudyConfig :=
  { prolific :=
      { project := some "P1"
        screeners := some
          [("normalVision", .atom (.bool true)),
           ("approvalRateRange",
              .array [.number (.finite 95), .number (.finite 100)]),
           ("ageRange", .array [.number (.finite 18), .number (.finite 40)])] } }

/-- The same study with the screener keys written in another order. -/
def screenedConfigReordered : StudyConfig :=
  { prolific :=
      { project := some "P1"
        screeners := some
          [("ageRange", .array [.number (.finite 18), .number (.finite 40)]),
           ("normalVision", .atom (.bool true)),
           ("approvalRateRange",
              .array [.number (.finite 95), .number (.finite 100)])] } }

/-- The `UniqueRequestToken`s of the create-HIT requests among `calls`, in order. -/
def createHITTokens (calls : List Command) : List String :=
  calls.filterMap fun c =>
    match c with
    | .createHIT req => some req.UniqueRequestToken
    | _ => none

/-- Value of a string of decimal digits, read left to right. -/
def decimalValue (s : List Char) : Nat :=
  s.foldl (fun acc c => 10 * acc + (c.toNat - 48)) 0

/-- The decimal numeral of `i`, left-padded with zeros to three digits (the wording of the
specification). -/
def threeDigitNumeral (i : Nat) : String :=
  String.mk (List.replicate (3 - (Nat.repr i).length) '0') ++ Nat.repr i

/-- The computation leaves the observation `f` of the world as it was. -/
def Run.Preserves {α β : Type} (f : World → β) (m : Run α) : Prop :=
  ∀ env w, f (m env w).2 = f w

/-- The computation sends exactly the commands `cs` to the marketplace, however it ends. -/
def Run.Sends {α : Type} (m : Run α) (cs : List Command) : Prop :=
  ∀ env w, (m env w).2.calls = w.calls ++ cs

/-- The requirement that the worker does not hold the study's own qualification. -/
def consentRequirement (qid : QualificationRef) : QualificationRequirement :=
  { QualificationTypeId := qid, Comparator := "DoesNotExist",
    ActionsGuarded := "DiscoverPreviewAndAccept" }

/-- The requirement that the worker does not hold a blocklisted qualification. -/
def blockRequirement (exqid : String) : QualificationRequirement :=
  { QualificationTypeId := .id exqid, Comparator := "DoesNotExist",
    ActionsGuarded := "DiscoverPreviewAndAccept" }

/-- The requirement that the worker holds an allowlisted qualification. -/
def allowRequirement (reqid : String) : QualificationRequirement :=
  { QualificationTypeId := .id reqid, Comparator := "Exists",
    ActionsGuarded := "DiscoverPreviewAndAccept" }

/-- The requirement that the worker is located in the US. -/
def localeRequirement : QualificationRequirement :=
  { QualificationTypeId := .id "00000000000000000071", Comparator := "In",
    LocaleValues := some [{ Country := "US" }], ActionsGuarded := "DiscoverPreviewAndAccept" }

/-- The approval-rate requirement with the given cutoff. -/
def approvalRateRequirement (cutoff : Int) : QualificationRequirement :=
  { QualificationTypeId := .id "000000000000000000L0", Comparator := "GreaterThanOrEqualTo",
    IntegerValues := some [cutoff], ActionsGuarded := "DiscoverPreviewAndAccept" }

/-- The count requirement: more than 100 approved tasks. -/
def countRequirement : QualificationRequirement :=
  { QualificationTypeId := .id "00000000000000000040", Comparator := "GreaterThan",
    IntegerValues := some [100], ActionsGuarded := "DiscoverPreviewAndAccept" }

/-- The configured approval-rate value, `undefined` when there is none. -/
def StudyConfig.restrictApprovalRate (config : StudyConfig) : JsValue :=
  (config.mturk.map fun m => m.restrictApprovalRate).getD (.atom .undefined)

/-- The cutoff the specification describes: the supplied value when it is a whole number,
99 otherwise. -/
def approvalCutoff : JsValue → Int
  | .atom (.number (.finite q)) => if q.den = 1 then q.num else 99
  | _ => 99

/-- The layout of the requirement list the specification describes, for a study-consent
qualification `qid` and an answer to the block-under-100 prompt. -/
def requirementLayout (qid : QualificationRef) (config : StudyConfig) (blockUnder100 : Bool) :
    List QualificationRequirement :=
  [consentRequirement qid] ++
    ((config.mturk.bind fun m => m.qualificationBlocklist).getD []).map blockRequirement ++
    ((config.mturk.bind fun m => m.qualificationAllowlist).getD []).map allowRequirement ++
    (if (config.mturk.map fun m => m.restrictLocation) = some (.atom (.string "US")) then
      [localeRequirement] else []) ++
    (if config.restrictApprovalRate.truthy then
      approvalRateRequirement (approvalCutoff config.restrictApprovalRate) ::
        (if blockUnder100 then [countRequirement] else [])
    else [])

/-- The requirement is an approval-rate requirement. -/
def QualificationRequirement.IsApprovalRate (r : QualificationRequirement) : Prop :=
  r.QualificationTypeId = .id "000000000000000000L0" ∧ r.Comparator = "GreaterThanOrEqualTo"

/-- The requirement is a count (number-approved) requirement. -/
def QualificationRequirement.IsCount (r : QualificationRequirement) : Prop :=
  r.QualificationTypeId = .id "00000000000000000040" ∧ r.Comparator = "GreaterThan"

instance (r : QualificationRequirement) : Decidable r.IsApprovalRate := by
  unfold QualificationRequirement.IsApprovalRate
  infer_instance

instance (r : QualificationRequirement) : Decidable r.IsCount := by
  unfold QualificationRequirement.IsCount
  infer_instance

/-- The computation always returns, and leaves the observation `f` as it was. -/
def Run.Safe {α β : Type} (f : World → β) (m : Run α) : Prop :=
  ∀ env w, (∃ a, (m env w).1 = .returned a) ∧ f (m env w).2 = f w

/-- The computation returns or throws, and leaves the observation `f` as it was. -/
def Run.NoExit {α β : Type} (f : World → β) (m : Run α) : Prop :=
  ∀ env w, (∀ code, (m env w).1 ≠ .exited code) ∧ f (m env w).2 = f w

/-- The sequence recorded under `key` in the journal of the experiment: empty when there is
no journal, no such key, or no sequence under it. -/
def World.history (w : World) (expName key : String) : List String :=
  match w.journals expName with
  | .present j => (Journal.seqOf j key).getD []
  | _ => []

/-- The journal object that `updateStudyHistory` starts from: the recorded one, or the three
known keys with empty sequences when there is no file. -/
def World.journalOrInitial (w : World) (expName : String) : Journal :=
  match w.journals expName with
  | .present j => j
  | _ => [("HITId", .seq []), ("projectId", .seq []), ("siteId", .seq [])]

/-- The journal object that the update step of `updateStudyHistory` (source lines 1325-1335)
leaves, starting from the journal object `j`. -/
def Journal.appended (j : Journal) (key value : String) : Journal :=
  let j1 := match Journal.seqOf j key with
    | some _ => j
    | none => Journal.set j key (.seq [])
  Journal.set j1 key (.seq ((Journal.seqOf j1 key).getD [] ++ [value]))

/-- The journal value is an array. -/
def JournalValue.isSeq : JournalValue → Bool
  | .seq _ => true
  | _ => false

/-- A world whose only journal is `j`, recorded for the experiment `exp`. -/
def journalWorld (j : Journal) : World :=
  { journals := fun e => if e = "exp" then .present j else .absent }

/-- Appending `a` and then `b` under `key` in the journal of the experiment. -/
def appendTwice (expName key a b : String) : Run Nat := do
  let _ ← updateStudyHistory expName key a
  updateStudyHistory expName key b

/-- The request of the batch at position `i` with `n` places: the prepared request with its
token and its number of assignments set for the batch. -/
def batchRequest (baseToken : String) (input : CreateHITInput) (i n : Nat) : CreateHITInput :=
  { input with
    UniqueRequestToken := baseToken ++ ("_v" ++ padStart (jsStringOfNat i) 3 "0")
    MaxAssignments := n }

/-- The requests of a plan, in batch order; the first batch is at position `i + 1`. -/
def batchRequests (baseToken : String) (input : CreateHITInput) (i : Nat) (sizes : List Nat) :
    List CreateHITInput :=
  (sizes.enumFrom (i + 1)).map fun p => batchRequest baseToken input p.1 p.2

/-- The HIT ids of the answers that precede the first failure. -/
def leadingIds : List (Except String HIT) → List String
  | .ok hit :: rest => hit.HITId :: leadingIds rest
  | _ => []

/-- The marketplace's answers to the create-HIT requests of a plan, one per batch in batch
order, each given in the world that the rounds before it left (the first round starts in
`w`, at position `i + 1`). -/
def batchAnswers (expName previewURL baseToken : String) (env : Env) (input : CreateHITInput) :
    Nat → World → List Nat → List (Except String HIT)
  | _, _, [] => []
  | i, w, n :: rest =>
    env.createHIT { w with output := w.output ++ [.log "-------------------"] }
        (batchRequest baseToken input (i + 1) n) ::
      batchAnswers expName previewURL baseToken env input (i + 1)
        (mturkPostStudy.batches expName previewURL baseToken input i [n] env w).2 rest

/-- What one round of the batch loop comes to in the world `w`: the HIT created, when the
marketplace accepts the request and the journal update that follows returns; otherwise the
message of the error that the `catch` of the round receives, from the create call or from
the journal update. -/
def roundResult (expName previewURL : String) (env : Env) (w : World) (req : CreateHITInput) :
    Except String HIT :=
  match env.createHIT w req with
  | .error msg => .error msg
  | .ok hit =>
    match (updateStudyHistory expName "HITId" hit.HITId env
      { w with
        calls := w.calls ++ [.createHIT req]
        output := w.output ++ [.log ("Successfully created draft study! (" ++ hit.HITId ++
          ")" ++ "\nPreview it at " ++ (previewURL ++ hit.HITGroupId) ++ ".")] }).1 with
    | .returned _ => .ok hit
    | .threw msg => .error msg
    | .exited _ => .error "exit"

/-- What the rounds of a plan come to, one per batch in batch order, each in the world that
the rounds before it left (the first round starts in `w`, at position `i + 1`). -/
def roundResults (expName previewURL baseToken : String) (env : Env) (input : CreateHITInput) :
    Nat → World → List Nat → List (Except String HIT)
  | _, _, [] => []
  | i, w, n :: rest =>
    roundResult expName previewURL env
        { w with output := w.output ++ [.log "-------------------"] }
        (batchRequest baseToken input (i + 1) n) ::
      roundResults expName previewURL baseToken env input (i + 1)
        (mturkPostStudy.batches expName previewURL baseToken input i [n] env w).2 rest

/-- An outside world that accepts every marketplace request and in which the journal file
cannot be written. -/
def Env.unwritable : Env :=
  { Env.answering true with writeFile := fun _ _ _ => .error "EACCES: permission denied" }

/-- The marketplace answer that rejects the request carrying `token` and accepts every
other one. -/
def batchAnswer (token : String) (req : CreateHITInput) : Except String HIT :=
  if req.UniqueRequestToken = token then .error "ServiceFault"
  else .ok ⟨"HIT-" ++ req.UniqueRequestToken, "GROUP"⟩

/-- An outside world that rejects the create-HIT request carrying `token`. -/
def Env.rejectingBatch (token : String) : Env :=
  { Env.answering true with createHIT := fun _ req => batchAnswer token req }

/-- A prepared create-HIT request. -/
def sampleInput : CreateHITInput :=
  { Title := "A study", Description := "A study.", Keywords := none, Reward := "1.00",
    MaxAssignments := 23, AssignmentDurationInSeconds := 3600, LifetimeInSeconds := 86400,
    AutoApprovalDelayInSeconds := 0, Question := "<html>", RequesterAnnotation := "exp",
    QualificationRequirements := [], UniqueRequestToken := "exp_20240101_1200" }

/-- An outside world that rejects the assignment of a qualification to the worker `wkr`
and accepts every other request. -/
def Env.rejectingWorker (wkr : String) : Env :=
  { Env.answering true with
    associateQualificationWithWorker := fun _ req =>
      if req.WorkerId = wkr then .error "RequestError" else .ok () }

/-- The line reported for one assignment attempt, given the marketplace's answer. -/
def assignReport (qid : QualificationRef) (wkr : String) : Except String Unit → Output
  | .ok _ => .succeed ("Assigning qualification " ++ qid.render ++ " to " ++ wkr)
  | .error msg => .fail ("Failed to assign qualification to " ++ wkr ++ ": " ++ msg)

/-- The marketplace's answers to the assignment attempts for `workers`, one per worker in
list order, each given in the world that the attempts before it left. -/
def assignAnswers (qid : QualificationRef) (env : Env) :
    World → List String → List (Except String Unit)
  | _, [] => []
  | w, wkr :: rest =>
    env.associateQualificationWithWorker w
        { QualificationTypeId := qid, WorkerId := wkr, SendNotification := true,
          IntegerValue := 1 } ::
      assignAnswers qid env (mturkPrepareQualifications.assign qid [wkr] env w).2 rest

/-- The line reports a success. -/
def Output.isSuccess : Output → Bool
  | .succeed _ => true
  | _ => false

/-- The line reports a failure. -/
def Output.isFailure : Output → Bool
  | .fail _ => true
  | _ => false

/-- An outside world in which the marketplace lists the qualification types `qs`. -/
def Env.listing (qs : List QualificationType) : Env :=
  { Env.answering true with listQualificationTypes := fun _ _ => .ok qs }

/-- The create-qualification request for the study's own qualification. -/
def consentRequest (expName : String) (config : StudyConfig) : CreateQualificationTypeInput :=
  { Name := expName
    Description := "Assigned to workers who consent to participate in study '" ++
      expName ++ "'"
    Keywords := jsJoin ", " (["ouvrai", "consent"] ++
      spreadKeywords (config.mturk.bind fun m => m.keywords))
    QualificationTypeStatus := "Active" }

/-- The lookup request for the name. -/
def lookupRequest (name : String) : Command :=
  .listQualificationTypes
    { Query := name, MustBeRequestable := false, MustBeOwnedByCaller := true }

/-- The create-qualification requests among `calls`, in order. -/
def createQualificationRequests (calls : List Command) : List CreateQualificationTypeInput :=
  calls.filterMap fun c =>
    match c with
    | .createQualificationType req => some req
    | _ => none

/-- The qualification types that the create-qualification requests among `calls` made,
in order. -/
def createdQualifications (calls : List Command) : List QualificationType :=
  (createQualificationRequests calls).map fun req => ⟨"Q-" ++ req.Name, req.Name⟩

/-- An outside world whose marketplace lists the qualification types created so far. -/
def Env.marketplace : Env :=
  { Env.answering true with
    listQualificationTypes := fun w _ => .ok (createdQualifications w.calls) }

/-- An outside world whose marketplace rejects every create-qualification request. -/
def Env.rejectingCreation : Env :=
  { Env.answering true with createQualificationType := fun _ _ => .error "ServiceFault" }

/-- Running `mturkPrepareQualifications` twice in a row. -/
def prepareTwice (expName : String) (config : StudyConfig) (options : Options) :
    Run (List QualificationRequirement) := do
  let _ ← mturkPrepareQualifications expName config options
  mturkPrepareQualifications expName config options

/-- A world in which the journal file of the experiment `exp` exists and cannot be parsed. -/
def unreadableWorld : World :=
  { journals := fun e => if e = "exp" then .unreadable else .absent }

/-- The elements appended to the element `id` by the edits, in order. -/
def appendedTo (id : String) (edits : List DomEdit) : List NewElement :=
  edits.filterMap fun e =>
    match e with
    | .appendChild target child => if target = id then some child else none
    | _ => none

/-- The content of a section as the specification words it: a single list element holding
one item per configured entry, when there is an entry, followed by one paragraph per
configured paragraph. -/
def sectionContent (tag : String) (items paras : Option (List String)) : List NewElement :=
  (if items.getD [] = [] then [] else [.list tag "padding-left: 1em" (items.getD [])]) ++
    (paras.getD []).map NewElement.paragraph

/-- The edits that fill a section. -/
def sectionEdits (id tag : String) (items paras : Option (List String)) : List DomEdit :=
  (sectionContent tag items paras).map fun child => .appendChild id child

/-- The edit that removes a section without content. -/
def sectionRemoval (id : String) (items paras : Option (List String)) : List DomEdit :=
  if items.getD [] = [] ∧ paras.getD [] = [] then [.removeFromParent id] else []

/-- A study with two requirement items, one requirement paragraph and one instruction
paragraph, and no summary. -/
def sectionedConfig : StudyConfig :=
  { title := "Reaching", requirementsList := some ["Adult", "Mouse"],
    requirementsPara := some ["Sit upright."], instructionsPara := some ["Reach."] }

/-- The ids that `mturkPrepareHTML` looks up in the document. -/
def lookedUpIds : List String := ["title-text", "requirements", "summary", "instructions"]

/-- Tools for the examples. An element is found when the text of the file holds the
attribute `id="..."` with its id, which is how the layouts of the examples write their
elements. The serialiser and the minifier are stand-ins for the libraries: the
serialisation is the text of the file followed by the number of edits made, and the
minifier returns the page as it is. -/
def plainTools : PageTools :=
  { dateText := "Mon Jan 01 2024 12:00:05 GMT+0000"
    hasElement := fun text _ id => jsIncludes text ("id=\"" ++ id ++ "\"")
    serialize := fun text edits => text ++ "<!-- " ++ jsStringOfNat edits.length ++ " -->"
    minify := fun html => .ok html }

/-- The lines of the layout of `sampleFiles`: a page that sets the three variables in a
script and has the four elements looked up. -/
def sampleLines : List String :=
  ["<!DOCTYPE html>", "<html>", "<head>", "<script>", "  const expName = 'old';",
    "  const taskURL = 'old';", "  const databaseURL = 'old';", "</script>", "</head>",
    "<body>", "<h1 id=\"title-text\"></h1>", "<div id=\"requirements\"></div>",
    "<div id=\"summary\"></div>", "<div id=\"instructions\"></div>", "</body>", "</html>"]

/-- The text of the layout of `sampleFiles`. -/
def sampleLayout : String := jsJoin "\n" sampleLines

/-- The layout files of the examples. -/
def sampleFiles : LayoutFiles :=
  { layout := .ok sampleLayout
    compensationLayout := .ok "<p>Thank you</p>" }

/-- A layout that has the four elements looked up and none of the three markers. -/
def unmarkedLayout : String :=
  "<!DOCTYPE html><html><head></head><body><h1 id=\"title-text\"></h1>" ++
    "<div id=\"requirements\"></div><div id=\"summary\"></div>" ++
    "<div id=\"instructions\"></div></body></html>"

/-- The `MaxAssignments` of the create-HIT requests among `calls`, in order. -/
def createHITSizes (calls : List Command) : List Nat :=
  calls.filterMap fun c =>
    match c with
    | .createHIT req => some req.MaxAssignments
    | _ => none

/-- A study with a summary, to be posted on Prolific under the project `P1`. -/
def describedConfig : StudyConfig :=
  { summaryPara := some ["A study."], prolific := { project := some "P1" } }

/-- Line `i` is the first of the lines `ls` that holds `marker`. -/
def markedAt (marker : String) (ls : List String) (i : Nat) : Prop :=
  i < ls.length ∧ jsIncludes (ls.getD i "") marker = true ∧
    ∀ j < i, jsIncludes (ls.getD j "") marker = false

instance (marker : String) (ls : List String) (i : Nat) : Decidable (markedAt marker ls i) := by
  unfold markedAt
  infer_instance

/-- The text holds no line terminator. -/
def singleLine (s : String) : Bool := s.data.all fun c => !jsLineTerminator c

/-- The text holds no `$`. -/
def dollarFree (s : String) : Bool := s.data.all fun c => c != '$'

/-- The line that `mturkPrepareHTML` writes for the variable `expName`. -/
def expNameLine (tools : PageTools) (expName : String) : String :=
  "        const expName = '" ++ expName ++ "'; " ++ ("// " ++ tools.dateText)

/-- The line that `mturkPrepareHTML` writes for the variable `taskURL`. -/
def taskURLLine (tools : PageTools) (studyURL : String) : String :=
  "        const taskURL = '" ++ studyURL ++ "'; " ++ ("// " ++ tools.dateText)

/-- The line that `mturkPrepareHTML` writes for the variable `databaseURL`. -/
def databaseURLLine (tools : PageTools) (firebaseConfig : FirebaseConfig) : String :=
  "        const databaseURL = '" ++ jsTemplate firebaseConfig.databaseURL ++ "'; " ++
    ("// " ++ tools.dateText)

/-- A line that can stand for a marked line: it holds no line terminator and no `$`. -/
def plainLine (s : String) : Bool := singleLine s && dollarFree s

/-- Layout files whose template holds none of the three markers. -/
def unmarkedFiles : LayoutFiles :=
  { layout := .ok unmarkedLayout
    compensationLayout := .ok "<p>Thank you</p>" }

/-- The decimal numeral of `n`, left-padded with zeros to `width` digits (the wording of the
specification). -/
def zeroPadded (width n : Nat) : String :=
  String.mk (List.replicate (width - (Nat.repr n).length) '0') ++ Nat.repr n

/-- The label `YYYYMMDD_HHMM` of a clock reading (the wording of the specification): year,
calendar month, day, an underscore, hour and minute. -/
def minuteLabel (d : JsDate) : String :=
  zeroPadded 4 d.fullYear ++ zeroPadded 2 (d.month + 1) ++ zeroPadded 2 d.date ++ "_" ++
    zeroPadded 2 d.hours ++ zeroPadded 2 d.minutes

/-- The request that `mturkCreateHIT` builds for the sample study at 12:00 on 2024-01-01. -/
def sampleRequest : CreateHITInput :=
  { Title := "", Description := "A study.", Keywords := none, Reward := "",
    MaxAssignments := 23, AssignmentDurationInSeconds := 0, LifetimeInSeconds := 0,
    AutoApprovalDelayInSeconds := 0, Question := "<html>", RequesterAnnotation := "exp",
    QualificationRequirements := [], UniqueRequestToken := "exp_20240101_1200" }

/-- One section of the description as the specification words it: nothing when the section
has no content, otherwise its header once, then the list, then the paragraphs. -/
def describedSection (header listOpen listClose : String) (items paras : List String) :
    String :=
  if items = [] ∧ paras = [] then ""
  else
    header ++
      (if items = [] then ""
        else listOpen ++ String.join (items.map fun x => "<li>" ++ x ++ "</li>") ++ listClose) ++
      String.join (paras.map fun x => "<p>" ++ x ++ "</p>")

/-- The requirements and summary sections as the specification words them. -/
def describedLead (config : StudyConfig) : String :=
  describedSection "<h2>Requirements</h2>" "<p><ul>" "</ul><p>"
      (config.requirementsList.getD []) (config.requirementsPara.getD []) ++
    describedSection "<h2>Summary</h2>" "" "" [] (config.summaryPara.getD [])

/-- The description as the specification words it: the sections Requirements, Summary and
Instructions, in this order. -/
def describedHTML (config : StudyConfig) : String :=
  describedLead config ++
    describedSection "<h2>Instructions</h2>" "<p><ol>" "</ol><p>"
      (config.instructionsList.getD []) (config.instructionsPara.getD [])

/-- A study whose summary paragraph quotes the header of the instructions. -/
def quotingConfig : StudyConfig :=
  { summaryPara := some ["See <h2>Instructions</h2>"], instructionsPara := some ["Do it"] }

/-! ## Running an effectful computation -/

@[simp] theorem run_pure {α : Type} (a : α) (env : Env) (w : World) :
    (pure a : Run α) env w = (.returned a, w) := rfl

@[simp] theorem run_bind {α β : Type} (m : Run α) (f : α → Run β) (env : Env) (w : World) :
    (m >>= f) env w =
      match m env w with
      | (.returned a, w1) => f a env w1
      | (.threw msg, w1) => (.threw msg, w1)
      | (.exited code, w1) => (.exited code, w1) := rfl

theorem preserves_pure {α β : Type} (f : World → β) (a : α) :
    Run.Preserves f (pure a : Run α) := fun _ _ => rfl

theorem preserves_bind {α γ β : Type} (f : World → β) (m : Run α) (k : α → Run γ)
    (hm : Run.Preserves f m) (hk : ∀ a, Run.Preserves f (k a)) :
    Run.Preserves f (m >>= k) := by
  intro env w
  have h1 := hm env w
  rw [run_bind]
  rcases hr : m env w with ⟨o, w1⟩
  rw [hr] at h1
  cases o with
  | returned a => simpa [h1] using hk a env w1
  | threw msg => exact h1
  | exited code => exact h1

theorem preserves_tryCatch {α β : Type} (f : World → β) (m : Run α) (k : String → Run α)
    (hm : Run.Preserves f m) (hk : ∀ a, Run.Preserves f (k a)) :
    Run.Preserves f (tryCatch m k) := by
  intro env w
  have h1 := hm env w
  unfold tryCatch
  rcases hr : m env w with ⟨o, w1⟩
  rw [hr] at h1
  cases o with
  | returned a => exact h1
  | threw msg => simpa [h1] using hk msg env w1
  | exited code => exact h1

theorem preserves_jsThrow {α β : Type} (f : World → β) (msg : String) :
    Run.Preserves f (jsThrow msg : Run α) := fun _ _ => rfl

theorem preserves_processExit {α β : Type} (f : World → β) (code : Nat) :
    Run.Preserves f (processExit code : Run α) := fun _ _ => rfl

theorem preserves_journalExists {β : Type} (f : World → β) (expName : String) :
    Run.Preserves f (journalExists expName) := fun _ _ => rfl

theorem preserves_readJSON {β : Type} (f : World → β) (expName : String) :
    Run.Preserves f (readJSON expName) := by
  intro env w
  unfold readJSON
  split <;> rfl

theorem say_calls (o : Output) : Run.Preserves World.calls (say o) := fun _ _ => rfl

theorem writeJournal_calls (expName : String) (j : Journal) :
    Run.Preserves World.calls (writeJournal expName j) := by
  intro env w
  unfold writeJournal
  split <;> rfl

theorem getStudyHistory_calls (expName : String) :
    Run.Preserves World.calls (getStudyHistory expName) := by
  unfold getStudyHistory
  repeat' first
    | exact preserves_pure _ _
    | exact preserves_jsThrow _ _
    | exact say_calls _
    | exact preserves_journalExists _ _
    | exact preserves_readJSON _ _
    | refine preserves_bind _ _ _ ?_ (fun _ => ?_)
    | refine preserves_tryCatch _ _ _ ?_ (fun _ => ?_)
    | (dsimp only; split)

/-- Updating the journal sends nothing to the marketplace. -/
theorem updateStudyHistory_calls (expName key value : String) :
    Run.Preserves World.calls (updateStudyHistory expName key value) := by
  unfold updateStudyHistory
  repeat' first
    | exact preserves_pure _ _
    | exact preserves_jsThrow _ _
    | exact say_calls _
    | exact writeJournal_calls _ _
    | exact getStudyHistory_calls _
    | refine preserves_bind _ _ _ ?_ (fun _ => ?_)
    | refine preserves_tryCatch _ _ _ ?_ (fun _ => ?_)
    | (dsimp only; split)

/-! ## Batch planning: `mturkPromptPostCopies` -/

/-- What `mturkPromptPostCopies` returns and leaves behind, for every input. -/
theorem mturkPromptPostCopies_run (N : Nat) (env : Env) (w : World) :
    mturkPromptPostCopies N env w =
      if N ≤ 9 then (.returned [N], w)
      else if env.confirm w "avoidExtraFee" = false then
        (.returned [N], { w with prompts := w.prompts ++ ["avoidExtraFee"] })
      else
        (.returned (List.replicate (N / 9) 9 ++ if N % 9 = 0 then [] else [N % 9]),
          { w with prompts := w.prompts ++ ["avoidExtraFee"] }) := by
  unfold mturkPromptPostCopies
  by_cases h : N ≤ 9
  · have : ¬ N > 9 := by omega
    simp [h, this]
  · have h9 : N > 9 := by omega
    simp only [h9, h, if_true, if_false, run_bind, promptConfirm]
    cases hc : env.confirm w "avoidExtraFee"
    · simp
    · by_cases hm : N % 9 = 0
      · simp [hm]
      · have : N % 9 > 0 := by omega
        simp [hm, this]

/-- C1. For every `N` and every answer to the fee prompt, `mturkPromptPostCopies N` returns
`[N]` without asking anything when `N ≤ 9`, returns `[N]` when the answer is no, and
otherwise returns `N / 9` batches of 9 followed by the batch `N % 9` exactly when that is
not zero. The four examples of the specification are the last four conjuncts. -/
theorem mturkPromptPostCopies_plan (N : Nat) (env : Env) (w : World) :
    (mturkPromptPostCopies N env w =
      if N ≤ 9 then (.returned [N], w)
      else if env.confirm w "avoidExtraFee" = false then
        (.returned [N], { w with prompts := w.prompts ++ ["avoidExtraFee"] })
      else
        (.returned (List.replicate (N / 9) 9 ++ if N % 9 = 0 then [] else [N % 9]),
          { w with prompts := w.prompts ++ ["avoidExtraFee"] })) ∧
    (mturkPromptPostCopies 9 (Env.answering true) {}).1 = .returned [9] ∧
    (mturkPromptPostCopies 23 (Env.answering true) {}).1 = .returned [9, 9, 5] ∧
    (mturkPromptPostCopies 23 (Env.answering false) {}).1 = .returned [23] ∧
    (mturkPromptPostCopies 0 (Env.answering true) {}).1 = .returned [0] :=
  ⟨mturkPromptPostCopies_run N env w, rfl, rfl, rfl, rfl⟩

/-- C2. For `N > 9`, when the user chooses to avoid the extra fee, `mturkPromptPostCopies`
returns a plan in which every batch size is between 1 and 9. -/
theorem mturkPromptPostCopies_batch_bounds (N : Nat) (env : Env) (w : World) (hN : 9 < N)
    (hfee : env.confirm w "avoidExtraFee" = true) :
    ∃ plan, (mturkPromptPostCopies N env w).1 = .returned plan ∧
      ∀ n ∈ plan, 1 ≤ n ∧ n ≤ 9 := by
  have h9 : ¬ N ≤ 9 := by omega
  refine ⟨List.replicate (N / 9) 9 ++ if N % 9 = 0 then [] else [N % 9], ?_, ?_⟩
  · rw [mturkPromptPostCopies_run]
    simp [h9, hfee]
  · intro n hn
    rcases List.mem_append.mp hn with h | h
    · have := List.eq_of_mem_replicate h
      omega
    · by_cases hm : N % 9 = 0
      · simp [hm] at h
      · simp only [hm, if_false, List.mem_singleton] at h
        have := Nat.mod_lt N (show 9 > 0 by decide)
        omega

/-- Witness of C2 at `N = 23`. -/
theorem mturkPromptPostCopies_batch_bounds_witness :
    9 < 23 ∧ (Env.answering true).confirm {} "avoidExtraFee" = true ∧
      ∃ plan, (mturkPromptPostCopies 23 (Env.answering true) {}).1 = .returned plan ∧
        ∀ n ∈ plan, 1 ≤ n ∧ n ≤ 9 :=
  ⟨by decide, rfl,
    mturkPromptPostCopies_batch_bounds 23 (Env.answering true) {} (by decide) rfl⟩

/-! ## Decimal numerals -/

theorem toDigitsCore_fuel (n : Nat) : ∀ (fuel1 fuel2 : Nat) (ds : List Char),
    n < fuel1 → n < fuel2 →
    Nat.toDigitsCore 10 fuel1 n ds = Nat.toDigitsCore 10 fuel2 n [] ++ ds := by
  induction n using Nat.strong_induction_on with
  | _ n ih =>
    intro fuel1 fuel2 ds h1 h2
    obtain ⟨f1, rfl⟩ : ∃ f, fuel1 = f + 1 := ⟨fuel1 - 1, by omega⟩
    obtain ⟨f2, rfl⟩ : ∃ f, fuel2 = f + 1 := ⟨fuel2 - 1, by omega⟩
    rw [Nat.toDigitsCore, Nat.toDigitsCore]
    by_cases h0 : n / 10 = 0
    · simp [h0]
    · simp only [h0, if_false]
      have hlt : n / 10 < n := Nat.div_lt_self (by omega) (by decide)
      rw [ih (n / 10) hlt f1 f2 _ (by omega) (by omega),
        ih (n / 10) hlt f2 f2 [Nat.digitChar (n % 10)] (by omega) (by omega)]
      simp

theorem toDigits_of_lt (n : Nat) (h : n < 10) : Nat.toDigits 10 n = [Nat.digitChar n] := by
  have h0 : n / 10 = 0 := by omega
  have h1 : n % 10 = n := by omega
  simp [Nat.toDigits, Nat.toDigitsCore, h0, h1]

theorem toDigits_of_ge (n : Nat) (h : 10 ≤ n) :
    Nat.toDigits 10 n = Nat.toDigits 10 (n / 10) ++ [Nat.digitChar (n % 10)] := by
  have h0 : n / 10 ≠ 0 := by omega
  unfold Nat.toDigits
  rw [Nat.toDigitsCore]
  simp only [h0, if_false]
  exact toDigitsCore_fuel (n / 10) n (n / 10 + 1) _ (Nat.div_lt_self (by omega) (by decide))
    (by omega)

theorem digitChar_value (d : Nat) (h : d < 10) : (Nat.digitChar d).toNat - 48 = d := by
  interval_cases d <;> rfl

theorem decimalValue_append (s : List Char) (c : Char) :
    decimalValue (s ++ [c]) = 10 * decimalValue s + (c.toNat - 48) := by
  simp [decimalValue, List.foldl_append]

/-- Reading the numeral of `n` gives `n` back. -/
theorem decimalValue_toDigits (n : Nat) : decimalValue (Nat.toDigits 10 n) = n := by
  induction n using Nat.strong_induction_on with
  | _ n ih =>
    by_cases h : n < 10
    · rw [toDigits_of_lt n h]
      simp [decimalValue, digitChar_value n h]
    · rw [toDigits_of_ge n (by omega), decimalValue_append,
        ih (n / 10) (Nat.div_lt_self (by omega) (by decide)),
        digitChar_value _ (Nat.mod_lt _ (by decide))]
      omega

theorem flatten_replicate_singleton (k : Nat) (c : Char) :
    (List.replicate k [c]).flatten = List.replicate k c := by
  induction k with
  | zero => rfl
  | succ k ih => simp [List.replicate_succ, ih]

/-- The suffix the batch loop computes is the three-digit numeral of the specification. -/
theorem padStart_eq_threeDigitNumeral (i : Nat) :
    padStart (jsStringOfNat i) 3 "0" = threeDigitNumeral i := by
  unfold padStart threeDigitNumeral jsStringOfNat
  have h0 : ("0" : String).length = 1 := rfl
  have hd : ("0" : String).data = ['0'] := rfl
  by_cases h : 3 ≤ (Nat.repr i).length
  · have : 3 - (Nat.repr i).length = 0 := by omega
    simp only [h, true_or, if_true, this, List.replicate_zero]
    apply String.ext
    simp
  · simp only [h, h0, one_ne_zero, or_self, if_false, hd, flatten_replicate_singleton]
    rw [List.take_of_length_le (by simp)]

theorem threeDigitNumeral_length (i : Fin 1000) : (threeDigitNumeral i).length = 3 := by
  unfold threeDigitNumeral
  have hle : (Nat.repr i).length ≤ 3 := Nat.repr_length i 3 (by decide) i.isLt
  rw [String.length_append]
  simp only [String.length, List.length_replicate] at *
  omega

/-! ## The batch loop of `mturkPostStudy` -/

theorem createHITTokens_append (xs ys : List Command) :
    createHITTokens (xs ++ ys) = createHITTokens xs ++ createHITTokens ys := by
  simp [createHITTokens, List.filterMap_append]

theorem sends_bind_preserves {α γ : Type} (m : Run α) (k : α → Run γ) (cs : List Command)
    (hm : Run.Sends m cs) (hk : ∀ a, Run.Preserves World.calls (k a)) :
    Run.Sends (m >>= k) cs := by
  intro env w
  have h1 := hm env w
  rw [run_bind]
  rcases hr : m env w with ⟨o, w1⟩
  rw [hr] at h1
  cases o with
  | returned a => exact (hk a env w1).trans h1
  | threw msg => exact h1
  | exited code => exact h1

theorem sends_tryCatch_preserves {α : Type} (m : Run α) (k : String → Run α)
    (cs : List Command) (hm : Run.Sends m cs) (hk : ∀ a, Run.Preserves World.calls (k a)) :
    Run.Sends (tryCatch m k) cs := by
  intro env w
  have h1 := hm env w
  unfold tryCatch
  rcases hr : m env w with ⟨o, w1⟩
  rw [hr] at h1
  cases o with
  | returned a => exact h1
  | threw msg => exact (hk msg env w1).trans h1
  | exited code => exact h1

theorem sendCreateHIT_sends (req : CreateHITInput) :
    Run.Sends (sendCreateHIT req) [.createHIT req] := by
  intro env w
  unfold sendCreateHIT
  cases env.createHIT w req <;> rfl

/-- One round sends exactly one create-HIT request, the one it was given. -/
theorem submit_sends (expName previewURL : String) (input : CreateHITInput) :
    Run.Sends (mturkPostStudy.submit expName previewURL input) [.createHIT input] := by
  unfold mturkPostStudy.submit
  refine sends_tryCatch_preserves _ _ _ ?_ ?_
  · refine sends_bind_preserves _ _ _ (sendCreateHIT_sends input) fun hit => ?_
    repeat' first
      | exact preserves_pure _ _
      | exact say_calls _
      | exact updateStudyHistory_calls _ _ _
      | refine preserves_bind _ _ _ ?_ (fun _ => ?_)
  · intro msg
    exact preserves_bind _ _ _ (say_calls _) fun _ => preserves_processExit _ _

/-- The tokens the loop submits, started at position `i`: those of positions `i + 1`,
`i + 2`, ... in this order, as far as the loop gets (at least one round when there is a
batch). -/
theorem batches_tokens (expName previewURL baseToken : String) :
    ∀ (sizes : List Nat) (input : CreateHITInput) (i : Nat) (env : Env) (w : World),
    ∃ k, k ≤ sizes.length ∧ min 1 sizes.length ≤ k ∧
      createHITTokens
          (mturkPostStudy.batches expName previewURL baseToken input i sizes env w).2.calls =
        createHITTokens w.calls ++ (List.range k).map fun j =>
          baseToken ++ ("_v" ++ padStart (jsStringOfNat (i + j + 1)) 3 "0") := by
  intro sizes
  induction sizes with
  | nil => intro input i env w; exact ⟨0, by simp [mturkPostStudy.batches]⟩
  | cons n rest ih =>
    intro input i env w
    simp only [mturkPostStudy.batches, run_bind, say]
    have hs := fun input1 w0 => submit_sends expName previewURL input1 env w0
    split
    · rename_i r u w1 hr
      have h1 := congrArg (fun r => r.2.calls) hr
      simp only [hs] at h1
      obtain ⟨k, hk, _, hk2⟩ := ih _ (i + 1) env w1
      refine ⟨k + 1, by simpa using hk, by simp, ?_⟩
      rw [hk2, ← h1, createHITTokens_append, List.range_succ_eq_map]
      simp only [createHITTokens, List.filterMap_cons, List.filterMap_nil, List.map_cons,
        List.map_map, List.append_assoc, List.singleton_append, Nat.add_zero]
      congr 2
      apply List.map_congr_left
      intro j _
      simp only [Function.comp, Nat.succ_eq_add_one]
      congr 4
      omega
    · rename_i r msg w1 hr
      have h1 := congrArg (fun r => r.2.calls) hr
      simp only [hs] at h1
      refine ⟨1, by simp, by simp, ?_⟩
      rw [← h1, createHITTokens_append]
      simp [createHITTokens, List.range_succ]
    · rename_i r code w1 hr
      have h1 := congrArg (fun r => r.2.calls) hr
      simp only [hs] at h1
      refine ⟨1, by simp, by simp, ?_⟩
      rw [← h1, createHITTokens_append]
      simp [createHITTokens, List.range_succ]

/-- C3. In the batch loop of `mturkPostStudy` (started, as the function starts it, at
position 0), the create-HIT requests are sent in increasing batch position, and the request
of position `j + 1` carries the base token followed by `_v` and the decimal numeral of
`j + 1` left-padded with zeros to three digits; the loop submits a first batch whenever the
plan has one, and stops at the first failure. The padded numeral has exactly three
characters up to 999. Last conjunct: a plan of three batches posted at 12:00 on 2024-01-01
for the experiment `exp` submits `exp_20240101_1200_v001`, `_v002`, `_v003` in this
order. -/
theorem mturkPostStudy_batch_tokens (expName previewURL baseToken : String)
    (sizes : List Nat) (input : CreateHITInput) (env : Env) (w : World) :
    (∃ k, k ≤ sizes.length ∧ min 1 sizes.length ≤ k ∧
      createHITTokens
          (mturkPostStudy.batches expName previewURL baseToken input 0 sizes env w).2.calls =
        createHITTokens w.calls ++ (List.range k).map fun j =>
          baseToken ++ ("_v" ++ threeDigitNumeral (j + 1))) ∧
    (∀ i : Fin 1000, (threeDigitNumeral i).length = 3) ∧
    createHITTokens
        (mturkPostStudy (pure "<html>") "exp" sampleConfig mturkConfig { sandbox := true }
          (Env.answering true) {}).2.calls =
      ["exp_20240101_1200_v001", "exp_20240101_1200_v002", "exp_20240101_1200_v003"] := by
  refine ⟨?_, threeDigitNumeral_length, by decide!⟩
  obtain ⟨k, h1, h2, h3⟩ := batches_tokens expName previewURL baseToken sizes input 0 env w
  refine ⟨k, h1, h2, ?_⟩
  rw [h3]
  congr 1
  apply List.map_congr_left
  intro j _
  rw [padStart_eq_threeDigitNumeral]
  simp

/-! ## Idempotency tokens -/

theorem jsStringOfNat_data (n : Nat) : (jsStringOfNat n).data = Nat.toDigits 10 n := rfl

theorem twoDigits_data (x : Nat) (h : x < 100) :
    (twoDigits x).data = [Nat.digitChar (x / 10), Nat.digitChar (x % 10)] := by
  have hz : ("0" : String).data = ['0'] := rfl
  by_cases h10 : x < 10
  · have hx : x / 10 = 0 := by omega
    have hm : x % 10 = x := by omega
    have hdata : ("0" ++ jsStringOfNat x).data = ['0', Nat.digitChar x] := by
      rw [String.data_append, jsStringOfNat_data, toDigits_of_lt x h10, hz]
      rfl
    have hlen : ("0" ++ jsStringOfNat x).length = 2 := by
      rw [String.length, hdata]
      rfl
    rw [hx, hm]
    show (List.take _ (List.drop _ ("0" ++ jsStringOfNat x).data)) = _
    rw [hlen, hdata]
    rfl
  · have hd : Nat.toDigits 10 x = [Nat.digitChar (x / 10), Nat.digitChar (x % 10)] := by
      rw [toDigits_of_ge x (by omega), toDigits_of_lt (x / 10) (by omega)]
      rfl
    have hdata : ("0" ++ jsStringOfNat x).data =
        ['0', Nat.digitChar (x / 10), Nat.digitChar (x % 10)] := by
      rw [String.data_append, jsStringOfNat_data, hd, hz]
      rfl
    have hlen : ("0" ++ jsStringOfNat x).length = 3 := by
      rw [String.length, hdata]
      rfl
    show (List.take _ (List.drop _ ("0" ++ jsStringOfNat x).data)) = _
    rw [hlen, hdata]
    rfl

theorem fourDigits_data (y : Nat) (h1 : 1000 ≤ y) (h2 : y ≤ 9999) :
    (jsStringOfNat y).data = [Nat.digitChar (y / 1000), Nat.digitChar (y / 100 % 10),
      Nat.digitChar (y / 10 % 10), Nat.digitChar (y % 10)] := by
  rw [jsStringOfNat_data, toDigits_of_ge y (by omega), toDigits_of_ge (y / 10) (by omega),
    toDigits_of_ge (y / 10 / 10) (by omega), toDigits_of_lt (y / 10 / 10 / 10) (by omega)]
  have e1 : y / 10 / 10 / 10 = y / 1000 := by omega
  have e2 : y / 10 / 10 % 10 = y / 100 % 10 := by omega
  simp [e1, e2]


theorem digitChar_injective (a b : Nat) (ha : a < 10) (hb : b < 10)
    (h : Nat.digitChar a = Nat.digitChar b) : a = b := by
  have := congrArg (fun c => c.toNat - 48) h
  simpa [digitChar_value a ha, digitChar_value b hb] using this

/-- The batch label of a clock reading in range, character by character. -/
theorem batchLabel_data (d : JsDate) (hd : d.InRange) :
    (jsSlice (dateStringYMDHMS d) 0 (some 13)).data =
      [Nat.digitChar (d.fullYear / 1000), Nat.digitChar (d.fullYear / 100 % 10),
        Nat.digitChar (d.fullYear / 10 % 10), Nat.digitChar (d.fullYear % 10),
        Nat.digitChar ((d.month + 1) / 10), Nat.digitChar ((d.month + 1) % 10),
        Nat.digitChar (d.date / 10), Nat.digitChar (d.date % 10), '_',
        Nat.digitChar (d.hours / 10), Nat.digitChar (d.hours % 10),
        Nat.digitChar (d.minutes / 10), Nat.digitChar (d.minutes % 10)] := by
  obtain ⟨hy1, hy2, hm, _, hdt, hh, hmi, hs⟩ := hd
  have hu : ("_" : String).data = ['_'] := rfl
  have hdata : (dateStringYMDHMS d).data =
      [Nat.digitChar (d.fullYear / 1000), Nat.digitChar (d.fullYear / 100 % 10),
        Nat.digitChar (d.fullYear / 10 % 10), Nat.digitChar (d.fullYear % 10),
        Nat.digitChar ((d.month + 1) / 10), Nat.digitChar ((d.month + 1) % 10),
        Nat.digitChar (d.date / 10), Nat.digitChar (d.date % 10), '_',
        Nat.digitChar (d.hours / 10), Nat.digitChar (d.hours % 10),
        Nat.digitChar (d.minutes / 10), Nat.digitChar (d.minutes % 10),
        Nat.digitChar (d.seconds / 10), Nat.digitChar (d.seconds % 10)] := by
    unfold dateStringYMDHMS
    simp only [String.data_append, fourDigits_data d.fullYear hy1 hy2,
      twoDigits_data (d.month + 1) (by omega), twoDigits_data d.date (by omega),
      twoDigits_data d.hours (by omega), twoDigits_data d.minutes (by omega),
      twoDigits_data d.seconds (by omega), hu]
    rfl
  have hlen : (dateStringYMDHMS d).length = 15 := by
    rw [String.length, hdata]
    rfl
  show (List.take _ (List.drop _ (dateStringYMDHMS d).data)) = _
  rw [hlen, hdata]
  rfl

theorem decimalValue_zeros (k : Nat) (s : List Char) :
    decimalValue (List.replicate k '0' ++ s) = decimalValue s := by
  induction k with
  | zero => rfl
  | succ k ih =>
    simp only [decimalValue, List.replicate_succ, List.cons_append, List.foldl_cons] at ih ⊢
    exact ih

/-- Reading the padded batch number gives the batch number back. -/
theorem decimalValue_padStart (i : Nat) :
    decimalValue (padStart (jsStringOfNat i) 3 "0").data = i := by
  rw [padStart_eq_threeDigitNumeral]
  unfold threeDigitNumeral
  rw [String.data_append]
  exact (decimalValue_zeros _ _).trans (decimalValue_toDigits i)

theorem mturkCreateHIT_token (d : JsDate) (expName q : String)
    (r : List QualificationRequirement) (c : StudyConfig) (input : CreateHITInput)
    (h : mturkCreateHIT d expName q r c = .ok input) :
    input.UniqueRequestToken = expName ++ "_" ++ jsSlice (dateStringYMDHMS d) 0 (some 13) := by
  unfold mturkCreateHIT at h
  split at h
  · simp only [Except.ok.injEq] at h
    rw [← h]
  · simp at h


/-- Two batch tokens of one experiment are equal exactly when the clock readings fall in
the same minute and the batch positions are equal. -/
theorem requestToken_eq_iff (expName : String) (d1 d2 : JsDate) (i j : Nat)
    (hd1 : d1.InRange) (hd2 : d2.InRange) :
    expName ++ "_" ++ jsSlice (dateStringYMDHMS d1) 0 (some 13) ++
        ("_v" ++ padStart (jsStringOfNat i) 3 "0") =
      expName ++ "_" ++ jsSlice (dateStringYMDHMS d2) 0 (some 13) ++
        ("_v" ++ padStart (jsStringOfNat j) 3 "0") ↔
    d1.SameMinute d2 ∧ i = j := by
  have hv : ("_v" : String).data = ['_', 'v'] := rfl
  constructor
  · intro h
    have h' := congrArg String.data h
    simp only [String.data_append, batchLabel_data d1 hd1, batchLabel_data d2 hd2, hv,
      List.append_assoc, List.append_cancel_left_eq, List.cons_append, List.nil_append,
      List.cons.injEq, true_and] at h'
    obtain ⟨a1, a2, a3, a4, a5, a6, a7, a8, a9, a10, a11, a12, hp⟩ := h'
    obtain ⟨hy1, hy2, hm, _, hdt, hh, hmi, _⟩ := hd1
    obtain ⟨gy1, gy2, gm, _, gdt, gh, gmi, _⟩ := hd2
    have b1 := digitChar_injective _ _ (by omega) (by omega) a1
    have b2 := digitChar_injective _ _ (by omega) (by omega) a2
    have b3 := digitChar_injective _ _ (by omega) (by omega) a3
    have b4 := digitChar_injective _ _ (by omega) (by omega) a4
    have b5 := digitChar_injective _ _ (by omega) (by omega) a5
    have b6 := digitChar_injective _ _ (by omega) (by omega) a6
    have b7 := digitChar_injective _ _ (by omega) (by omega) a7
    have b8 := digitChar_injective _ _ (by omega) (by omega) a8
    have b9 := digitChar_injective _ _ (by omega) (by omega) a9
    have b10 := digitChar_injective _ _ (by omega) (by omega) a10
    have b11 := digitChar_injective _ _ (by omega) (by omega) a11
    have b12 := digitChar_injective _ _ (by omega) (by omega) a12
    have hij : i = j := by
      have := congrArg decimalValue hp
      rwa [decimalValue_padStart, decimalValue_padStart] at this
    refine ⟨⟨?_, ?_, ?_, ?_, ?_⟩, hij⟩ <;> omega
  · rintro ⟨⟨e1, e2, e3, e4, e5⟩, rfl⟩
    apply String.ext
    simp only [String.data_append, batchLabel_data d1 hd1, batchLabel_data d2 hd2, e1, e2, e3,
      e4, e5]

/-- C4 (as amended). For one experiment name, the tokens built from two clock readings with
four-digit years and two batch positions are equal exactly when the readings fall in the
same clock minute and the positions are equal: a difference in the year, month, day, hour,
minute or batch position gives different tokens, a difference in the seconds alone does
not. -/
theorem uniqueRequestToken_unique_per_minute (expName : String) (d1 d2 : JsDate)
    (q1 q2 : String) (r1 r2 : List QualificationRequirement) (c1 c2 : StudyConfig)
    (base1 base2 : String) (i j : Nat) (hd1 : d1.InRange) (hd2 : d2.InRange)
    (h1 : (mturkCreateHIT d1 expName q1 r1 c1).toOption.map (fun x => x.UniqueRequestToken) =
      some base1)
    (h2 : (mturkCreateHIT d2 expName q2 r2 c2).toOption.map (fun x => x.UniqueRequestToken) =
      some base2) :
    base1 ++ ("_v" ++ padStart (jsStringOfNat i) 3 "0") =
        base2 ++ ("_v" ++ padStart (jsStringOfNat j) 3 "0") ↔
      d1.SameMinute d2 ∧ i = j := by
  have e1 : base1 = expName ++ "_" ++ jsSlice (dateStringYMDHMS d1) 0 (some 13) := by
    cases hr : mturkCreateHIT d1 expName q1 r1 c1 with
    | error e => rw [hr] at h1; simp [Except.toOption] at h1
    | ok input =>
      rw [hr] at h1
      simp only [Except.toOption, Option.map_some', Option.some.injEq] at h1
      rw [← h1, mturkCreateHIT_token d1 expName q1 r1 c1 input hr]
  have e2 : base2 = expName ++ "_" ++ jsSlice (dateStringYMDHMS d2) 0 (some 13) := by
    cases hr : mturkCreateHIT d2 expName q2 r2 c2 with
    | error e => rw [hr] at h2; simp [Except.toOption] at h2
    | ok input =>
      rw [hr] at h2
      simp only [Except.toOption, Option.map_some', Option.some.injEq] at h2
      rw [← h2, mturkCreateHIT_token d2 expName q2 r2 c2 input hr]
  rw [e1, e2]
  exact requestToken_eq_iff expName d1 d2 i j hd1 hd2

/-- Witness of C4 (as amended): two postings of `exp` one minute apart. -/
theorem uniqueRequestToken_unique_per_minute_witness :
    (⟨2024, 0, 1, 12, 0, 5⟩ : JsDate).InRange ∧ (⟨2024, 0, 1, 12, 1, 5⟩ : JsDate).InRange ∧
      ("exp_20240101_1200" ++ ("_v" ++ padStart (jsStringOfNat 1) 3 "0") =
          "exp_20240101_1201" ++ ("_v" ++ padStart (jsStringOfNat 1) 3 "0") ↔
        (⟨2024, 0, 1, 12, 0, 5⟩ : JsDate).SameMinute ⟨2024, 0, 1, 12, 1, 5⟩ ∧ 1 = 1) :=
  ⟨by decide, by decide,
    uniqueRequestToken_unique_per_minute "exp" ⟨2024, 0, 1, 12, 0, 5⟩ ⟨2024, 0, 1, 12, 1, 5⟩
      "<html>" "<html>" [] [] sampleConfig sampleConfig "exp_20240101_1200"
      "exp_20240101_1201" 1 1 (by decide) (by decide) (by decide!) (by decide!)⟩

/-- C4 (as stated) fails: two postings of the same experiment at different times of the
same clock minute (12:00:05 and 12:00:45) submit the same tokens, batch by batch. -/
theorem uniqueRequestToken_repeats_within_minute :
    (⟨2024, 0, 1, 12, 0, 5⟩ : JsDate) ≠ ⟨2024, 0, 1, 12, 0, 45⟩ ∧
      createHITTokens
          (mturkPostStudy (pure "<html>") "exp" sampleConfig mturkConfig { sandbox := true }
            ((Env.answering true).atTime ⟨2024, 0, 1, 12, 0, 5⟩) {}).2.calls =
        ["exp_20240101_1200_v001", "exp_20240101_1200_v002", "exp_20240101_1200_v003"] ∧
      createHITTokens
          (mturkPostStudy (pure "<html>") "exp" sampleConfig mturkConfig { sandbox := true }
            ((Env.answering true).atTime ⟨2024, 0, 1, 12, 0, 45⟩) {}).2.calls =
        ["exp_20240101_1200_v001", "exp_20240101_1200_v002", "exp_20240101_1200_v003"] := by
  refine ⟨by decide, by decide!, by decide!⟩

/-! ## Qualification requirements: `mturkPrepareQualifications` -/

theorem mturkGetQualificationByName_run (name : String) (env : Env) (w : World) :
    mturkGetQualificationByName name env w =
      match env.listQualificationTypes w
          { Query := name, MustBeRequestable := false, MustBeOwnedByCaller := true } with
      | .ok qs => (.returned (qs.filter fun x => x.Name == name).head?,
          { w with calls := w.calls ++ [.listQualificationTypes
            { Query := name, MustBeRequestable := false, MustBeOwnedByCaller := true }] })
      | .error msg => (.threw msg,
          { w with calls := w.calls ++ [.listQualificationTypes
            { Query := name, MustBeRequestable := false, MustBeOwnedByCaller := true }] }) := by
  simp only [mturkGetQualificationByName, mturkListQualifications, tryCatch, jsThrow,
    sendListQualificationTypes, run_bind, run_pure]
  cases env.listQualificationTypes w
      { Query := name, MustBeRequestable := false, MustBeOwnedByCaller := true } <;> rfl

theorem safe_run {α β : Type} {f : World → β} {m : Run α} (h : Run.Safe f m) (env : Env)
    (w : World) : ∃ a w1, m env w = (.returned a, w1) ∧ f w1 = f w := by
  obtain ⟨⟨a, ha⟩, hf⟩ := h env w
  exact ⟨a, (m env w).2, Prod.ext ha rfl, hf⟩

theorem safe_pure {α β : Type} (f : World → β) (a : α) : Run.Safe f (pure a : Run α) :=
  fun _ _ => ⟨⟨a, rfl⟩, rfl⟩

theorem safe_bind {α γ β : Type} (f : World → β) (m : Run α) (k : α → Run γ)
    (hm : Run.Safe f m) (hk : ∀ a, Run.Safe f (k a)) : Run.Safe f (m >>= k) := by
  intro env w
  obtain ⟨a, w1, h1, h2⟩ := safe_run hm env w
  rw [run_bind, h1]
  obtain ⟨h3, h4⟩ := hk a env w1
  exact ⟨h3, h4.trans h2⟩

theorem noExit_of_safe {α β : Type} (f : World → β) (m : Run α) (hm : Run.Safe f m) :
    Run.NoExit f m := by
  intro env w
  obtain ⟨⟨a, ha⟩, hf⟩ := hm env w
  exact ⟨fun code h => (by rw [ha] at h; cases h), hf⟩

theorem noExit_bind {α γ β : Type} (f : World → β) (m : Run α) (k : α → Run γ)
    (hm : Run.NoExit f m) (hk : ∀ a, Run.NoExit f (k a)) : Run.NoExit f (m >>= k) := by
  intro env w
  obtain ⟨h1, h2⟩ := hm env w
  rw [run_bind]
  rcases hr : m env w with ⟨o, w1⟩
  rw [hr] at h1 h2
  cases o with
  | returned a =>
    obtain ⟨h3, h4⟩ := hk a env w1
    exact ⟨h3, h4.trans h2⟩
  | threw msg => exact ⟨fun code h => (by cases h), h2⟩
  | exited code => exact absurd rfl (h1 code)

theorem safe_tryCatch {α β : Type} (f : World → β) (m : Run α) (k : String → Run α)
    (hm : Run.NoExit f m) (hk : ∀ msg, Run.Safe f (k msg)) : Run.Safe f (tryCatch m k) := by
  intro env w
  obtain ⟨h1, h2⟩ := hm env w
  unfold tryCatch
  rcases hr : m env w with ⟨o, w1⟩
  rw [hr] at h1 h2
  cases o with
  | returned a => exact ⟨⟨a, rfl⟩, h2⟩
  | threw msg =>
    obtain ⟨h3, h4⟩ := hk msg env w1
    exact ⟨h3, h4.trans h2⟩
  | exited code => exact absurd rfl (h1 code)

theorem say_safe_prompts (o : Output) : Run.Safe World.prompts (say o) :=
  fun _ _ => ⟨⟨(), rfl⟩, rfl⟩

theorem sendCreateQualificationType_noExit_prompts (req : CreateQualificationTypeInput) :
    Run.NoExit World.prompts (sendCreateQualificationType req) := by
  intro env w
  unfold sendCreateQualificationType
  cases env.createQualificationType w req <;> exact ⟨fun code h => (by cases h), rfl⟩

/-- When the listing succeeds, the study-consent step returns, and asks nothing. -/
theorem studyConsent_returns (expName : String) (config : StudyConfig) (env : Env) (w : World)
    (qs : List QualificationType)
    (hlist : env.listQualificationTypes w
      { Query := expName, MustBeRequestable := false, MustBeOwnedByCaller := true } = .ok qs) :
    ∃ qid w1, mturkPrepareQualifications.studyConsent expName config env w =
      (.returned qid, w1) ∧ w1.prompts = w.prompts := by
  unfold mturkPrepareQualifications.studyConsent
  simp only [run_bind, mturkGetQualificationByName_run, hlist]
  refine safe_run (f := World.prompts) ?_ env _
  repeat' first
    | exact safe_pure _ _
    | exact say_safe_prompts _
    | exact sendCreateQualificationType_noExit_prompts _
    | exact noExit_of_safe _ _ (say_safe_prompts _)
    | exact noExit_of_safe _ _ (safe_pure _ _)
    | refine safe_bind _ _ _ ?_ (fun _ => ?_)
    | refine safe_tryCatch _ _ _ ?_ (fun _ => ?_)
    | refine noExit_bind _ _ _ ?_ (fun _ => ?_)
    | split


theorem cutoff_eq (v : JsValue) :
    (match v with
      | .atom (.number (.finite q)) => if numberIsInteger v then q.num else 99
      | _ => (99 : Int)) = approvalCutoff v := by
  unfold approvalCutoff
  split <;> simp [numberIsInteger]

/-- When the listing succeeds, the list is built as the layout says, for some study-consent
qualification and for the answer the user gives when the block-under-100 prompt is asked
(nothing was asked before it); the prompt is asked exactly when the approval rate passes
the test `if (config.mturk?.restrictApprovalRate)`. -/
theorem build_run_general (expName : String) (config : StudyConfig) (env : Env) (w : World)
    (qs : List QualificationType)
    (hlist : env.listQualificationTypes w
      { Query := expName, MustBeRequestable := false, MustBeOwnedByCaller := true } = .ok qs) :
    ∃ qid w1, w1.prompts = w.prompts ∧
      (mturkPrepareQualifications.build expName config env w).1 =
        .returned (requirementLayout qid config (env.confirm w1 "blockUnder100")) ∧
      (mturkPrepareQualifications.build expName config env w).2.prompts = w.prompts ++
        (if config.restrictApprovalRate.truthy then ["blockUnder100"] else []) := by
  obtain ⟨qid, w1, h1, h2⟩ := studyConsent_returns expName config env w qs hlist
  unfold mturkPrepareQualifications.build
  simp only [run_bind, h1, cutoff_eq]
  refine ⟨qid, w1, h2, ?_⟩
  have ht0 : ((Option.map (fun m => m.restrictApprovalRate) config.mturk).getD
      (JsValue.atom JsAtom.undefined)) = config.restrictApprovalRate := rfl
  simp only [ht0, requirementLayout, consentRequirement, blockRequirement, allowRequirement,
    localeRequirement, approvalRateRequirement, countRequirement]
  by_cases ht : config.restrictApprovalRate.truthy = true
  · simp only [ht, if_true, promptConfirm, run_bind]
    cases env.confirm w1 "blockUnder100" <;>
      by_cases hus : Option.map (fun m => m.restrictLocation) config.mturk =
        some (JsValue.atom (JsAtom.string "US")) <;>
      simp [hus, h2] <;> rfl
  · by_cases hus : Option.map (fun m => m.restrictLocation) config.mturk =
        some (JsValue.atom (JsAtom.string "US")) <;>
      simp [ht, hus, h2] <;> rfl

/-- The same, for a user whose answer to the block-under-100 prompt is `yes`. -/
theorem build_run (expName : String) (config : StudyConfig) (env : Env) (w : World)
    (qs : List QualificationType) (yes : Bool)
    (hlist : env.listQualificationTypes w
      { Query := expName, MustBeRequestable := false, MustBeOwnedByCaller := true } = .ok qs)
    (hyes : ∀ w1, env.confirm w1 "blockUnder100" = yes) :
    ∃ qid, (mturkPrepareQualifications.build expName config env w).1 =
        .returned (requirementLayout qid config yes) ∧
      (mturkPrepareQualifications.build expName config env w).2.prompts = w.prompts ++
        (if config.restrictApprovalRate.truthy then ["blockUnder100"] else []) := by
  obtain ⟨qid, w1, _, h1, h2⟩ := build_run_general expName config env w qs hlist
  rw [hyes] at h1
  exact ⟨qid, h1, h2⟩

theorem requirementLayout_head (qid : QualificationRef) (config : StudyConfig) (yes : Bool) :
    ∃ rest, requirementLayout qid config yes = consentRequirement qid :: rest := by
  unfold requirementLayout
  exact ⟨_, by simp only [List.singleton_append, List.cons_append, List.append_assoc]; rfl⟩

/-- The run of `mturkPrepareQualifications` outside compensation mode, when the listing
succeeds: the list built, or nothing when the sandbox option is set and the user, asked once
the list is built, confirms disabling it. -/
theorem prepare_run_general (expName : String) (config : StudyConfig) (options : Options)
    (env : Env) (w : World) (qs : List QualificationType)
    (hmode : (options.compensation || expName == "compensation") = false)
    (hlist : env.listQualificationTypes w
      { Query := expName, MustBeRequestable := false, MustBeOwnedByCaller := true } = .ok qs) :
    ∃ qid w1, w1.prompts = w.prompts ∧
      (mturkPrepareQualifications.build expName config env w).1 =
        .returned (requirementLayout qid config (env.confirm w1 "blockUnder100")) ∧
      (mturkPrepareQualifications expName config options env w).1 =
        .returned
          (if options.sandbox && env.confirm (mturkPrepareQualifications.build expName config
              env w).2 "disableQualifications" then []
            else requirementLayout qid config (env.confirm w1 "blockUnder100")) ∧
      (mturkPrepareQualifications expName config options env w).2.prompts = w.prompts ++
        (if config.restrictApprovalRate.truthy then ["blockUnder100"] else []) ++
        (if options.sandbox then ["disableQualifications"] else []) := by
  obtain ⟨qid, w1, hw1, hb1, hb2⟩ := build_run_general expName config env w qs hlist
  refine ⟨qid, w1, hw1, hb1, ?_⟩
  obtain ⟨rest, hrest⟩ :=
    requirementLayout_head qid config (env.confirm w1 "blockUnder100")
  unfold mturkPrepareQualifications
  simp only [hmode, Bool.false_eq_true, if_false, run_bind]
  rcases hr : mturkPrepareQualifications.build expName config env w with ⟨o, w2⟩
  rw [hr] at hb1 hb2
  simp only at hb1 hb2
  subst hb1
  have hlen : decide ((requirementLayout qid config (env.confirm w1 "blockUnder100")).length
      > 0) = true := by
    rw [hrest]; simp
  cases hs : options.sandbox
  · simp [hb2]
  · simp only [hlen, Bool.and_self, if_true, promptConfirm, run_bind, Bool.true_and]
    cases env.confirm w2 "disableQualifications" <;> simp [hb2]

/-- The same, for a user whose answers to the two prompts are `yes` and `disable`. -/
theorem prepare_run (expName : String) (config : StudyConfig) (options : Options) (env : Env)
    (w : World) (qs : List QualificationType) (yes disable : Bool)
    (hmode : (options.compensation || expName == "compensation") = false)
    (hlist : env.listQualificationTypes w
      { Query := expName, MustBeRequestable := false, MustBeOwnedByCaller := true } = .ok qs)
    (hyes : ∀ w1, env.confirm w1 "blockUnder100" = yes)
    (hdisable : ∀ w1, env.confirm w1 "disableQualifications" = disable) :
    ∃ qid, (mturkPrepareQualifications.build expName config env w).1 =
        .returned (requirementLayout qid config yes) ∧
      (mturkPrepareQualifications expName config options env w).1 =
        .returned (if options.sandbox && disable then [] else requirementLayout qid config yes) ∧
      (mturkPrepareQualifications expName config options env w).2.prompts = w.prompts ++
        (if config.restrictApprovalRate.truthy then ["blockUnder100"] else []) ++
        (if options.sandbox then ["disableQualifications"] else []) := by
  obtain ⟨qid, w1, _, h1, h2, h3⟩ :=
    prepare_run_general expName config options env w qs hmode hlist
  rw [hyes] at h1 h2
  rw [hdisable] at h2
  exact ⟨qid, h1, h2, h3⟩

theorem approvalCutoff_whole (n : Int) :
    approvalCutoff (.atom (.number (.finite n))) = n := by
  simp [approvalCutoff]

theorem approvalCutoff_other (v : JsValue)
    (h : ∀ n : Int, v ≠ .atom (.number (.finite n))) : approvalCutoff v = 99 := by
  unfold approvalCutoff
  split
  · rename_i q
    by_cases hq : q.den = 1
    · exact absurd (congrArg (fun x => JsValue.atom (JsAtom.number (JsNumber.finite x)))
        (Rat.coe_int_num_of_den_eq_one hq).symm) (h q.num)
    · simp [hq]
  · rfl

/-- The requirements before the approval-rate block are neither approval-rate nor count
requirements. -/
theorem front_not_rate (qid : QualificationRef) (config : StudyConfig) :
    ∀ r ∈ [consentRequirement qid] ++
        ((config.mturk.bind fun m => m.qualificationBlocklist).getD []).map blockRequirement ++
        ((config.mturk.bind fun m => m.qualificationAllowlist).getD []).map allowRequirement ++
        (if (config.mturk.map fun m => m.restrictLocation) = some (.atom (.string "US")) then
          [localeRequirement] else []),
      ¬ r.IsApprovalRate ∧ ¬ r.IsCount := by
  intro r hr
  have hcmp : r.Comparator = "DoesNotExist" ∨ r.Comparator = "Exists" ∨ r.Comparator = "In" := by
    simp only [List.mem_append, List.mem_singleton, List.mem_map] at hr
    rcases hr with ((rfl | ⟨x, _, rfl⟩) | ⟨x, _, rfl⟩) | hr
    · exact Or.inl rfl
    · exact Or.inl rfl
    · exact Or.inr (Or.inl rfl)
    · split at hr
      · rw [List.mem_singleton] at hr
        subst hr
        exact Or.inr (Or.inr rfl)
      · cases hr
  constructor
  · rintro ⟨_, h⟩
    rcases hcmp with h' | h' | h' <;> rw [h'] at h <;> revert h <;> decide
  · rintro ⟨_, h⟩
    rcases hcmp with h' | h' | h' <;> rw [h'] at h <;> revert h <;> decide


/-- C5 (as amended). Outside compensation mode, for every configured `restrictApprovalRate`
value that passes the test `if (config.mturk?.restrictApprovalRate)` (every value but `0`,
`NaN`, the empty string, `false`, `null` and `undefined`), the list built holds the
approval-rate requirement `GreaterThanOrEqualTo` on `000000000000000000L0`, it is the only
approval-rate requirement, and its `IntegerValues` is `[n]` when the value is the whole
number `n` and `[99]` when the value is not a whole number. -/
theorem mturkPrepareQualifications_approval_cutoff (expName : String) (config : StudyConfig)
    (env : Env) (w : World) (qs : List QualificationType) (yes : Bool)
    (hlist : env.listQualificationTypes w
      { Query := expName, MustBeRequestable := false, MustBeOwnedByCaller := true } = .ok qs)
    (hyes : ∀ w1, env.confirm w1 "blockUnder100" = yes)
    (hv : config.restrictApprovalRate.truthy = true) :
    ∃ reqs c, (mturkPrepareQualifications.build expName config env w).1 = .returned reqs ∧
      ({ QualificationTypeId := .id "000000000000000000L0",
         Comparator := "GreaterThanOrEqualTo", IntegerValues := some [c],
         ActionsGuarded := "DiscoverPreviewAndAccept" } : QualificationRequirement) ∈ reqs ∧
      (∀ r ∈ reqs, r.IsApprovalRate → r = approvalRateRequirement c) ∧
      (∀ n : Int, config.restrictApprovalRate = .atom (.number (.finite n)) → c = n) ∧
      ((∀ n : Int, config.restrictApprovalRate ≠ .atom (.number (.finite n))) → c = 99) := by
  obtain ⟨qid, h1, _⟩ := build_run expName config env w qs yes hlist hyes
  refine ⟨_, approvalCutoff config.restrictApprovalRate, h1, ?_, ?_, ?_, ?_⟩
  · simp only [requirementLayout, hv, if_true, approvalRateRequirement]
    simp
  · intro r hr hrate
    simp only [requirementLayout, hv, if_true] at hr
    rcases List.mem_append.mp hr with hfront | htail
    · exact absurd hrate (front_not_rate qid config r hfront).1
    · rcases List.mem_cons.mp htail with rfl | hcount
      · rfl
      · cases yes
        · simp at hcount
        · simp only [if_true, List.mem_singleton] at hcount
          subst hcount
          exact absurd hrate.2 (by decide)
  · intro n hn
    rw [hn, approvalCutoff_whole]
  · intro hn
    exact approvalCutoff_other _ hn

/-- Witness of C5 (as amended): the string `'95'` gives the cutoff 99. -/
theorem mturkPrepareQualifications_approval_cutoff_witness :
    (approvalConfig (.atom (.string "95"))).restrictApprovalRate.truthy = true ∧
    ∃ reqs c, (mturkPrepareQualifications.build "exp" (approvalConfig (.atom (.string "95")))
        (Env.answering false) {}).1 = .returned reqs ∧
      ({ QualificationTypeId := .id "000000000000000000L0",
         Comparator := "GreaterThanOrEqualTo", IntegerValues := some [c],
         ActionsGuarded := "DiscoverPreviewAndAccept" } : QualificationRequirement) ∈ reqs ∧
      (∀ r ∈ reqs, r.IsApprovalRate → r = approvalRateRequirement c) ∧
      (∀ n : Int, (approvalConfig (.atom (.string "95"))).restrictApprovalRate =
        .atom (.number (.finite n)) → c = n) ∧
      ((∀ n : Int, (approvalConfig (.atom (.string "95"))).restrictApprovalRate ≠
        .atom (.number (.finite n))) → c = 99) :=
  ⟨by decide,
    mturkPrepareQualifications_approval_cutoff "exp" (approvalConfig (.atom (.string "95")))
      (Env.answering false) {} [] false rfl (fun _ => rfl) (by decide)⟩

/-- C5 (as stated) fails: the whole number 0 is supplied as `restrictApprovalRate`, and the
list built is the study-consent requirement alone, with no approval-rate requirement. -/
theorem mturkPrepareQualifications_zero_cutoff_ignored :
    (approvalConfig (.atom (.number (.finite 0)))).restrictApprovalRate =
        .atom (.number (.finite 0)) ∧
      (mturkPrepareQualifications.build "exp" (approvalConfig (.atom (.number (.finite 0))))
        (Env.answering true) {}).1 =
        .returned [{ QualificationTypeId := .id "Q-exp", Comparator := "DoesNotExist",
                     ActionsGuarded := "DiscoverPreviewAndAccept" }] ∧
      (mturkPrepareQualifications "exp" (approvalConfig (.atom (.number (.finite 0)))) {}
        (Env.answering true) {}).1 =
        .returned [{ QualificationTypeId := .id "Q-exp", Comparator := "DoesNotExist",
                     ActionsGuarded := "DiscoverPreviewAndAccept" }] := by
  refine ⟨rfl, by decide!, by decide!⟩

/-- A count requirement is in the layout exactly when a cutoff is configured and the
block-under-100 prompt is confirmed. -/
theorem requirementLayout_count (qid : QualificationRef) (config : StudyConfig) (yes : Bool) :
    (∃ r ∈ requirementLayout qid config yes, r.IsCount) ↔
      config.restrictApprovalRate.truthy = true ∧ yes = true := by
  have hfront := front_not_rate qid config
  have hcount : countRequirement.IsCount := ⟨rfl, rfl⟩
  have hrate : ∀ c, ¬ (approvalRateRequirement c).IsCount := fun c h =>
    absurd (show "GreaterThanOrEqualTo" = "GreaterThan" from h.2) (by decide)
  constructor
  · rintro ⟨r, hr, hc⟩
    simp only [requirementLayout] at hr
    rcases List.mem_append.mp hr with hf | ht
    · exact absurd hc (hfront r hf).2
    · by_cases hv : config.restrictApprovalRate.truthy = true
      · refine ⟨hv, ?_⟩
        simp only [hv, if_true] at ht
        rcases List.mem_cons.mp ht with rfl | ht
        · exact absurd hc (hrate _)
        · cases yes
          · simp at ht
          · rfl
      · simp [hv] at ht
  · rintro ⟨hv, rfl⟩
    refine ⟨countRequirement, ?_, hcount⟩
    simp [requirementLayout, hv]

/-- C6. Outside compensation mode and when the listing call succeeds, the list that
`mturkPrepareQualifications` returns is empty when the sandbox option is set and the user
confirms disabling the requirements; otherwise it ends with the approval-rate requirement
immediately followed by the count requirement when an approval-rate cutoff is configured and
the user confirms the block-under-100 prompt, with the approval-rate requirement alone when
the user declines, and with neither when no cutoff is configured, and no other element of
it is an approval-rate or a count requirement. The block-under-100 prompt is asked exactly
when a cutoff is configured. So a count requirement is present in the result if and only if
a cutoff is configured, the block-under-100 prompt is confirmed and the list is not disabled
for sandbox. A cutoff is configured when it passes the test
`if (config.mturk?.restrictApprovalRate)`. -/
theorem mturkPrepareQualifications_count_requirement (expName : String)
    (config : StudyConfig) (options : Options) (env : Env) (w : World)
    (qs : List QualificationType) (yes disable : Bool)
    (hmode : (options.compensation || expName == "compensation") = false)
    (hlist : env.listQualificationTypes w
      { Query := expName, MustBeRequestable := false, MustBeOwnedByCaller := true } = .ok qs)
    (hyes : ∀ w1, env.confirm w1 "blockUnder100" = yes)
    (hdisable : ∀ w1, env.confirm w1 "disableQualifications" = disable) :
    ∃ front reqs,
      (mturkPrepareQualifications expName config options env w).1 = .returned reqs ∧
      (∀ r ∈ front, ¬ r.IsApprovalRate ∧ ¬ r.IsCount) ∧
      reqs = (if options.sandbox && disable then []
        else front ++
          (if config.restrictApprovalRate.truthy then
            approvalRateRequirement (approvalCutoff config.restrictApprovalRate) ::
              (if yes then [countRequirement] else [])
          else [])) ∧
      (mturkPrepareQualifications expName config options env w).2.prompts = w.prompts ++
        (if config.restrictApprovalRate.truthy then ["blockUnder100"] else []) ++
        (if options.sandbox then ["disableQualifications"] else []) ∧
      ((∃ r ∈ reqs, r.IsCount) ↔
        config.restrictApprovalRate.truthy = true ∧ yes = true ∧
          (options.sandbox && disable) = false) := by
  obtain ⟨qid, _, h1, h2⟩ :=
    prepare_run expName config options env w qs yes disable hmode hlist hyes hdisable
  refine ⟨_, _, h1, front_not_rate qid config, ?_, h2, ?_⟩
  · cases options.sandbox && disable <;> rfl
  · cases hd : options.sandbox && disable
    · simp only [Bool.false_eq_true, if_false, and_true]
      exact requirementLayout_count qid config yes
    · simp

/-- Witness of C6: a cutoff of 95 and a user who confirms the block-under-100 prompt, on
the production marketplace; the last conjunct is the list returned. -/
theorem mturkPrepareQualifications_count_requirement_witness :
    ((({} : Options).compensation || "exp" == "compensation") = false ∧
      (Env.answering true).listQualificationTypes {}
        { Query := "exp", MustBeRequestable := false, MustBeOwnedByCaller := true } = .ok [] ∧
      (∀ w1, (Env.answering true).confirm w1 "blockUnder100" = true) ∧
      ∀ w1, (Env.answering true).confirm w1 "disableQualifications" = true) ∧
    (∃ front reqs,
      (mturkPrepareQualifications "exp" (approvalConfig (.atom (.number (.finite 95)))) {}
        (Env.answering true) {}).1 = .returned reqs ∧
      (∀ r ∈ front, ¬ r.IsApprovalRate ∧ ¬ r.IsCount) ∧
      reqs = (if ({} : Options).sandbox && true then []
        else front ++
          (if (approvalConfig (.atom (.number (.finite 95)))).restrictApprovalRate.truthy then
            approvalRateRequirement (approvalCutoff
                (approvalConfig (.atom (.number (.finite 95)))).restrictApprovalRate) ::
              (if true then [countRequirement] else [])
          else [])) ∧
      (mturkPrepareQualifications "exp" (approvalConfig (.atom (.number (.finite 95)))) {}
        (Env.answering true) {}).2.prompts = ({} : World).prompts ++
        (if (approvalConfig (.atom (.number (.finite 95)))).restrictApprovalRate.truthy then
          ["blockUnder100"] else []) ++
        (if ({} : Options).sandbox then ["disableQualifications"] else []) ∧
      ((∃ r ∈ reqs, r.IsCount) ↔
        (approvalConfig (.atom (.number (.finite 95)))).restrictApprovalRate.truthy = true ∧
          true = true ∧ (({} : Options).sandbox && true) = false)) ∧
    (mturkPrepareQualifications "exp" (approvalConfig (.atom (.number (.finite 95)))) {}
        (Env.answering true) {}).1 =
      .returned [consentRequirement (.id "Q-exp"), approvalRateRequirement 95,
        countRequirement] :=
  ⟨⟨rfl, rfl, fun _ => rfl, fun _ => rfl⟩,
    mturkPrepareQualifications_count_requirement "exp"
      (approvalConfig (.atom (.number (.finite 95)))) {} (Env.answering true) {} [] true true
      rfl rfl (fun _ => rfl) (fun _ => rfl),
    by decide!⟩

/-- Counterexample to C6 as worded: with a cutoff of 95, on the sandbox, the user confirms
the block-under-100 prompt and then the disabling of the requirements: the result is empty
and holds no count requirement. -/
theorem mturkPrepareQualifications_count_requirement_disabled :
    (mturkPrepareQualifications "exp" (approvalConfig (.atom (.number (.finite 95))))
        { sandbox := true } (Env.answering true) {}).1 = .returned [] ∧
    (mturkPrepareQualifications "exp" (approvalConfig (.atom (.number (.finite 95))))
        { sandbox := true } (Env.answering true) {}).2.prompts =
      ["blockUnder100", "disableQualifications"] ∧
    (Env.answering true).confirm
        (mturkPrepareQualifications "exp" (approvalConfig (.atom (.number (.finite 95))))
          { sandbox := true } (Env.answering true) {}).2 "blockUnder100" = true := by
  refine ⟨by decide!, by decide!, rfl⟩

theorem requirementLayout_actionsGuarded (qid : QualificationRef) (config : StudyConfig)
    (yes : Bool) :
    ∀ r ∈ requirementLayout qid config yes, r.ActionsGuarded = "DiscoverPreviewAndAccept" := by
  intro r hr
  simp only [requirementLayout, List.mem_append, List.mem_singleton, List.mem_map] at hr
  rcases hr with (((rfl | ⟨x, _, rfl⟩) | ⟨x, _, rfl⟩) | hr) | hr
  · rfl
  · rfl
  · rfl
  · split at hr
    · rw [List.mem_singleton] at hr
      subst hr
      rfl
    · cases hr
  · split at hr
    · rcases List.mem_cons.mp hr with rfl | hr
      · rfl
      · split at hr
        · rw [List.mem_singleton] at hr
          subst hr
          rfl
        · cases hr
    · cases hr

/-- C7. Outside compensation mode and when the requirements are not disabled for sandbox,
`mturkPrepareQualifications` returns: the study-consent `DoesNotExist` requirement, then one
`DoesNotExist` requirement per `qualificationBlocklist` id in configured order, then one
`Exists` requirement per `qualificationAllowlist` id in configured order, then the US locale
requirement if `restrictLocation` is `'US'`, then (if an approval rate is configured) the
approval-rate requirement, then (if confirmed) the count requirement; and every element has
`ActionsGuarded` equal to `DiscoverPreviewAndAccept`. -/
theorem mturkPrepareQualifications_layout (expName : String) (config : StudyConfig)
    (options : Options) (env : Env) (w : World) (qs : List QualificationType)
    (yes disable : Bool)
    (hmode : (options.compensation || expName == "compensation") = false)
    (hlist : env.listQualificationTypes w
      { Query := expName, MustBeRequestable := false, MustBeOwnedByCaller := true } = .ok qs)
    (hyes : ∀ w1, env.confirm w1 "blockUnder100" = yes)
    (hdisable : ∀ w1, env.confirm w1 "disableQualifications" = disable)
    (hkept : (options.sandbox && disable) = false) :
    ∃ qid reqs, (mturkPrepareQualifications expName config options env w).1 = .returned reqs ∧
      reqs =
        [{ QualificationTypeId := qid, Comparator := "DoesNotExist",
           ActionsGuarded := "DiscoverPreviewAndAccept" }] ++
        ((config.mturk.bind fun m => m.qualificationBlocklist).getD []).map (fun exqid =>
          { QualificationTypeId := .id exqid, Comparator := "DoesNotExist",
            ActionsGuarded := "DiscoverPreviewAndAccept" }) ++
        ((config.mturk.bind fun m => m.qualificationAllowlist).getD []).map (fun reqid =>
          { QualificationTypeId := .id reqid, Comparator := "Exists",
            ActionsGuarded := "DiscoverPreviewAndAccept" }) ++
        (if (config.mturk.map fun m => m.restrictLocation) = some (.atom (.string "US")) then
          [localeRequirement] else []) ++
        (if config.restrictApprovalRate.truthy then
          approvalRateRequirement (approvalCutoff config.restrictApprovalRate) ::
            (if yes then [countRequirement] else [])
        else []) ∧
      ∀ r ∈ reqs, r.ActionsGuarded = "DiscoverPreviewAndAccept" := by
  obtain ⟨qid, _, h1, _⟩ :=
    prepare_run expName config options env w qs yes disable hmode hlist hyes hdisable
  rw [hkept] at h1
  exact ⟨qid, _, h1, rfl, requirementLayout_actionsGuarded qid config yes⟩

/-- Witness of C7: a study with block and allow lists, restricted to the US and to an
approval rate of 95, posted outside the sandbox by a user who confirms; the last conjunct
is the list the run returns. -/
theorem mturkPrepareQualifications_layout_witness :
    ((({} : Options).compensation || "exp" == "compensation") = false ∧
      (Env.answering true).listQualificationTypes {}
        { Query := "exp", MustBeRequestable := false, MustBeOwnedByCaller := true } = .ok [] ∧
      (({} : Options).sandbox && true) = false) ∧
    (∃ qid reqs,
      (mturkPrepareQualifications "exp" restrictedConfig {} (Env.answering true) {}).1 =
        .returned reqs ∧
      reqs =
        [{ QualificationTypeId := qid, Comparator := "DoesNotExist",
           ActionsGuarded := "DiscoverPreviewAndAccept" }] ++
        ((restrictedConfig.mturk.bind fun m => m.qualificationBlocklist).getD []).map
          (fun exqid =>
            { QualificationTypeId := .id exqid, Comparator := "DoesNotExist",
              ActionsGuarded := "DiscoverPreviewAndAccept" }) ++
        ((restrictedConfig.mturk.bind fun m => m.qualificationAllowlist).getD []).map
          (fun reqid =>
            { QualificationTypeId := .id reqid, Comparator := "Exists",
              ActionsGuarded := "DiscoverPreviewAndAccept" }) ++
        (if (restrictedConfig.mturk.map fun m => m.restrictLocation) =
            some (.atom (.string "US")) then
          [localeRequirement] else []) ++
        (if restrictedConfig.restrictApprovalRate.truthy then
          approvalRateRequirement (approvalCutoff restrictedConfig.restrictApprovalRate) ::
            (if true then [countRequirement] else [])
        else []) ∧
      ∀ r ∈ reqs, r.ActionsGuarded = "DiscoverPreviewAndAccept") ∧
    (mturkPrepareQualifications "exp" restrictedConfig {} (Env.answering true) {}).1 =
      .returned
        [{ QualificationTypeId := .id "Q-exp", Comparator := "DoesNotExist",
           ActionsGuarded := "DiscoverPreviewAndAccept" },
         { QualificationTypeId := .id "B1", Comparator := "DoesNotExist",
           ActionsGuarded := "DiscoverPreviewAndAccept" },
         { QualificationTypeId := .id "B2", Comparator := "DoesNotExist",
           ActionsGuarded := "DiscoverPreviewAndAccept" },
         { QualificationTypeId := .id "A1", Comparator := "Exists",
           ActionsGuarded := "DiscoverPreviewAndAccept" },
         { QualificationTypeId := .id "00000000000000000071", Comparator := "In",
           LocaleValues := some [{ Country := "US" }],
           ActionsGuarded := "DiscoverPreviewAndAccept" },
         { QualificationTypeId := .id "000000000000000000L0",
           Comparator := "GreaterThanOrEqualTo", IntegerValues := some [95],
           ActionsGuarded := "DiscoverPreviewAndAccept" },
         { QualificationTypeId := .id "00000000000000000040", Comparator := "GreaterThan",
           IntegerValues := some [100], ActionsGuarded := "DiscoverPreviewAndAccept" }] :=
  ⟨⟨rfl, rfl, rfl⟩,
    mturkPrepareQualifications_layout "exp" restrictedConfig {} (Env.answering true) {} []
      true true rfl rfl (fun _ => rfl) (fun _ => rfl) rfl,
    by decide!⟩

/-- C9. Outside compensation mode, `mturkPrepareQualifications` returns the empty list if
and only if the sandbox option is set and the user, asked once the list is built, confirms
disabling the requirements; otherwise it returns the full built list, which begins with the
study-consent requirement (so it is not empty). The disabling prompt is asked exactly when
the sandbox option is set. -/
theorem mturkPrepareQualifications_sandbox (expName : String) (config : StudyConfig)
    (options : Options) (env : Env) (w : World) (qs : List QualificationType)
    (hmode : (options.compensation || expName == "compensation") = false)
    (hlist : env.listQualificationTypes w
      { Query := expName, MustBeRequestable := false, MustBeOwnedByCaller := true } = .ok qs) :
    ∃ qid rest,
      (mturkPrepareQualifications.build expName config env w).1 =
        .returned (consentRequirement qid :: rest) ∧
      (mturkPrepareQualifications expName config options env w).1 =
        .returned
          (if options.sandbox && env.confirm (mturkPrepareQualifications.build expName config
              env w).2 "disableQualifications" then []
            else consentRequirement qid :: rest) ∧
      ((mturkPrepareQualifications expName config options env w).1 = .returned [] ↔
        options.sandbox = true ∧
          env.confirm (mturkPrepareQualifications.build expName config env w).2
            "disableQualifications" = true) ∧
      ("disableQualifications" ∈
          ((mturkPrepareQualifications expName config options env w).2.prompts.drop
            w.prompts.length) ↔ options.sandbox = true) := by
  obtain ⟨qid, w1, _, hb, h1, h2⟩ :=
    prepare_run_general expName config options env w qs hmode hlist
  obtain ⟨rest, hrest⟩ := requirementLayout_head qid config (env.confirm w1 "blockUnder100")
  rw [hrest] at hb h1
  refine ⟨qid, rest, hb, h1, ?_, ?_⟩
  · rw [h1]
    cases options.sandbox <;>
      cases env.confirm (mturkPrepareQualifications.build expName config env w).2
        "disableQualifications" <;> simp
  · rw [h2, List.append_assoc, List.drop_left]
    cases options.sandbox <;> by_cases hv : config.restrictApprovalRate.truthy = true <;>
      simp [hv]

/-- Witness of C9: a sandbox posting by a user who confirms every prompt; the last conjunct
is what the run returns. -/
theorem mturkPrepareQualifications_sandbox_witness :
    ((({ sandbox := true } : Options).compensation || "exp" == "compensation") = false ∧
      (Env.answering true).listQualificationTypes {}
        { Query := "exp", MustBeRequestable := false, MustBeOwnedByCaller := true } = .ok []) ∧
    (∃ qid rest,
      (mturkPrepareQualifications.build "exp" restrictedConfig (Env.answering true) {}).1 =
        .returned (consentRequirement qid :: rest) ∧
      (mturkPrepareQualifications "exp" restrictedConfig { sandbox := true }
          (Env.answering true) {}).1 =
        .returned
          (if ({ sandbox := true } : Options).sandbox &&
              (Env.answering true).confirm (mturkPrepareQualifications.build "exp"
                restrictedConfig (Env.answering true) {}).2 "disableQualifications" then []
            else consentRequirement qid :: rest) ∧
      ((mturkPrepareQualifications "exp" restrictedConfig { sandbox := true }
          (Env.answering true) {}).1 = .returned [] ↔
        ({ sandbox := true } : Options).sandbox = true ∧
          (Env.answering true).confirm (mturkPrepareQualifications.build "exp"
            restrictedConfig (Env.answering true) {}).2 "disableQualifications" = true) ∧
      ("disableQualifications" ∈
          ((mturkPrepareQualifications "exp" restrictedConfig { sandbox := true }
            (Env.answering true) {}).2.prompts.drop ({} : World).prompts.length) ↔
        ({ sandbox := true } : Options).sandbox = true)) ∧
    (mturkPrepareQualifications "exp" restrictedConfig { sandbox := true }
      (Env.answering true) {}).1 = .returned [] :=
  ⟨⟨rfl, rfl⟩,
    mturkPrepareQualifications_sandbox "exp" restrictedConfig { sandbox := true }
      (Env.answering true) {} [] rfl rfl,
    by decide!⟩

/-! ## Compensation mode -/

theorem assign_run (qid : QualificationRef) :
    ∀ (workers : List String) (env : Env) (w : World),
      (mturkPrepareQualifications.assign qid workers env w).1 = .returned () ∧
      (mturkPrepareQualifications.assign qid workers env w).2.calls =
        w.calls ++ workers.map (assignRequest qid) ∧
      (mturkPrepareQualifications.assign qid workers env w).2.prompts = w.prompts := by
  intro workers
  induction workers with
  | nil => intro env w; simp [mturkPrepareQualifications.assign]
  | cons wkr rest ih =>
    intro env w
    simp only [mturkPrepareQualifications.assign, run_bind, tryCatch,
      sendAssociateQualificationWithWorker, say]
    cases env.associateQualificationWithWorker w
        { QualificationTypeId := qid, WorkerId := wkr, SendNotification := true,
          IntegerValue := 1 } with
    | ok u =>
      simp only [ofExcept]
      obtain ⟨h1, h2, h3⟩ := ih env
        { calls := w.calls ++ [assignRequest qid wkr], prompts := w.prompts,
          output := w.output ++ [Output.succeed ("Assigning qualification " ++ qid.render ++
            " to " ++ wkr)], clockReads := w.clockReads, journals := w.journals }
      refine ⟨h1, ?_, h3⟩
      exact h2.trans (by simp [assignRequest])
    | error msg =>
      simp only [ofExcept]
      obtain ⟨h1, h2, h3⟩ := ih env
        { calls := w.calls ++ [assignRequest qid wkr], prompts := w.prompts,
          output := w.output ++ [Output.fail ("Failed to assign qualification to " ++ wkr ++
            ": " ++ msg)], clockReads := w.clockReads, journals := w.journals }
      refine ⟨h1, ?_, h3⟩
      exact h2.trans (by simp [assignRequest])


/-- The run of compensation mode with a non-empty worker list. -/
theorem compensation_run (config : StudyConfig) (env : Env) (w : World) (wkr : String)
    (rest : List String) (hworkers : config.workersToCompensate = some (wkr :: rest)) :
    ∃ req : CreateQualificationTypeInput,
      req.Name = "Compensation " ++ dateStringYMDHMS (env.clock w.clockReads) ∧
      (mturkPrepareQualifications.compensation config env w).1 =
        .returned
          [{ QualificationTypeId := QualificationRef.ofResponse
               (env.createQualificationType { w with clockReads := w.clockReads + 1 } req),
             Comparator := "Exists", ActionsGuarded := "DiscoverPreviewAndAccept" }] ∧
      (mturkPrepareQualifications.compensation config env w).2.calls =
        w.calls ++ .createQualificationType req ::
          (wkr :: rest).map (assignRequest (QualificationRef.ofResponse
            (env.createQualificationType { w with clockReads := w.clockReads + 1 } req))) ∧
      (mturkPrepareQualifications.compensation config env w).2.prompts = w.prompts := by
  refine ⟨{ Name := "Compensation " ++ dateStringYMDHMS (env.clock w.clockReads)
            Description := "Qualification for a compensation HIT for the following worker(s): " ++
              jsJoin "," (wkr :: rest)
            Keywords := "compensation, " ++ jsJoin ", " (wkr :: rest)
            QualificationTypeStatus := "Active" }, rfl, ?_⟩
  unfold mturkPrepareQualifications.compensation
  simp only [hworkers, run_bind, run_pure, newDate, tryCatch, sendCreateQualificationType, say]
  cases env.createQualificationType { w with clockReads := w.clockReads + 1 }
      { Name := "Compensation " ++ dateStringYMDHMS (env.clock w.clockReads)
        Description := "Qualification for a compensation HIT for the following worker(s): " ++
          jsJoin "," (wkr :: rest)
        Keywords := "compensation, " ++ jsJoin ", " (wkr :: rest)
        QualificationTypeStatus := "Active" } with
  | ok res =>
    simp only [ofExcept, QualificationRef.ofResponse]
    have key := fun w2 => assign_run (.id res.QualificationTypeId) (wkr :: rest) env w2
    split
    · rename_i hr
      have h1 := congrArg (fun r => r.2.calls) hr
      have h2 := congrArg (fun r => r.2.prompts) hr
      simp only [(key _).2.1, (key _).2.2] at h1 h2
      refine ⟨rfl, ?_, h2.symm⟩
      rw [← h1]
      simp
    · rename_i hr
      have h0 := congrArg (fun r => r.1) hr
      simp only [(key _).1] at h0
      cases h0
    · rename_i hr
      have h0 := congrArg (fun r => r.1) hr
      simp only [(key _).1] at h0
      cases h0
  | error msg =>
    simp only [ofExcept, QualificationRef.ofResponse]
    have key := fun w2 => assign_run .undefined (wkr :: rest) env w2
    split
    · rename_i hr
      have h1 := congrArg (fun r => r.2.calls) hr
      have h2 := congrArg (fun r => r.2.prompts) hr
      simp only [(key _).2.1, (key _).2.2] at h1 h2
      refine ⟨rfl, ?_, h2.symm⟩
      rw [← h1]
      simp
    · rename_i hr
      have h0 := congrArg (fun r => r.1) hr
      simp only [(key _).1] at h0
      cases h0
    · rename_i hr
      have h0 := congrArg (fun r => r.1) hr
      simp only [(key _).1] at h0
      cases h0

/-- C10. In compensation mode with a non-empty worker list, `mturkPrepareQualifications`
sends no lookup: it sends exactly one create-qualification request, named `Compensation`
followed by the timestamp, then one assignment request per worker, and asks nothing. When
the marketplace accepts the create request, it returns exactly one requirement, `Exists` on
the id of the qualification created, guarding `DiscoverPreviewAndAccept`. When the
marketplace rejects the create request, it returns the same requirement on the id
`undefined`. The run is the same for every experiment name, options and configuration in
compensation mode with the same worker list: block and allow lists, location, approval rate
and the sandbox option do not affect it. -/
theorem mturkPrepareQualifications_compensation (expName : String) (config : StudyConfig)
    (options : Options) (env : Env) (w : World) (wkr : String) (rest : List String)
    (hmode : (options.compensation || expName == "compensation") = true)
    (hworkers : config.workersToCompensate = some (wkr :: rest)) :
    (∃ req : CreateQualificationTypeInput,
      req.Name = "Compensation " ++ dateStringYMDHMS (env.clock w.clockReads) ∧
      (∀ q, env.createQualificationType { w with clockReads := w.clockReads + 1 } req = .ok q →
        (mturkPrepareQualifications expName config options env w).1 =
          .returned
            [{ QualificationTypeId := .id q.QualificationTypeId,
               Comparator := "Exists", ActionsGuarded := "DiscoverPreviewAndAccept" }]) ∧
      (∀ msg,
        env.createQualificationType { w with clockReads := w.clockReads + 1 } req =
          .error msg →
        (mturkPrepareQualifications expName config options env w).1 =
          .returned
            [{ QualificationTypeId := .undefined,
               Comparator := "Exists", ActionsGuarded := "DiscoverPreviewAndAccept" }]) ∧
      (mturkPrepareQualifications expName config options env w).2.calls =
        w.calls ++ .createQualificationType req ::
          (wkr :: rest).map (assignRequest (QualificationRef.ofResponse
            (env.createQualificationType { w with clockReads := w.clockReads + 1 } req))) ∧
      (mturkPrepareQualifications expName config options env w).2.prompts = w.prompts) ∧
    (∀ req, Command.listQualificationTypes req ∉
      (mturkPrepareQualifications expName config options env w).2.calls.drop w.calls.length) ∧
    (∀ (expName2 : String) (config2 : StudyConfig) (options2 : Options),
      (options2.compensation || expName2 == "compensation") = true →
      config2.workersToCompensate = config.workersToCompensate →
      mturkPrepareQualifications expName2 config2 options2 env w =
        mturkPrepareQualifications expName config options env w) := by
  have hrun : mturkPrepareQualifications expName config options env w =
      mturkPrepareQualifications.compensation config env w := by
    unfold mturkPrepareQualifications
    simp only [hmode, if_true]
  obtain ⟨req, h1, h2, h3, h4⟩ := compensation_run config env w wkr rest hworkers
  refine ⟨⟨req, h1, ?_, ?_, ?_, ?_⟩, ?_, ?_⟩
  · intro q hq
    rw [hrun, h2, hq]
    rfl
  · intro msg hmsg
    rw [hrun, h2, hmsg]
    rfl
  · rw [hrun]; exact h3
  · rw [hrun]; exact h4
  · intro r
    rw [hrun, h3, List.drop_left]
    simp [assignRequest]
  · intro expName2 config2 options2 hmode2 hw2
    rw [hrun]
    unfold mturkPrepareQualifications
    simp only [hmode2, if_true]
    unfold mturkPrepareQualifications.compensation
    rw [hw2]

/-- Witness of C10: a compensation posting for three workers; the two last conjuncts are
what the run returns when the qualification is created and when its creation is
rejected. -/
theorem mturkPrepareQualifications_compensation_witness :
    ((({ compensation := true } : Options).compensation || "exp" == "compensation") = true ∧
      compensationConfig.workersToCompensate = some ("W1" :: ["W2", "W3"])) ∧
    (∀ (expName2 : String) (config2 : StudyConfig) (options2 : Options),
      (options2.compensation || expName2 == "compensation") = true →
      config2.workersToCompensate = compensationConfig.workersToCompensate →
      mturkPrepareQualifications expName2 config2 options2 (Env.answering true) {} =
        mturkPrepareQualifications "exp" compensationConfig { compensation := true }
          (Env.answering true) {}) ∧
    (mturkPrepareQualifications "exp" compensationConfig { compensation := true }
        (Env.answering true) {}).1 =
      .returned [{ QualificationTypeId := .id "Q-Compensation 20240101_120005",
                   Comparator := "Exists", ActionsGuarded := "DiscoverPreviewAndAccept" }] ∧
    (mturkPrepareQualifications "exp" compensationConfig { compensation := true }
        Env.rejectingCreation {}).1 =
      .returned [{ QualificationTypeId := .undefined,
                   Comparator := "Exists", ActionsGuarded := "DiscoverPreviewAndAccept" }] :=
  ⟨⟨rfl, rfl⟩,
    (mturkPrepareQualifications_compensation "exp" compensationConfig { compensation := true }
      (Env.answering true) {} "W1" ["W2", "W3"] rfl rfl).2.2,
    by decide!, by decide!⟩

/-! ## Prolific eligibility requirements -/

theorem push_if {α : Type} (c : Prop) [Decidable c] (l : List α) (x : α) :
    (if c then l ++ [x] else l) = l ++ (if c then [x] else []) := by
  split <;> simp

theorem filter_cons_map {α β : Type} (p : α → Bool) (f : α → β) (a : α) (l : List α) :
    ((a :: l).filter p).map f = (if p a then [f a] else []) ++ (l.filter p).map f := by
  cases h : p a <;> simp [List.filter, h]

theorem prolificCreateStudyObject_requirements (sel : Run String) (expName studyURL : String)
    (config : StudyConfig) (existingStudy : Bool) (env : Env) (w : World)
    (hsel : (!existingStudy &&
        !decide (config.prolific.project ≠ none ∧ config.prolific.project ≠ some "")) = true →
      ∃ p w1, sel env w = (.returned p, w1)) :
    ∃ studyObject config1,
      (prolificCreateStudyObject sel expName studyURL config existingStudy env w).1 =
        .returned (studyObject, config1) ∧
      studyObject.eligibility_requirements = screenerRequirements config := by
  unfold prolificCreateStudyObject
  simp only [run_bind, run_pure, push_if]
  by_cases hc : (!existingStudy &&
      !decide (config.prolific.project ≠ none ∧ config.prolific.project ≠ some "")) = true
  · obtain ⟨p, w1, hp⟩ := hsel hc
    simp only [hc, if_true, run_bind, hp, run_pure]
    refine ⟨_, _, rfl, ?_⟩
    simp only [screenerRequirements, flagScreeners, filter_cons_map, List.filter_nil,
      List.map_nil, List.append_nil, List.nil_append, List.append_assoc]
    rfl
  · simp only [hc, if_false, run_pure, Bool.false_eq_true]
    refine ⟨_, _, rfl, ?_⟩
    simp only [screenerRequirements, flagScreeners, filter_cons_map, List.filter_nil,
      List.map_nil, List.append_nil, List.nil_append, List.append_assoc]
    rfl

theorem lookup_perm {β : Type} (k : String) {l1 l2 : List (String × β)} (h : l1.Perm l2)
    (hnd : (l1.map Prod.fst).Nodup) : l1.lookup k = l2.lookup k := by
  induction h with
  | nil => rfl
  | cons a _ ih =>
    obtain ⟨a1, a2⟩ := a
    simp only [List.map_cons, List.nodup_cons] at hnd
    simp only [List.lookup_cons, ih hnd.2]
  | swap a b l =>
    obtain ⟨a1, a2⟩ := a
    obtain ⟨b1, b2⟩ := b
    simp only [List.map_cons, List.nodup_cons, List.mem_cons, not_or] at hnd
    have hne : b1 ≠ a1 := hnd.1.1
    simp only [List.lookup_cons]
    by_cases h1 : k = a1
    · subst h1
      have : (k == b1) = false := by simpa using fun h => hne h.symm
      simp [this]
    · have : (k == a1) = false := by simpa using h1
      simp [this]
  | trans h1 _ ih1 ih2 =>
    exact (ih1 hnd).trans (ih2 ((h1.map Prod.fst).nodup_iff.mp hnd))


theorem prolificCreateStudyObject_requirements_of_returned (sel : Run String)
    (expName studyURL : String) (config : StudyConfig) (existingStudy : Bool) (env : Env)
    (w : World) (studyObject : StudyObject) (config1 : StudyConfig)
    (hret : (prolificCreateStudyObject sel expName studyURL config existingStudy env w).1 =
      .returned (studyObject, config1)) :
    studyObject.eligibility_requirements = screenerRequirements config := by
  by_cases hc : (!existingStudy &&
      !decide (config.prolific.project ≠ none ∧ config.prolific.project ≠ some "")) = true
  · rcases hs : sel env w with ⟨o, w1⟩
    cases o with
    | returned p =>
      obtain ⟨so, c1, h1, h2⟩ := prolificCreateStudyObject_requirements sel expName studyURL
        config existingStudy env w (fun _ => ⟨p, w1, hs⟩)
      rw [h1] at hret
      cases hret
      exact h2
    | threw msg =>
      unfold prolificCreateStudyObject at hret
      simp only [run_bind, run_pure, hc, if_true, hs] at hret
      cases hret
    | exited code =>
      unfold prolificCreateStudyObject at hret
      simp only [run_bind, run_pure, hc, if_true, hs] at hret
      cases hret
  · obtain ⟨so, c1, h1, h2⟩ := prolificCreateStudyObject_requirements sel expName studyURL
      config existingStudy env w (fun h => absurd h hc)
    rw [h1] at hret
    cases hret
    exact h2

theorem screener_perm (config config2 : StudyConfig) (l1 l2 : List (String × JsValue))
    (h1 : config.prolific.screeners = some l1) (h2 : config2.prolific.screeners = some l2)
    (hperm : l1.Perm l2) (hnd : (l1.map Prod.fst).Nodup) (key : String) :
    config2.screener key = config.screener key := by
  simp only [StudyConfig.screener, h1, h2, Option.getD_some, lookup_perm key hperm hnd]

/-- C8 (as amended). The study object `prolificCreateStudyObject` returns has, in
`eligibility_requirements`, zero or one element per screener, in the fixed order `ageRange`,
`approvalRateRange`, `fluentEnglish`, `excludeDementia`, `excludeMS`,
`excludeMentalHealthImpact`, `normalVision`, `ownVR`: the list has as many elements as
there are enabled screeners, it is the same for two configurations whose screeners differ
only in the order of the keys, it is empty when no screener is configured, the age
requirement carries `min_age = ageRange[0]` and `max_age = ageRange[1]`, and every
requirement carries its fixed class, and its fixed taxonomy id except the approval-rate
requirement, which has no `query` at all. -/
theorem prolificCreateStudyObject_screeners (sel : Run String) (expName studyURL : String)
    (config : StudyConfig) (existingStudy : Bool) (env : Env) (w : World)
    (hsel : (!existingStudy &&
        !decide (config.prolific.project ≠ none ∧ config.prolific.project ≠ some "")) = true →
      ∃ p w1, sel env w = (.returned p, w1)) :
    ∃ studyObject config1,
      (prolificCreateStudyObject sel expName studyURL config existingStudy env w).1 =
        .returned (studyObject, config1) ∧
      studyObject.eligibility_requirements =
        (if arrayIsArray (config.screener "ageRange") then
          [{ _cls := "web.eligibility.models.AgeRangeEligibilityRequirement"
             query := some { id := "54ac6ea9fdf99b2204feb893" }
             attributes :=
              [{ name := "min_age", value := (config.screener "ageRange").index 0 },
               { name := "max_age", value := (config.screener "ageRange").index 1 }] }]
          else []) ++
        (if arrayIsArray (config.screener "approvalRateRange") then
          [{ _cls := "web.eligibility.models.ApprovalRateEligibilityRequirement"
             query := none
             attributes :=
              [{ name := "minimum_approval_rate",
                 value := (config.screener "approvalRateRange").index 0 },
               { name := "maximum_approval_rate",
                 value := (config.screener "approvalRateRange").index 1 }] }]
          else []) ++
        (flagScreeners.filter fun s => (config.screener s.1).truthy).map Prod.snd ∧
      studyObject.eligibility_requirements.length = enabledScreeners config ∧
      (∀ (config2 : StudyConfig) (l1 l2 : List (String × JsValue)) (existing2 : Bool)
          (env2 : Env) (w2 : World) (studyObject2 : StudyObject) (config3 : StudyConfig),
        config.prolific.screeners = some l1 → config2.prolific.screeners = some l2 →
        l1.Perm l2 → (l1.map Prod.fst).Nodup →
        (prolificCreateStudyObject sel expName studyURL config2 existing2 env2 w2).1 =
          .returned (studyObject2, config3) →
        studyObject2.eligibility_requirements = studyObject.eligibility_requirements) ∧
      ((config.prolific.screeners = none ∨ config.prolific.screeners = some []) →
        studyObject.eligibility_requirements = []) ∧
      flagScreeners.map (fun s => (s.1, s.2.query.map fun q => q.id)) =
        [("fluentEnglish", some "58c6b44ea4dd0a4799361afc"),
         ("excludeDementia", some "59cb6f8c21454d000194c364"),
         ("excludeMS", some "5d825cdfbe876600168b6d16"),
         ("excludeMentalHealthImpact", some "58c951b0a4dd0a08048f3017"),
         ("normalVision", some "57a0c4d2717b34954e81b919"),
         ("ownVR", some "5eac255ff716eb05e0ed3853")] := by
  obtain ⟨studyObject, config1, h1, h2⟩ :=
    prolificCreateStudyObject_requirements sel expName studyURL config existingStudy env w hsel
  refine ⟨studyObject, config1, h1, ?_, ?_, ?_, ?_, ?_⟩
  · rw [h2]
    rfl
  · rw [h2]
    simp only [screenerRequirements, enabledScreeners, List.length_append, List.length_map]
    congr 2 <;> split <;> rfl
  · intro config2 l1 l2 existing2 env2 w2 studyObject2 config3 hl1 hl2 hperm hnd hret
    rw [h2, prolificCreateStudyObject_requirements_of_returned sel expName studyURL config2
      existing2 env2 w2 studyObject2 config3 hret]
    simp only [screenerRequirements, screener_perm config config2 l1 l2 hl1 hl2 hperm hnd]
  · intro hnone
    rw [h2]
    have hs : ∀ key, config.screener key = .atom .undefined := by
      intro key
      rcases hnone with h | h <;> simp [StudyConfig.screener, h]
    simp only [screenerRequirements, hs]
    decide
  · decide

/-- Witness of C8 (as amended): a study screened by age, approval rate and vision. -/
theorem prolificCreateStudyObject_screeners_witness :
    ∃ studyObject config1,
      (prolificCreateStudyObject (pure "P2") "exp" "https://study.example" screenedConfig
        false (Env.answering true) {}).1 = .returned (studyObject, config1) ∧
      studyObject.eligibility_requirements =
        (if arrayIsArray (screenedConfig.screener "ageRange") then
          [{ _cls := "web.eligibility.models.AgeRangeEligibilityRequirement"
             query := some { id := "54ac6ea9fdf99b2204feb893" }
             attributes :=
              [{ name := "min_age", value := (screenedConfig.screener "ageRange").index 0 },
               { name := "max_age", value := (screenedConfig.screener "ageRange").index 1 }] }]
          else []) ++
        (if arrayIsArray (screenedConfig.screener "approvalRateRange") then
          [{ _cls := "web.eligibility.models.ApprovalRateEligibilityRequirement"
             query := none
             attributes :=
              [{ name := "minimum_approval_rate",
                 value := (screenedConfig.screener "approvalRateRange").index 0 },
               { name := "maximum_approval_rate",
                 value := (screenedConfig.screener "approvalRateRange").index 1 }] }]
          else []) ++
        (flagScreeners.filter fun s => (screenedConfig.screener s.1).truthy).map Prod.snd ∧
      studyObject.eligibility_requirements.length = enabledScreeners screenedConfig ∧
      (∀ (config2 : StudyConfig) (l1 l2 : List (String × JsValue)) (existing2 : Bool)
          (env2 : Env) (w2 : World) (studyObject2 : StudyObject) (config3 : StudyConfig),
        screenedConfig.prolific.screeners = some l1 → config2.prolific.screeners = some l2 →
        l1.Perm l2 → (l1.map Prod.fst).Nodup →
        (prolificCreateStudyObject (pure "P2") "exp" "https://study.example" config2 existing2
          env2 w2).1 = .returned (studyObject2, config3) →
        studyObject2.eligibility_requirements = studyObject.eligibility_requirements) ∧
      ((screenedConfig.prolific.screeners = none ∨ screenedConfig.prolific.screeners = some []) →
        studyObject.eligibility_requirements = []) ∧
      flagScreeners.map (fun s => (s.1, s.2.query.map fun q => q.id)) =
        [("fluentEnglish", some "58c6b44ea4dd0a4799361afc"),
         ("excludeDementia", some "59cb6f8c21454d000194c364"),
         ("excludeMS", some "5d825cdfbe876600168b6d16"),
         ("excludeMentalHealthImpact", some "58c951b0a4dd0a08048f3017"),
         ("normalVision", some "57a0c4d2717b34954e81b919"),
         ("ownVR", some "5eac255ff716eb05e0ed3853")] :=
  prolificCreateStudyObject_screeners (pure "P2") "exp" "https://study.example" screenedConfig
    false (Env.answering true) {} (fun h => absurd h (by decide))

/-- C8 (as stated) fails on "each carries its fixed taxonomy id": for a study screened by
age, approval rate and vision (and the same with the keys in another order), the second
of the three requirements, the approval-rate requirement, has no `query`, so no id. -/
theorem prolificCreateStudyObject_approval_rate_without_id :
    ((prolificCreateStudyObject (pure "P2") "exp" "https://study.example" screenedConfig
        true (Env.answering true) {}).1.toOption.map fun r =>
          r.1.eligibility_requirements.map fun e => (e._cls, e.query.map fun q => q.id)) =
      some
        [("web.eligibility.models.AgeRangeEligibilityRequirement",
            some "54ac6ea9fdf99b2204feb893"),
         ("web.eligibility.models.ApprovalRateEligibilityRequirement", none),
         ("web.eligibility.models.SelectAnswerEligibilityRequirement",
            some "57a0c4d2717b34954e81b919")] ∧
    ((prolificCreateStudyObject (pure "P2") "exp" "https://study.example"
        screenedConfigReordered true (Env.answering true) {}).1.toOption.map fun r =>
          r.1.eligibility_requirements.map fun e => (e._cls, e.query.map fun q => q.id)) =
      some
        [("web.eligibility.models.AgeRangeEligibilityRequirement",
            some "54ac6ea9fdf99b2204feb893"),
         ("web.eligibility.models.ApprovalRateEligibilityRequirement", none),
         ("web.eligibility.models.SelectAnswerEligibilityRequirement",
            some "57a0c4d2717b34954e81b919")] := by
  refine ⟨by decide!, by decide!⟩

/-! ## The history journal -/

theorem lookup_cons_self (key : String) (v : JournalValue) (j : Journal) :
    List.lookup key ((key, v) :: j) = some v := by
  simp [List.lookup]

theorem lookup_cons_ne (k key : String) (v : JournalValue) (j : Journal) (hk : k ≠ key) :
    List.lookup k ((key, v) :: j) = j.lookup k := by
  have h2 : (k == key) = false := by simpa using hk
  simp [List.lookup, h2]

theorem lookup_replace_self (key : String) (v : JournalValue) (j : Journal)
    (h : (j.lookup key).isSome = true) : (Journal.replace key v j).lookup key = some v := by
  induction j with
  | nil => simp [List.lookup] at h
  | cons kv rest ih =>
    obtain ⟨k, x⟩ := kv
    by_cases hk : k = key
    · subst hk
      simp only [Journal.replace, if_true]
      exact lookup_cons_self _ _ _
    · have hk2 : key ≠ k := fun h3 => hk h3.symm
      rw [lookup_cons_ne _ _ _ _ hk2] at h
      simp only [Journal.replace, hk, if_false]
      rw [lookup_cons_ne _ _ _ _ hk2]
      exact ih h

theorem lookup_replace_ne (key k : String) (v : JournalValue) (j : Journal) (hk : k ≠ key) :
    (Journal.replace key v j).lookup k = j.lookup k := by
  induction j with
  | nil => rfl
  | cons kv rest ih =>
    obtain ⟨k1, x⟩ := kv
    by_cases h : k1 = key
    · subst h
      simp only [Journal.replace, if_true]
      rw [lookup_cons_ne _ _ _ _ hk, lookup_cons_ne _ _ _ _ hk]
    · simp only [Journal.replace, h, if_false]
      by_cases h1 : k = k1
      · subst h1
        rw [lookup_cons_self, lookup_cons_self]
      · rw [lookup_cons_ne _ _ _ _ h1, lookup_cons_ne _ _ _ _ h1]
        exact ih

theorem lookup_add_self (key : String) (v : JournalValue) (j : Journal)
    (h : j.lookup key = none) : (Journal.add key v j).lookup key = some v := by
  induction j with
  | nil => exact lookup_cons_self _ _ _
  | cons kv rest ih =>
    obtain ⟨k, x⟩ := kv
    have hk : key ≠ k := by
      intro h3
      subst h3
      rw [lookup_cons_self] at h
      cases h
    rw [lookup_cons_ne _ _ _ _ hk] at h
    simp only [Journal.add]
    split
    · split
      · rw [lookup_cons_ne _ _ _ _ hk]
        exact ih h
      · exact lookup_cons_self _ _ _
    · exact lookup_cons_self _ _ _
    · rw [lookup_cons_ne _ _ _ _ hk]
      exact ih h

theorem lookup_add_ne (key k : String) (v : JournalValue) (j : Journal) (hk : k ≠ key) :
    (Journal.add key v j).lookup k = j.lookup k := by
  induction j with
  | nil => exact lookup_cons_ne _ _ _ _ hk
  | cons kv rest ih =>
    obtain ⟨k1, x⟩ := kv
    have hcons : List.lookup k ((k1, x) :: Journal.add key v rest) =
        List.lookup k ((k1, x) :: rest) := by
      by_cases h1 : k = k1
      · subst h1
        rw [lookup_cons_self, lookup_cons_self]
      · rw [lookup_cons_ne _ _ _ _ h1, lookup_cons_ne _ _ _ _ h1]
        exact ih
    simp only [Journal.add]
    split
    · split
      · exact hcons
      · exact lookup_cons_ne _ _ _ _ hk
    · exact lookup_cons_ne _ _ _ _ hk
    · exact hcons

/-- Reading back the key just set: every key but a `__proto__` that is not an own
property. -/
theorem lookup_set_self (j : Journal) (key : String) (v : JournalValue)
    (hkey : key ≠ "__proto__" ∨ (j.lookup key).isSome = true) :
    (Journal.set j key v).lookup key = some v := by
  unfold Journal.set
  by_cases h : (j.lookup key).isSome = true
  · rw [if_pos h]
    exact lookup_replace_self key v j h
  · rw [if_neg h]
    rcases hkey with hkey | hkey
    · rw [if_neg hkey]
      have hn : j.lookup key = none := by
        cases hl : j.lookup key with
        | none => rfl
        | some x =>
          rw [hl] at h
          exact absurd rfl h
      exact lookup_add_self key v j hn
    · exact absurd hkey h

theorem lookup_set_ne (j : Journal) (key k : String) (v : JournalValue) (hk : k ≠ key) :
    (Journal.set j key v).lookup k = j.lookup k := by
  unfold Journal.set
  split
  · exact lookup_replace_ne key k v j hk
  · split
    · rfl
    · exact lookup_add_ne key k v j hk

/-- The key `__proto__`, when it is not an own property, cannot be set. -/
theorem set_proto (j : Journal) (v : JournalValue) (h : j.lookup "__proto__" = none) :
    Journal.set j "__proto__" v = j := by
  unfold Journal.set
  rw [h]
  rfl

theorem seqOf_set_self (j : Journal) (key : String) (xs : List String)
    (hkey : key ≠ "__proto__" ∨ (j.lookup key).isSome = true) :
    Journal.seqOf (Journal.set j key (.seq xs)) key = some xs := by
  simp [Journal.seqOf, lookup_set_self j key _ hkey]

theorem seqOf_set_ne (j : Journal) (key k : String) (v : JournalValue) (hk : k ≠ key) :
    Journal.seqOf (Journal.set j key v) k = Journal.seqOf j k := by
  simp [Journal.seqOf, lookup_set_ne _ _ _ _ hk]

theorem lookup_eq_none_iff (j : Journal) (key : String) :
    j.lookup key = none ↔ key ∉ j.map Prod.fst := by
  induction j with
  | nil => simp [List.lookup]
  | cons kv rest ih =>
    obtain ⟨k, x⟩ := kv
    by_cases h : key = k
    · subst h
      simp [List.lookup]
    · have h2 : (key == k) = false := by simpa using h
      simp only [List.lookup, h2, List.map_cons, List.mem_cons, h, false_or]
      exact ih

theorem seqOf_eq_some_iff (j : Journal) (key : String) (xs : List String) :
    Journal.seqOf j key = some xs ↔ j.lookup key = some (.seq xs) := by
  unfold Journal.seqOf
  split
  · rename_i ys h
    rw [h]
    simp
  · rename_i h
    constructor
    · intro h2
      cases h2
    · intro h2
      exact absurd h2 (h xs)

/-- The journal that the update step leaves: the sequence of the key is extended by the
value, the other keys are as they were; a `__proto__` that is not an own property leaves
the journal as it was. -/
theorem appended_lookup (j : Journal) (key value : String) :
    (key ≠ "__proto__" ∨ (j.lookup key).isSome = true →
      Journal.seqOf (Journal.appended j key value) key =
        some ((Journal.seqOf j key).getD [] ++ [value])) ∧
    (∀ k, k ≠ key → (Journal.appended j key value).lookup k = j.lookup k) ∧
    (key = "__proto__" → j.lookup key = none → Journal.appended j key value = j) := by
  unfold Journal.appended
  cases hs : Journal.seqOf j key with
  | none =>
    refine ⟨fun hkey => ?_, fun k hk => ?_, fun h1 h2 => ?_⟩
    · have e1 : Journal.seqOf (Journal.set j key (.seq [])) key = some [] :=
        seqOf_set_self j key [] hkey
      have e2 : ((Journal.set j key (.seq [])).lookup key).isSome = true := by
        rw [lookup_set_self j key _ hkey]
        rfl
      show Journal.seqOf (Journal.set (Journal.set j key (.seq [])) key
        (.seq ((Journal.seqOf (Journal.set j key (.seq [])) key).getD [] ++ [value]))) key = _
      rw [seqOf_set_self _ key _ (Or.inr e2), e1]
      rfl
    · show (Journal.set (Journal.set j key (.seq [])) key _).lookup k = _
      rw [lookup_set_ne _ _ _ _ hk, lookup_set_ne _ _ _ _ hk]
    · subst h1
      show Journal.set (Journal.set j "__proto__" (.seq [])) "__proto__" _ = _
      rw [set_proto j _ h2, set_proto j _ h2]
  | some xs =>
    have hsome : (j.lookup key).isSome = true := by
      rw [(seqOf_eq_some_iff j key xs).1 hs]
      rfl
    refine ⟨fun _ => ?_, fun k hk => ?_, fun _ h2 => ?_⟩
    · show Journal.seqOf (Journal.set j key (.seq ((Journal.seqOf j key).getD [] ++ [value])))
        key = _
      rw [seqOf_set_self j key _ (Or.inr hsome), hs]
    · show (Journal.set j key _).lookup k = _
      rw [lookup_set_ne _ _ _ _ hk]
    · rw [h2] at hsome
      cases hsome

/-- What `getStudyHistory` returns and leaves behind, for every state of the journal. -/
theorem getStudyHistory_run (expName : String) (env : Env) (w : World) :
    getStudyHistory expName env w =
      match w.journals expName with
      | .absent => (.returned none, { w with output := w.output ++
          [.log ("Warning: Study history not found at " ++ studyHistoryPath expName ++ ".")] })
      | .unreadable => (.threw "readJSON failed", w)
      | .present j => (.returned (some j), w) := by
  unfold getStudyHistory journalExists readJSON
  simp only [run_bind, tryCatch, say, run_pure, jsThrow]
  rcases hj : w.journals expName with _ | _ | j <;> simp [hj, tryCatch, jsThrow, say]

/-- The run of `updateStudyHistory` on a journal that is absent or readable, when the file
can be written: the journal of the update step is written. -/
theorem updateStudyHistory_written (expName key value : String) (env : Env) (w : World)
    (hread : w.journals expName ≠ .unreadable)
    (hwrite : ∀ w1 j, env.writeFile w1 expName j = .ok ()) :
    ∃ w1 : World,
      updateStudyHistory expName key value env w = (.returned 0, w1) ∧
      w1.journals = Function.update w.journals expName
        (.present (Journal.appended (w.journalOrInitial expName) key value)) ∧
      w1.calls = w.calls ∧ w1.prompts = w.prompts ∧ w1.clockReads = w.clockReads := by
  unfold updateStudyHistory
  simp only [run_bind, tryCatch, getStudyHistory_run, say, writeJournal, hwrite, run_pure,
    jsThrow, World.journalOrInitial, Journal.appended]
  rcases hj : w.journals expName with _ | _ | j
  · simp only []
    cases hs : Journal.seqOf [("HITId", JournalValue.seq []), ("projectId", .seq []),
        ("siteId", .seq [])] key with
    | none =>
      simp only [hs, run_bind, say, run_pure]
      exact ⟨_, rfl, rfl, rfl, rfl, rfl⟩
    | some xs =>
      simp only [hs, run_bind, say, run_pure]
      exact ⟨_, rfl, rfl, rfl, rfl, rfl⟩
  · exact absurd hj hread
  · simp only []
    cases hs : Journal.seqOf j key with
    | none =>
      simp only [hs, run_bind, say, run_pure]
      exact ⟨_, rfl, rfl, rfl, rfl, rfl⟩
    | some xs =>
      simp only [hs, run_bind, say, run_pure]
      exact ⟨_, rfl, rfl, rfl, rfl, rfl⟩

/-- The same, with what the journal written holds. -/
theorem updateStudyHistory_run (expName key value : String) (env : Env) (w : World)
    (hread : w.journals expName ≠ .unreadable)
    (hwrite : ∀ w1 j, env.writeFile w1 expName j = .ok ()) :
    ∃ (j1 : Journal) (w1 : World),
      updateStudyHistory expName key value env w = (.returned 0, w1) ∧
      w1.journals = Function.update w.journals expName (.present j1) ∧
      w1.calls = w.calls ∧ w1.prompts = w.prompts ∧ w1.clockReads = w.clockReads ∧
      (key ≠ "__proto__" ∨ ((w.journalOrInitial expName).lookup key).isSome = true →
        Journal.seqOf j1 key =
          some ((Journal.seqOf (w.journalOrInitial expName) key).getD [] ++ [value])) ∧
      (∀ k, k ≠ key → j1.lookup k = (w.journalOrInitial expName).lookup k) ∧
      (key = "__proto__" → (w.journalOrInitial expName).lookup key = none →
        j1 = w.journalOrInitial expName) := by
  obtain ⟨w1, h1, h2, h3, h4, h5⟩ := updateStudyHistory_written expName key value env w hread
    hwrite
  obtain ⟨a1, a2, a3⟩ := appended_lookup (w.journalOrInitial expName) key value
  exact ⟨_, w1, h1, h2, h3, h4, h5, a1, a2, a3⟩

/-- C18. When the experiment has no journal and the file can be written,
`updateStudyHistory` with one of the keys `HITId`, `projectId`, `siteId` returns 0 and writes
a journal with exactly these three keys, in which the sequence of the key is the value alone
and the two other sequences are empty; the journals of other experiments are untouched. -/
theorem updateStudyHistory_fresh_journal (expName key value : String) (env : Env) (w : World)
    (habsent : w.journals expName = .absent)
    (hkey : key = "HITId" ∨ key = "projectId" ∨ key = "siteId")
    (hwrite : ∀ w1 j, env.writeFile w1 expName j = .ok ()) :
    (updateStudyHistory expName key value env w).1 = .returned 0 ∧
    (updateStudyHistory expName key value env w).2.journals expName = .present
      [("HITId", .seq (if key = "HITId" then [value] else [])),
       ("projectId", .seq (if key = "projectId" then [value] else [])),
       ("siteId", .seq (if key = "siteId" then [value] else []))] ∧
    ∀ e, e ≠ expName →
      (updateStudyHistory expName key value env w).2.journals e = w.journals e := by
  unfold updateStudyHistory
  simp only [run_bind, tryCatch, getStudyHistory_run, say, writeJournal, hwrite, run_pure,
    jsThrow, habsent]
  rcases hkey with h | h | h <;> subst h <;>
    exact ⟨rfl, by simp [Journal.seqOf, Journal.set, Journal.replace, List.lookup],
      fun e he => by
        simp [Journal.seqOf, Journal.set, Journal.replace, List.lookup, Function.update, he]⟩

/-- Witness of C18: the first append of `A` under `projectId`. -/
theorem updateStudyHistory_fresh_journal_witness :
    (({} : World).journals "exp" = .absent ∧
      ("projectId" = "HITId" ∨ "projectId" = "projectId" ∨ "projectId" = "siteId") ∧
      ∀ (w1 : World) (j : Journal), (Env.answering true).writeFile w1 "exp" j = .ok ()) ∧
    (updateStudyHistory "exp" "projectId" "A" (Env.answering true) {}).2.journals "exp" =
      .present [("HITId", .seq []), ("projectId", .seq ["A"]), ("siteId", .seq [])] :=
  ⟨⟨rfl, by decide, fun _ _ => rfl⟩,
    (updateStudyHistory_fresh_journal "exp" "projectId" "A" (Env.answering true) {} rfl
      (by decide) (fun _ _ => rfl)).2.1⟩

theorem seqOf_eq_none_iff (j : Journal) (key : String)
    (hseq : ∀ kv ∈ j, kv.2.isSeq = true) :
    Journal.seqOf j key = none ↔ key ∉ j.map Prod.fst := by
  induction j with
  | nil => simp [Journal.seqOf, List.lookup]
  | cons kv rest ih =>
    obtain ⟨k, x⟩ := kv
    have hx := hseq (k, x) (List.mem_cons_self _ _)
    cases x <;> simp only [JournalValue.isSeq] at hx <;> try cases hx
    have ih2 := ih fun kv hkv => hseq kv (List.mem_cons_of_mem _ hkv)
    by_cases h : key = k
    · subst h
      simp [Journal.seqOf, List.lookup]
    · have h2 : (key == k) = false := by simpa using h
      simp only [Journal.seqOf, List.lookup, h2, List.map_cons, List.mem_cons, h, false_or]
      exact ih2

/-- C19. On an existing journal whose values are sequences, when the file can be written,
`updateStudyHistory` returns 0 and writes a journal in which every other key has the value
it had. For every key but a `__proto__` that the journal does not hold, the sequence of the
key is its earlier sequence (empty when the key was missing, which is the only way for it
to have none) followed by the value. For the key `__proto__`, when the journal does not
hold it, the journal written is the journal as it was: the value is not recorded. The
journals of other experiments are untouched. -/
theorem updateStudyHistory_appends (expName key value : String) (env : Env) (w : World)
    (j : Journal) (hj : w.journals expName = .present j)
    (hseq : ∀ kv ∈ j, kv.2.isSeq = true)
    (hwrite : ∀ w1 j1, env.writeFile w1 expName j1 = .ok ()) :
    ∃ j1 : Journal,
      (updateStudyHistory expName key value env w).1 = .returned 0 ∧
      (updateStudyHistory expName key value env w).2.journals expName = .present j1 ∧
      (∀ k, k ≠ key → j1.lookup k = j.lookup k) ∧
      (key ≠ "__proto__" ∨ key ∈ j.map Prod.fst →
        j1.lookup key = some (.seq ((Journal.seqOf j key).getD [] ++ [value]))) ∧
      (key = "__proto__" → key ∉ j.map Prod.fst → j1 = j) ∧
      (Journal.seqOf j key = none ↔ key ∉ j.map Prod.fst) ∧
      ∀ e, e ≠ expName →
        (updateStudyHistory expName key value env w).2.journals e = w.journals e := by
  obtain ⟨j1, w1, h1, h2, _, _, _, h3, h4, h5⟩ :=
    updateStudyHistory_run expName key value env w (by rw [hj]; simp) hwrite
  have hinit : w.journalOrInitial expName = j := by simp [World.journalOrInitial, hj]
  rw [hinit] at h3 h4 h5
  have hmem : key ∈ j.map Prod.fst → (j.lookup key).isSome = true := by
    intro hm
    cases hl : j.lookup key with
    | none => exact absurd hm ((lookup_eq_none_iff j key).1 hl)
    | some x => rfl
  refine ⟨j1, by rw [h1], by rw [h1]; simp [h2], h4, ?_, ?_, seqOf_eq_none_iff j key hseq, ?_⟩
  · intro hkey
    exact (seqOf_eq_some_iff _ _ _).1 (h3 (hkey.imp id hmem))
  · intro hp hn
    exact h5 hp ((lookup_eq_none_iff j key).2 hn)
  · intro e he
    rw [h1]
    simp [h2, Function.update, he]

/-- Witness of C19: appending `P3` under `projectId` after `P1`, `P2`, and `S1` under the
missing key `siteId`; appending `X` under the missing key `__proto__` leaves the journal as
it was. -/
theorem updateStudyHistory_appends_witness :
    ((journalWorld [("HITId", .seq ["H1"]), ("projectId", .seq ["P1", "P2"])]).journals "exp" =
        .present [("HITId", .seq ["H1"]), ("projectId", .seq ["P1", "P2"])] ∧
      (∀ kv ∈ ([("HITId", .seq ["H1"]), ("projectId", .seq ["P1", "P2"])] : Journal),
        kv.2.isSeq = true) ∧
      ∀ (w1 : World) (j1 : Journal), (Env.answering true).writeFile w1 "exp" j1 = .ok ()) ∧
    (updateStudyHistory "exp" "projectId" "P3" (Env.answering true)
        (journalWorld [("HITId", .seq ["H1"]), ("projectId", .seq ["P1", "P2"])])).1 =
      .returned 0 ∧
    (updateStudyHistory "exp" "projectId" "P3" (Env.answering true)
        (journalWorld [("HITId", .seq ["H1"]), ("projectId", .seq ["P1", "P2"])])).2.journals
        "exp" =
      .present [("HITId", .seq ["H1"]), ("projectId", .seq ["P1", "P2", "P3"])] ∧
    (updateStudyHistory "exp" "siteId" "S1" (Env.answering true)
        (journalWorld [("HITId", .seq ["H1"]), ("projectId", .seq ["P1", "P2"])])).2.journals
        "exp" =
      .present [("HITId", .seq ["H1"]), ("projectId", .seq ["P1", "P2"]),
        ("siteId", .seq ["S1"])] ∧
    (updateStudyHistory "exp" "__proto__" "X" (Env.answering true)
        (journalWorld [("HITId", .seq ["H1"]), ("projectId", .seq ["P1", "P2"])])).1 =
      .returned 0 ∧
    (updateStudyHistory "exp" "__proto__" "X" (Env.answering true)
        (journalWorld [("HITId", .seq ["H1"]), ("projectId", .seq ["P1", "P2"])])).2.journals
        "exp" =
      .present [("HITId", .seq ["H1"]), ("projectId", .seq ["P1", "P2"])] :=
  ⟨⟨rfl, by decide, fun _ _ => rfl⟩,
    (updateStudyHistory_appends "exp" "projectId" "P3" (Env.answering true)
      (journalWorld [("HITId", .seq ["H1"]), ("projectId", .seq ["P1", "P2"])])
      [("HITId", .seq ["H1"]), ("projectId", .seq ["P1", "P2"])] rfl (by decide)
      (fun _ _ => rfl)).elim fun _ h => h.1,
    by decide!, by decide!, by decide!, by decide!⟩

theorem jsSliceList_last {α : Type} (xs : List α) (b : α) :
    jsSliceList (xs ++ [b]) (-1) = [b] := by
  have h : sliceIndex (xs ++ [b]).length (-1) = xs.length := by
    simp only [sliceIndex, List.length_append, List.length_singleton]
    simp
  unfold jsSliceList
  rw [h]
  simp

/-- The journal after two appends under one key, seen from `getStudyHistory`. -/
theorem appendTwice_run (expName key a b : String) (env : Env) (w : World)
    (hkey : key ≠ "__proto__") (hread : w.journals expName ≠ .unreadable)
    (hwrite : ∀ w1 j, env.writeFile w1 expName j = .ok ()) :
    ∃ (j2 : Journal) (w2 : World) (xs : List String),
      appendTwice expName key a b env w = (.returned 0, w2) ∧
      w2.journals expName = .present j2 ∧
      j2.lookup key = some (.seq (xs ++ [a] ++ [b])) := by
  obtain ⟨j1, w1, h1, h2, _, _, _, h3, _⟩ :=
    updateStudyHistory_run expName key a env w hread hwrite
  have h3 := h3 (Or.inl hkey)
  have hj1 : w1.journals expName = .present j1 := by simp [h2]
  obtain ⟨j2, w2, k1, k2, _, _, _, k3, _⟩ :=
    updateStudyHistory_run expName key b env w1 (by rw [hj1]; simp) hwrite
  have k3 := k3 (Or.inl hkey)
  have hinit : w1.journalOrInitial expName = j1 := by simp [World.journalOrInitial, hj1]
  rw [hinit, h3] at k3
  refine ⟨j2, w2, _, ?_, by simp [k2], (seqOf_eq_some_iff _ _ _).1 k3⟩
  unfold appendTwice
  simp only [run_bind, h1, k1]

/-- C20. After `updateStudyHistory` appends `a` and then `b` under one key of a journal that
can be read and written: for the key `siteId`, `getLatestDeploySite` returns the URL of
`b`; for the key `projectId`, `getLatestDeployProject` returns the array whose only element
is `b`, which is not the string `b`. -/
theorem getLatest_after_two_appends (expName a b : String) (env : Env) (w : World)
    (hread : w.journals expName ≠ .unreadable)
    (hwrite : ∀ w1 j, env.writeFile w1 expName j = .ok ()) :
    ((appendTwice expName "siteId" a b >>= fun _ => getLatestDeploySite expName) env w).1 =
      .returned ("https://" ++ b ++ ".web.app") ∧
    ((appendTwice expName "projectId" a b >>= fun _ => getLatestDeployProject expName)
        env w).1 = .returned (.array [.string b]) ∧
    JsValue.array [.string b] ≠ .atom (.string b) := by
  refine ⟨?_, ?_, by simp⟩
  · obtain ⟨j2, w2, xs, h1, h2, h3⟩ := appendTwice_run expName "siteId" a b env w (by decide) hread hwrite
    simp only [run_bind, h1, getLatestDeploySite, getStudyHistory_run, h2, run_pure, h3,
      jsSliceList_last]
    rfl
  · obtain ⟨j2, w2, xs, h1, h2, h3⟩ :=
      appendTwice_run expName "projectId" a b env w (by decide) hread hwrite
    simp only [run_bind, h1, getLatestDeployProject, getStudyHistory_run, h2, run_pure, h3,
      jsSliceList_last]
    rfl

/-- Witness of C20: appending `A` then `B` on a fresh experiment. -/
theorem getLatest_after_two_appends_witness :
    (({} : World).journals "exp" ≠ .unreadable ∧
      ∀ (w1 : World) (j : Journal), (Env.answering true).writeFile w1 "exp" j = .ok ()) ∧
    ((appendTwice "exp" "siteId" "A" "B" >>= fun _ => getLatestDeploySite "exp")
        (Env.answering true) {}).1 = .returned ("https://" ++ "B" ++ ".web.app") ∧
    ((appendTwice "exp" "projectId" "A" "B" >>= fun _ => getLatestDeployProject "exp")
        (Env.answering true) {}).1 = .returned (.array [.string "B"]) ∧
    JsValue.array [.string "B"] ≠ .atom (.string "B") :=
  ⟨⟨by decide, fun _ _ => rfl⟩,
    getLatest_after_two_appends "exp" "A" "B" (Env.answering true) {} (by decide)
      (fun _ _ => rfl)⟩

/-! ## Failures in the batch loop -/

theorem history_journalOrInitial (w : World) (expName key : String)
    (hread : w.journals expName ≠ .unreadable) :
    (Journal.seqOf (w.journalOrInitial expName) key).getD [] = w.history expName key := by
  unfold World.journalOrInitial World.history
  rcases hj : w.journals expName with _ | _ | j
  · simp only [Journal.seqOf, List.lookup]
    cases key == "HITId" <;> cases key == "projectId" <;> cases key == "siteId" <;> rfl
  · exact absurd hj hread
  · rfl

/-- Appending to a readable journal extends the recorded sequence by the value. -/
theorem updateStudyHistory_history (expName key value : String) (env : Env) (w : World)
    (hkey : key ≠ "__proto__") (hread : w.journals expName ≠ .unreadable)
    (hwrite : ∀ w1 j, env.writeFile w1 expName j = .ok ()) :
    ∃ w1 : World,
      updateStudyHistory expName key value env w = (.returned 0, w1) ∧
      w1.calls = w.calls ∧
      w1.history expName key = w.history expName key ++ [value] ∧
      w1.journals expName ≠ .unreadable := by
  obtain ⟨j1, w1, h1, h2, h3, _, _, h4, _⟩ :=
    updateStudyHistory_run expName key value env w hread hwrite
  have h4 := h4 (Or.inl hkey)
  refine ⟨w1, h1, h3, ?_, by simp [h2]⟩
  rw [history_journalOrInitial w expName key hread] at h4
  simp [World.history, h2, h4]

/-- How `updateStudyHistory` ends, whatever the journal file and the write do: it returns 0
with the journal of the update step written, or it throws and leaves the journals as they
were. -/
theorem updateStudyHistory_cases (expName key value : String) (env : Env) (w : World) :
    (∃ w1 : World, updateStudyHistory expName key value env w = (.returned 0, w1) ∧
      w.journals expName ≠ .unreadable ∧
      w1.journals = Function.update w.journals expName
        (.present (Journal.appended (w.journalOrInitial expName) key value)) ∧
      w1.calls = w.calls) ∨
    (∃ (msg : String) (w1 : World),
      updateStudyHistory expName key value env w = (.threw msg, w1) ∧
      w1.journals = w.journals ∧ w1.calls = w.calls) := by
  unfold updateStudyHistory
  simp only [run_bind, tryCatch, getStudyHistory_run, say, writeJournal, run_pure, jsThrow,
    World.journalOrInitial, Journal.appended]
  rcases hj : w.journals expName with _ | _ | j
  · simp only []
    cases hs : Journal.seqOf [("HITId", JournalValue.seq []), ("projectId", .seq []),
        ("siteId", .seq [])] key with
    | none =>
      simp only [hs, run_bind, say, run_pure]
      generalize env.writeFile _ expName _ = r
      cases r with
      | error msg => exact Or.inr ⟨_, _, rfl, rfl, rfl⟩
      | ok u => exact Or.inl ⟨_, rfl, by simp, rfl, rfl⟩
    | some xs =>
      simp only [hs, run_bind, say, run_pure]
      generalize env.writeFile _ expName _ = r
      cases r with
      | error msg => exact Or.inr ⟨_, _, rfl, rfl, rfl⟩
      | ok u => exact Or.inl ⟨_, rfl, by simp, rfl, rfl⟩
  · exact Or.inr ⟨_, _, rfl, rfl, rfl⟩
  · simp only []
    cases hs : Journal.seqOf j key with
    | none =>
      simp only [hs, run_bind, say, run_pure]
      generalize env.writeFile _ expName _ = r
      cases r with
      | error msg => exact Or.inr ⟨_, _, rfl, rfl, rfl⟩
      | ok u => exact Or.inl ⟨_, rfl, by simp, rfl, rfl⟩
    | some xs =>
      simp only [hs, run_bind, say, run_pure]
      generalize env.writeFile _ expName _ = r
      cases r with
      | error msg => exact Or.inr ⟨_, _, rfl, rfl, rfl⟩
      | ok u => exact Or.inl ⟨_, rfl, by simp, rfl, rfl⟩

/-- A round whose request the marketplace accepts: the id is recorded. -/
theorem submit_ok (expName previewURL : String) (req : CreateHITInput) (env : Env) (w : World)
    (hit : HIT) (hcreate : env.createHIT w req = .ok hit)
    (hread : w.journals expName ≠ .unreadable)
    (hwrite : ∀ w1 j, env.writeFile w1 expName j = .ok ()) :
    ∃ w1 : World,
      mturkPostStudy.submit expName previewURL req env w = (.returned (), w1) ∧
      w1.calls = w.calls ++ [.createHIT req] ∧
      w1.history expName "HITId" = w.history expName "HITId" ++ [hit.HITId] ∧
      w1.journals expName ≠ .unreadable := by
  unfold mturkPostStudy.submit
  simp only [tryCatch, run_bind, sendCreateHIT, hcreate, ofExcept, say]
  obtain ⟨w1, h1, h2, h3, h4⟩ := updateStudyHistory_history expName "HITId" hit.HITId env
    { w with
      calls := w.calls ++ [.createHIT req]
      output := w.output ++ [.log ("Successfully created draft study! (" ++ hit.HITId ++
        ")" ++ "\nPreview it at " ++ (previewURL ++ hit.HITGroupId) ++ ".")] }
    (by decide) hread hwrite
  simp only [h1, run_pure]
  exact ⟨w1, rfl, h2, h3, h4⟩

/-- A round whose request the marketplace rejects: the process exits, nothing is recorded. -/
theorem submit_error (expName previewURL : String) (req : CreateHITInput) (env : Env)
    (w : World) (msg : String) (hcreate : env.createHIT w req = .error msg) :
    ∃ w1 : World,
      mturkPostStudy.submit expName previewURL req env w = (.exited 1, w1) ∧
      w1.calls = w.calls ++ [.createHIT req] ∧
      w1.journals = w.journals := by
  unfold mturkPostStudy.submit
  simp only [tryCatch, run_bind, sendCreateHIT, hcreate, ofExcept, say, processExit]
  exact ⟨_, rfl, rfl, rfl⟩

/-- One round of the batch loop, whatever the marketplace and the journal do: when the round
comes to a HIT, the request is sent and the id recorded; otherwise the request is sent, the
process exits with code 1 and the journals are as they were. -/
theorem submit_round (expName previewURL : String) (req : CreateHITInput) (env : Env)
    (w : World) :
    (∀ hit, roundResult expName previewURL env w req = .ok hit →
      ∃ w1 : World,
        mturkPostStudy.submit expName previewURL req env w = (.returned (), w1) ∧
        w1.calls = w.calls ++ [.createHIT req] ∧
        w1.history expName "HITId" = w.history expName "HITId" ++ [hit.HITId]) ∧
    (∀ msg, roundResult expName previewURL env w req = .error msg →
      ∃ w1 : World,
        mturkPostStudy.submit expName previewURL req env w = (.exited 1, w1) ∧
        w1.calls = w.calls ++ [.createHIT req] ∧
        w1.journals = w.journals) := by
  unfold roundResult mturkPostStudy.submit
  simp only [tryCatch, run_bind, sendCreateHIT, say, processExit]
  cases hc : env.createHIT w req with
  | error msg =>
    simp only [ofExcept]
    exact ⟨fun hit h => (by cases h), fun m _ => ⟨_, rfl, rfl, rfl⟩⟩
  | ok hit =>
    simp only [ofExcept]
    rcases updateStudyHistory_cases expName "HITId" hit.HITId env
      { w with
        calls := w.calls ++ [.createHIT req]
        output := w.output ++ [.log ("Successfully created draft study! (" ++ hit.HITId ++
          ")" ++ "\nPreview it at " ++ (previewURL ++ hit.HITGroupId) ++ ".")] } with
      ⟨w1, h1, h2, h3, h4⟩ | ⟨msg, w1, h1, h2, h3⟩
    · simp only [h1, run_pure]
      refine ⟨fun hit2 h => ⟨w1, rfl, h4, ?_⟩, fun m h => (by cases h)⟩
      simp only [Except.ok.injEq] at h
      subst h
      have e1 := (appended_lookup
        (World.journalOrInitial { w with
          calls := w.calls ++ [.createHIT req]
          output := w.output ++ [.log ("Successfully created draft study! (" ++ hit.HITId ++
            ")" ++ "\nPreview it at " ++ (previewURL ++ hit.HITGroupId) ++ ".")] } expName)
        "HITId" hit.HITId).1 (Or.inl (by decide))
      have e2 := history_journalOrInitial { w with
          calls := w.calls ++ [.createHIT req]
          output := w.output ++ [.log ("Successfully created draft study! (" ++ hit.HITId ++
            ")" ++ "\nPreview it at " ++ (previewURL ++ hit.HITGroupId) ++ ".")] } expName
        "HITId" h2
      rw [e2] at e1
      simp only [World.history, h3, Function.update_same, e1, Option.getD_some]
    · simp only [h1]
      exact ⟨fun hit2 h => (by cases h), fun m _ => ⟨_, rfl, h3, h2⟩⟩

theorem roundResults_batchRequest (expName previewURL baseToken : String) (env : Env)
    (input : CreateHITInput) (i n j : Nat) (w : World) (sizes : List Nat) :
    roundResults expName previewURL baseToken env (batchRequest baseToken input i n) j w sizes =
      roundResults expName previewURL baseToken env input j w sizes := by
  induction sizes generalizing j w with
  | nil => rfl
  | cons m rest ih =>
    simp only [roundResults]
    rw [ih]
    rfl

theorem batchRequests_cons (baseToken : String) (input : CreateHITInput) (i n : Nat)
    (rest : List Nat) :
    batchRequests baseToken input i (n :: rest) =
      batchRequest baseToken input (i + 1) n :: batchRequests baseToken input (i + 1) rest := by
  simp [batchRequests, List.enumFrom_cons]

theorem batchRequests_batchRequest (baseToken : String) (input : CreateHITInput) (i n j : Nat)
    (sizes : List Nat) :
    batchRequests baseToken (batchRequest baseToken input i n) j sizes =
      batchRequests baseToken input j sizes := rfl

theorem batchRequests_length (baseToken : String) (input : CreateHITInput) (i : Nat)
    (sizes : List Nat) : (batchRequests baseToken input i sizes).length = sizes.length := by
  simp [batchRequests]

theorem batchAnswers_batchRequest (expName previewURL baseToken : String) (env : Env)
    (input : CreateHITInput) (i n j : Nat) (w : World) (sizes : List Nat) :
    batchAnswers expName previewURL baseToken env (batchRequest baseToken input i n) j w sizes =
      batchAnswers expName previewURL baseToken env input j w sizes := by
  induction sizes generalizing j w with
  | nil => rfl
  | cons m rest ih =>
    simp only [batchAnswers]
    rw [ih]
    rfl

/-- The world that one round leaves. -/
theorem batches_single (expName previewURL baseToken : String) (input : CreateHITInput)
    (i n : Nat) (env : Env) (w : World) :
    (mturkPostStudy.batches expName previewURL baseToken input i [n] env w).2 =
      (mturkPostStudy.submit expName previewURL (batchRequest baseToken input (i + 1) n) env
        { w with output := w.output ++ [.log "-------------------"] }).2 := by
  simp only [mturkPostStudy.batches, run_bind, say, run_pure]
  have h : mturkPostStudy.submit expName previewURL
      { input with
        UniqueRequestToken := baseToken ++ ("_v" ++ padStart (jsStringOfNat (i + 1)) 3 "0")
        MaxAssignments := n } env
      { w with output := w.output ++ [.log "-------------------"] } =
      mturkPostStudy.submit expName previewURL (batchRequest baseToken input (i + 1) n) env
        { w with output := w.output ++ [.log "-------------------"] } := rfl
  rw [h]
  rcases mturkPostStudy.submit expName previewURL (batchRequest baseToken input (i + 1) n) env
      { w with output := w.output ++ [.log "-------------------"] } with ⟨o, w1⟩
  cases o <;> rfl

/-- The run of the batch loop from position `i`, when the journal can be read and
written. -/
theorem batches_run (expName previewURL baseToken : String) (env : Env)
    (hwrite : ∀ w1 j, env.writeFile w1 expName j = .ok ()) :
    ∀ (sizes : List Nat) (input : CreateHITInput) (i : Nat) (w : World),
      w.journals expName ≠ .unreadable →
      (mturkPostStudy.batches expName previewURL baseToken input i sizes env w).1 =
        (if (leadingIds (batchAnswers expName previewURL baseToken env input i w
            sizes)).length = sizes.length then .returned () else .exited 1) ∧
      (mturkPostStudy.batches expName previewURL baseToken input i sizes env w).2.calls =
        w.calls ++ ((batchRequests baseToken input i sizes).take
          ((leadingIds (batchAnswers expName previewURL baseToken env input i w
            sizes)).length + 1)).map Command.createHIT ∧
      (mturkPostStudy.batches expName previewURL baseToken input i sizes env
          w).2.history expName "HITId" =
        w.history expName "HITId" ++
          leadingIds (batchAnswers expName previewURL baseToken env input i w sizes) := by
  intro sizes
  induction sizes with
  | nil =>
    intro input i w _
    simp [mturkPostStudy.batches, batchRequests, batchAnswers, leadingIds]
  | cons n rest ih =>
    intro input i w hread
    have hone := batches_single expName previewURL baseToken input i n env w
    simp only [batchAnswers, hone]
    simp only [mturkPostStudy.batches, run_bind, say, batchRequests_cons, List.map_cons]
    cases ha : env.createHIT { w with output := w.output ++ [.log "-------------------"] }
        (batchRequest baseToken input (i + 1) n) with
    | error msg =>
      obtain ⟨w1, h1, h2, h3⟩ := submit_error expName previewURL
        (batchRequest baseToken input (i + 1) n) env
        { w with output := w.output ++ [.log "-------------------"] } msg ha
      have h1b : mturkPostStudy.submit expName previewURL
          { input with
            UniqueRequestToken := baseToken ++ ("_v" ++ padStart (jsStringOfNat (i + 1)) 3 "0")
            MaxAssignments := n } env
          { w with output := w.output ++ [.log "-------------------"] } = (.exited 1, w1) := h1
      simp only [h1b, leadingIds]
      refine ⟨by simp, by simp [h2], ?_⟩
      simp [World.history, h3]
    | ok hit =>
      obtain ⟨w1, h1, h2, h3, h4⟩ := submit_ok expName previewURL
        (batchRequest baseToken input (i + 1) n) env
        { w with output := w.output ++ [.log "-------------------"] } hit ha hread hwrite
      have h1b : mturkPostStudy.submit expName previewURL
          { input with
            UniqueRequestToken := baseToken ++ ("_v" ++ padStart (jsStringOfNat (i + 1)) 3 "0")
            MaxAssignments := n } env
          { w with output := w.output ++ [.log "-------------------"] } = (.returned (), w1) :=
        h1
      obtain ⟨k1, k2, k3⟩ := ih (batchRequest baseToken input (i + 1) n) (i + 1) w1 h4
      simp only [batchRequests_batchRequest, batchAnswers_batchRequest] at k1 k2 k3
      have k1b : (mturkPostStudy.batches expName previewURL baseToken
          { input with
            UniqueRequestToken := baseToken ++ ("_v" ++ padStart (jsStringOfNat (i + 1)) 3 "0")
            MaxAssignments := n } (i + 1) rest env w1) =
          (mturkPostStudy.batches expName previewURL baseToken
            (batchRequest baseToken input (i + 1) n) (i + 1) rest env w1) := rfl
      simp only [h1, h1b, leadingIds, k1b, k1, k2, k3, h2, h3, List.length_cons,
        Nat.add_right_cancel_iff, List.take_succ_cons, List.map_cons]
      refine ⟨trivial, ?_, ?_⟩
      · simp [World.history]
      · simp [World.history]

/-- The run of the batch loop from position `i`, whatever the marketplace and the journal
do. -/
theorem batches_rounds (expName previewURL baseToken : String) (env : Env) :
    ∀ (sizes : List Nat) (input : CreateHITInput) (i : Nat) (w : World),
      (mturkPostStudy.batches expName previewURL baseToken input i sizes env w).1 =
        (if (leadingIds (roundResults expName previewURL baseToken env input i w
            sizes)).length = sizes.length then .returned () else .exited 1) ∧
      (mturkPostStudy.batches expName previewURL baseToken input i sizes env w).2.calls =
        w.calls ++ ((batchRequests baseToken input i sizes).take
          ((leadingIds (roundResults expName previewURL baseToken env input i w
            sizes)).length + 1)).map Command.createHIT ∧
      (mturkPostStudy.batches expName previewURL baseToken input i sizes env
          w).2.history expName "HITId" =
        w.history expName "HITId" ++
          leadingIds (roundResults expName previewURL baseToken env input i w sizes) := by
  intro sizes
  induction sizes with
  | nil =>
    intro input i w
    simp [mturkPostStudy.batches, batchRequests, roundResults, leadingIds]
  | cons n rest ih =>
    intro input i w
    have hone := batches_single expName previewURL baseToken input i n env w
    simp only [roundResults, hone]
    simp only [mturkPostStudy.batches, run_bind, say, batchRequests_cons, List.map_cons]
    obtain ⟨hok, herr⟩ := submit_round expName previewURL
      (batchRequest baseToken input (i + 1) n) env
      { w with output := w.output ++ [.log "-------------------"] }
    cases ha : roundResult expName previewURL env
        { w with output := w.output ++ [.log "-------------------"] }
        (batchRequest baseToken input (i + 1) n) with
    | error msg =>
      obtain ⟨w1, h1, h2, h3⟩ := herr msg ha
      have h1b : mturkPostStudy.submit expName previewURL
          { input with
            UniqueRequestToken := baseToken ++ ("_v" ++ padStart (jsStringOfNat (i + 1)) 3 "0")
            MaxAssignments := n } env
          { w with output := w.output ++ [.log "-------------------"] } = (.exited 1, w1) := h1
      simp only [h1b, leadingIds]
      refine ⟨by simp, by simp [h2], ?_⟩
      simp [World.history, h3]
    | ok hit =>
      obtain ⟨w1, h1, h2, h3⟩ := hok hit ha
      have h1b : mturkPostStudy.submit expName previewURL
          { input with
            UniqueRequestToken := baseToken ++ ("_v" ++ padStart (jsStringOfNat (i + 1)) 3 "0")
            MaxAssignments := n } env
          { w with output := w.output ++ [.log "-------------------"] } = (.returned (), w1) :=
        h1
      obtain ⟨k1, k2, k3⟩ := ih (batchRequest baseToken input (i + 1) n) (i + 1) w1
      simp only [batchRequests_batchRequest, roundResults_batchRequest] at k1 k2 k3
      have k1b : (mturkPostStudy.batches expName previewURL baseToken
          { input with
            UniqueRequestToken := baseToken ++ ("_v" ++ padStart (jsStringOfNat (i + 1)) 3 "0")
            MaxAssignments := n } (i + 1) rest env w1) =
          (mturkPostStudy.batches expName previewURL baseToken
            (batchRequest baseToken input (i + 1) n) (i + 1) rest env w1) := rfl
      simp only [h1, h1b, leadingIds, k1b, k1, k2, k3, h2, h3, List.length_cons,
        Nat.add_right_cancel_iff, List.take_succ_cons, List.map_cons]
      refine ⟨trivial, ?_, ?_⟩
      · simp [World.history]
      · simp [World.history]

/-- C17. In the batch loop of `mturkPostStudy`, a round fails when the marketplace rejects
its create call or when the journal update that follows it throws (`roundResults`). For
every plan and every outside world: the loop submits the requests of the plan in batch
order up to and including that of the first round that fails, and no other command; it
returns when no round fails and ends the process with exit code 1 otherwise; and the
`HITId` sequence of the journal is its earlier value followed by the ids returned for the
rounds before the first failure, in batch order (all of them when no round fails). When
the journal can be read and written, the same holds with the answers to the create calls
(`batchAnswers`) in place of the rounds: only a rejected create call fails a round. -/
theorem mturkPostStudy_stops_at_first_failure (expName previewURL baseToken : String)
    (env : Env) (sizes : List Nat) (input : CreateHITInput) (w : World) :
    ((mturkPostStudy.batches expName previewURL baseToken input 0 sizes env w).1 =
      (if (leadingIds (roundResults expName previewURL baseToken env input 0 w sizes)).length =
          sizes.length then .returned () else .exited 1) ∧
    (mturkPostStudy.batches expName previewURL baseToken input 0 sizes env w).2.calls =
      w.calls ++ ((batchRequests baseToken input 0 sizes).take
        ((leadingIds (roundResults expName previewURL baseToken env input 0 w sizes)).length +
          1)).map Command.createHIT ∧
    (mturkPostStudy.batches expName previewURL baseToken input 0 sizes env
        w).2.history expName "HITId" =
      w.history expName "HITId" ++
        leadingIds (roundResults expName previewURL baseToken env input 0 w sizes)) ∧
    ((∀ w1 j, env.writeFile w1 expName j = .ok ()) → w.journals expName ≠ .unreadable →
      (mturkPostStudy.batches expName previewURL baseToken input 0 sizes env w).1 =
        (if (leadingIds (batchAnswers expName previewURL baseToken env input 0 w
            sizes)).length = sizes.length then .returned () else .exited 1) ∧
      (mturkPostStudy.batches expName previewURL baseToken input 0 sizes env w).2.calls =
        w.calls ++ ((batchRequests baseToken input 0 sizes).take
          ((leadingIds (batchAnswers expName previewURL baseToken env input 0 w
            sizes)).length + 1)).map Command.createHIT ∧
      (mturkPostStudy.batches expName previewURL baseToken input 0 sizes env
          w).2.history expName "HITId" =
        w.history expName "HITId" ++
          leadingIds (batchAnswers expName previewURL baseToken env input 0 w sizes)) :=
  ⟨batches_rounds expName previewURL baseToken env sizes input 0 w,
    fun hwrite hread => batches_run expName previewURL baseToken env hwrite sizes input 0 w
      hread⟩

/-- Witness of C17: a plan of three batches whose second request is rejected submits two
requests, exits, and records the id of the first batch only; the same through
`mturkPostStudy` with the third request rejected records the first two ids. -/
theorem mturkPostStudy_stops_at_first_failure_witness :
    ((∀ (w1 : World) (j : Journal),
        (Env.rejectingBatch "exp_20240101_1200_v002").writeFile w1 "exp" j = .ok ()) ∧
      ({} : World).journals "exp" ≠ .unreadable) ∧
    (mturkPostStudy.batches "exp" "url" "exp_20240101_1200" sampleInput 0 [9, 9, 5]
        (Env.rejectingBatch "exp_20240101_1200_v002") {}).2.history "exp" "HITId" =
      ({} : World).history "exp" "HITId" ++
        leadingIds (batchAnswers "exp" "url" "exp_20240101_1200"
          (Env.rejectingBatch "exp_20240101_1200_v002") sampleInput 0 {} [9, 9, 5]) ∧
    (mturkPostStudy.batches "exp" "url" "exp_20240101_1200" sampleInput 0 [9, 9, 5]
        (Env.rejectingBatch "exp_20240101_1200_v002") {}).2.history "exp" "HITId" =
      ({} : World).history "exp" "HITId" ++
        leadingIds (roundResults "exp" "url" "exp_20240101_1200"
          (Env.rejectingBatch "exp_20240101_1200_v002") sampleInput 0 {} [9, 9, 5]) ∧
    (mturkPostStudy.batches "exp" "url" "exp_20240101_1200" sampleInput 0 [9, 9, 5]
        (Env.rejectingBatch "exp_20240101_1200_v002") {}).1 = .exited 1 ∧
    createHITTokens
        (mturkPostStudy.batches "exp" "url" "exp_20240101_1200" sampleInput 0 [9, 9, 5]
          (Env.rejectingBatch "exp_20240101_1200_v002") {}).2.calls =
      ["exp_20240101_1200_v001", "exp_20240101_1200_v002"] ∧
    (mturkPostStudy.batches "exp" "url" "exp_20240101_1200" sampleInput 0 [9, 9, 5]
        (Env.rejectingBatch "exp_20240101_1200_v002") {}).2.history "exp" "HITId" =
      ["HIT-exp_20240101_1200_v001"] ∧
    (mturkPostStudy (pure "<html>") "exp" sampleConfig mturkConfig { sandbox := true }
        (Env.rejectingBatch "exp_20240101_1200_v003") {}).2.history "exp" "HITId" =
      ["HIT-exp_20240101_1200_v001", "HIT-exp_20240101_1200_v002"] :=
  ⟨⟨fun _ _ => rfl, by decide⟩,
    ((mturkPostStudy_stops_at_first_failure "exp" "url" "exp_20240101_1200"
      (Env.rejectingBatch "exp_20240101_1200_v002") [9, 9, 5] sampleInput {}).2
      (fun _ _ => rfl) (by decide)).2.2,
    (mturkPostStudy_stops_at_first_failure "exp" "url" "exp_20240101_1200"
      (Env.rejectingBatch "exp_20240101_1200_v002") [9, 9, 5] sampleInput {}).1.2.2,
    by decide!, by decide!, by decide!, by decide!⟩

/-- Counterexample to C17 as worded: the marketplace accepts the three create calls of the
plan, the journal file cannot be written, and the loop ends the process after the first
batch: one request submitted, no id recorded. -/
theorem mturkPostStudy_stops_at_unwritable_journal :
    (leadingIds (batchAnswers "exp" "url" "exp_20240101_1200" Env.unwritable sampleInput 0 {}
      [9, 9, 5])).length = 3 ∧
    (mturkPostStudy.batches "exp" "url" "exp_20240101_1200" sampleInput 0 [9, 9, 5]
        Env.unwritable {}).1 = .exited 1 ∧
    createHITTokens
        (mturkPostStudy.batches "exp" "url" "exp_20240101_1200" sampleInput 0 [9, 9, 5]
          Env.unwritable {}).2.calls = ["exp_20240101_1200_v001"] ∧
    (mturkPostStudy.batches "exp" "url" "exp_20240101_1200" sampleInput 0 [9, 9, 5]
        Env.unwritable {}).2.history "exp" "HITId" = [] := by
  refine ⟨by decide!, by decide!, by decide!, by decide!⟩

/-! ## Worker assignment -/

/-- C11. In compensation mode, when `config.workersToCompensate` is missing or is an empty
list, `mturkPrepareQualifications` ends the process with exit code 1 after printing the
error line and nothing else happens: no marketplace call is made (no qualification is
created, no worker is assigned), nothing is asked, and no requirement list is returned. -/
theorem mturkPrepareQualifications_no_workers (expName : String) (config : StudyConfig)
    (options : Options) (env : Env) (w : World)
    (hmode : (options.compensation || expName == "compensation") = true)
    (hworkers : config.workersToCompensate = none ∨ config.workersToCompensate = some []) :
    mturkPrepareQualifications expName config options env w =
      (.exited 1, { w with output := w.output ++ [.log ("Error: You must specify " ++
        "workersToCompensate in /experiments/compensation/study-config.js.")] }) ∧
    (mturkPrepareQualifications expName config options env w).2.calls = w.calls := by
  have h : mturkPrepareQualifications expName config options env w =
      (.exited 1, { w with output := w.output ++ [.log ("Error: You must specify " ++
        "workersToCompensate in /experiments/compensation/study-config.js.")] }) := by
    unfold mturkPrepareQualifications mturkPrepareQualifications.compensation
    rcases hworkers with h | h <;>
      simp only [hmode, if_true, h, run_bind, say, processExit] <;> rfl
  exact ⟨h, by rw [h]⟩

/-- Witness of C11: a compensation posting of a study that names no workers. -/
theorem mturkPrepareQualifications_no_workers_witness :
    ((({ compensation := true } : Options).compensation || "exp" == "compensation") = true ∧
      (restrictedConfig.workersToCompensate = none ∨
        restrictedConfig.workersToCompensate = some [])) ∧
    (mturkPrepareQualifications "exp" restrictedConfig { compensation := true }
        (Env.answering true) {}).1 = .exited 1 ∧
    (mturkPrepareQualifications "exp" restrictedConfig { compensation := true }
        (Env.answering true) {}).2.calls = [] :=
  ⟨⟨rfl, Or.inl rfl⟩,
    congrArg Prod.fst (mturkPrepareQualifications_no_workers "exp" restrictedConfig
      { compensation := true } (Env.answering true) {} rfl (Or.inl rfl)).1,
    by decide!⟩

theorem assign_cons (qid : QualificationRef) (wkr : String) (rest : List String) (env : Env)
    (w : World) :
    mturkPrepareQualifications.assign qid (wkr :: rest) env w =
      mturkPrepareQualifications.assign qid rest env
        (mturkPrepareQualifications.assign qid [wkr] env w).2 ∧
    (mturkPrepareQualifications.assign qid [wkr] env w).2 =
      { w with
        calls := w.calls ++ [assignRequest qid wkr]
        output := w.output ++ [assignReport qid wkr (env.associateQualificationWithWorker w
          { QualificationTypeId := qid, WorkerId := wkr, SendNotification := true,
            IntegerValue := 1 })] } := by
  simp only [mturkPrepareQualifications.assign, run_bind, tryCatch,
    sendAssociateQualificationWithWorker, say, run_pure]
  cases env.associateQualificationWithWorker w
      { QualificationTypeId := qid, WorkerId := wkr, SendNotification := true,
        IntegerValue := 1 } <;> exact ⟨rfl, rfl⟩

theorem assign_exact (qid : QualificationRef) :
    ∀ (workers : List String) (env : Env) (w : World),
      mturkPrepareQualifications.assign qid workers env w =
        (.returned (), { w with
          calls := w.calls ++ workers.map (assignRequest qid)
          output := w.output ++
            List.zipWith (assignReport qid) workers (assignAnswers qid env w workers) }) := by
  intro workers
  induction workers with
  | nil => intro env w; simp [mturkPrepareQualifications.assign, assignAnswers]
  | cons wkr rest ih =>
    intro env w
    rw [(assign_cons qid wkr rest env w).1, ih, (assign_cons qid wkr rest env w).2]
    simp [assignAnswers, (assign_cons qid wkr [] env w).2]

theorem assignAnswers_length (qid : QualificationRef) (env : Env) :
    ∀ (workers : List String) (w : World),
      (assignAnswers qid env w workers).length = workers.length := by
  intro workers
  induction workers with
  | nil => intro w; rfl
  | cons wkr rest ih => intro w; simp [assignAnswers, ih]

theorem assignReport_counts (qid : QualificationRef) :
    ∀ (workers : List String) (answers : List (Except String Unit)),
      answers.length = workers.length →
      ((List.zipWith (assignReport qid) workers answers).filter Output.isSuccess).length +
        ((List.zipWith (assignReport qid) workers answers).filter Output.isFailure).length =
        workers.length := by
  intro workers
  induction workers with
  | nil => intro answers _; simp
  | cons wkr rest ih =>
    intro answers h
    cases answers with
    | nil => simp at h
    | cons a as =>
      have h2 := ih as (by simpa using h)
      cases a <;>
        simp [assignReport, Output.isSuccess, Output.isFailure, List.filter_cons] <;> omega

/-- C12. The worker-assignment loop of `mturkPrepareQualifications` always runs to its end:
it sends one assignment request per worker, in list order, and reports one line per worker,
in list order, a success when the marketplace accepted the attempt and a failure naming the
worker when it rejected it, whatever the answers are; so the reported successes and failures
add up to the number of workers. Last conjunct: with three workers and the second attempt
rejected, the report shows two successes and one failure, and the third worker is still
attempted. -/
theorem mturkPrepareQualifications_assigns_every_worker (qid : QualificationRef)
    (workers : List String) (env : Env) (w : World) :
    mturkPrepareQualifications.assign qid workers env w =
      (.returned (), { w with
        calls := w.calls ++ workers.map (assignRequest qid)
        output := w.output ++
          List.zipWith (assignReport qid) workers (assignAnswers qid env w workers) }) ∧
    (assignAnswers qid env w workers).length = workers.length ∧
    ((List.zipWith (assignReport qid) workers (assignAnswers qid env w workers)).filter
        Output.isSuccess).length +
      ((List.zipWith (assignReport qid) workers (assignAnswers qid env w workers)).filter
        Output.isFailure).length = workers.length ∧
    (mturkPrepareQualifications.assign (.id "Q1") ["W1", "W2", "W3"]
        (Env.rejectingWorker "W2") {}) =
      (.returned (),
        { calls := [assignRequest (.id "Q1") "W1", assignRequest (.id "Q1") "W2",
            assignRequest (.id "Q1") "W3"]
          output := [.succeed "Assigning qualification Q1 to W1",
            .fail "Failed to assign qualification to W2: RequestError",
            .succeed "Assigning qualification Q1 to W3"] }) := by
  refine ⟨assign_exact qid workers env w, assignAnswers_length qid env workers w,
    assignReport_counts qid workers _ (assignAnswers_length qid env workers w), ?_⟩
  rw [assign_exact]
  rfl

/-! ## The qualification of the study -/

/-- C13. When the listing call succeeds, `mturkGetQualificationByName` returns the first
listed record whose `Name` equals the name (every record listed before it has another
name), and returns `undefined` exactly when no listed record has that name; so a record
that is returned has exactly that name. -/
theorem mturkGetQualificationByName_exact_match (name : String) (env : Env) (w : World)
    (qs : List QualificationType)
    (hlist : env.listQualificationTypes w
      { Query := name, MustBeRequestable := false, MustBeOwnedByCaller := true } = .ok qs) :
    ∃ found : Option QualificationType,
      (mturkGetQualificationByName name env w).1 = .returned found ∧
      (∀ q, found = some q ↔
        q.Name = name ∧ ∃ before after, qs = before ++ q :: after ∧
          ∀ x ∈ before, x.Name ≠ name) ∧
      (found = none ↔ ∀ x ∈ qs, x.Name ≠ name) := by
  refine ⟨qs.find? fun x => x.Name == name, ?_, ?_, ?_⟩
  · rw [mturkGetQualificationByName_run, hlist]
    simp
  · intro q
    rw [List.find?_eq_some]
    simp
  · simp

/-- Witness of C13: among `exp2`, `ex`, `exp`, `exp` the lookup of `exp` returns the third
record; among `exp2`, `ex` it returns nothing. -/
theorem mturkGetQualificationByName_exact_match_witness :
    ((Env.listing [⟨"Q1", "exp2"⟩, ⟨"Q2", "ex"⟩, ⟨"Q3", "exp"⟩, ⟨"Q4", "exp"⟩]).listQualificationTypes
        {} { Query := "exp", MustBeRequestable := false, MustBeOwnedByCaller := true } =
      .ok [⟨"Q1", "exp2"⟩, ⟨"Q2", "ex"⟩, ⟨"Q3", "exp"⟩, ⟨"Q4", "exp"⟩]) ∧
    (∃ found : Option QualificationType,
      (mturkGetQualificationByName "exp"
        (Env.listing [⟨"Q1", "exp2"⟩, ⟨"Q2", "ex"⟩, ⟨"Q3", "exp"⟩, ⟨"Q4", "exp"⟩]) {}).1 =
          .returned found ∧
      (∀ q, found = some q ↔
        q.Name = "exp" ∧ ∃ before after,
          [⟨"Q1", "exp2"⟩, ⟨"Q2", "ex"⟩, ⟨"Q3", "exp"⟩, ⟨"Q4", "exp"⟩] = before ++ q :: after ∧
          ∀ x ∈ before, x.Name ≠ "exp") ∧
      (found = none ↔ ∀ x ∈ ([⟨"Q1", "exp2"⟩, ⟨"Q2", "ex"⟩, ⟨"Q3", "exp"⟩, ⟨"Q4", "exp"⟩] :
        List QualificationType), x.Name ≠ "exp")) ∧
    (mturkGetQualificationByName "exp"
      (Env.listing [⟨"Q1", "exp2"⟩, ⟨"Q2", "ex"⟩, ⟨"Q3", "exp"⟩, ⟨"Q4", "exp"⟩]) {}).1 =
        .returned (some ⟨"Q3", "exp"⟩) ∧
    (mturkGetQualificationByName "exp" (Env.listing [⟨"Q1", "exp2"⟩, ⟨"Q2", "ex"⟩]) {}).1 =
      .returned none :=
  ⟨rfl,
    mturkGetQualificationByName_exact_match "exp"
      (Env.listing [⟨"Q1", "exp2"⟩, ⟨"Q2", "ex"⟩, ⟨"Q3", "exp"⟩, ⟨"Q4", "exp"⟩]) {}
      [⟨"Q1", "exp2"⟩, ⟨"Q2", "ex"⟩, ⟨"Q3", "exp"⟩, ⟨"Q4", "exp"⟩] rfl,
    by decide!, by decide!⟩

/-- The run of the study-consent step when the listing succeeds. -/
theorem studyConsent_run (expName : String) (config : StudyConfig) (env : Env) (w : World)
    (qs : List QualificationType)
    (hlist : env.listQualificationTypes w
      { Query := expName, MustBeRequestable := false, MustBeOwnedByCaller := true } = .ok qs) :
    ∃ w1 : World,
      mturkPrepareQualifications.studyConsent expName config env w =
        (.returned
          (match qs.find? fun x => x.Name == expName with
            | some q => .record q
            | none => QualificationRef.ofResponse (env.createQualificationType
                { w with
                  calls := w.calls ++ [lookupRequest expName]
                  output := w.output ++ [.info "No qualification exists for this study."] }
                (consentRequest expName config))), w1) ∧
      w1.calls = w.calls ++ lookupRequest expName ::
        (match qs.find? fun x => x.Name == expName with
          | some _ => []
          | none => [.createQualificationType (consentRequest expName config)]) ∧
      w1.prompts = w.prompts := by
  unfold mturkPrepareQualifications.studyConsent
  simp only [run_bind, mturkGetQualificationByName_run, hlist, List.filter_head?]
  cases qs.find? fun x => x.Name == expName with
  | some q => exact ⟨_, rfl, rfl, rfl⟩
  | none =>
    simp only [say, tryCatch, run_bind, sendCreateQualificationType, run_pure]
    cases hc : env.createQualificationType
        { w with
          calls := w.calls ++ [lookupRequest expName]
          output := w.output ++ [.info "No qualification exists for this study."] }
        (consentRequest expName config) with
    | ok res =>
      have hc2 := hc
      simp only [consentRequest, lookupRequest] at hc2
      simp only [hc2, ofExcept, QualificationRef.ofResponse]
      exact ⟨_, rfl, by simp [consentRequest, lookupRequest], rfl⟩
    | error msg =>
      have hc2 := hc
      simp only [consentRequest, lookupRequest] at hc2
      simp only [hc2, ofExcept, QualificationRef.ofResponse]
      exact ⟨_, rfl, by simp [consentRequest, lookupRequest], rfl⟩

/-- The list built and the calls made, given the run of the study-consent step. -/
theorem build_of_consent (expName : String) (config : StudyConfig) (env : Env) (w w1 : World)
    (qid : QualificationRef)
    (h1 : mturkPrepareQualifications.studyConsent expName config env w = (.returned qid, w1)) :
    (mturkPrepareQualifications.build expName config env w).1 =
      .returned (requirementLayout qid config (env.confirm w1 "blockUnder100")) ∧
    (mturkPrepareQualifications.build expName config env w).2.calls = w1.calls := by
  unfold mturkPrepareQualifications.build
  simp only [run_bind, h1, cutoff_eq]
  have ht0 : ((Option.map (fun m => m.restrictApprovalRate) config.mturk).getD
      (JsValue.atom JsAtom.undefined)) = config.restrictApprovalRate := rfl
  simp only [ht0, requirementLayout, consentRequirement, blockRequirement, allowRequirement,
    localeRequirement, approvalRateRequirement, countRequirement]
  by_cases ht : config.restrictApprovalRate.truthy = true
  · simp only [ht, if_true, promptConfirm, run_bind]
    cases env.confirm w1 "blockUnder100" <;>
      by_cases hus : Option.map (fun m => m.restrictLocation) config.mturk =
        some (JsValue.atom (JsAtom.string "US")) <;>
      simp [hus] <;> rfl
  · by_cases hus : Option.map (fun m => m.restrictLocation) config.mturk =
        some (JsValue.atom (JsAtom.string "US")) <;>
      simp [ht, hus] <;> rfl

/-- Outside compensation mode, the calls of `mturkPrepareQualifications` are those of the
study-consent step. -/
theorem prepare_calls (expName : String) (config : StudyConfig) (options : Options)
    (env : Env) (w w1 : World) (qid : QualificationRef)
    (hmode : (options.compensation || expName == "compensation") = false)
    (h1 : mturkPrepareQualifications.studyConsent expName config env w = (.returned qid, w1)) :
    (mturkPrepareQualifications expName config options env w).2.calls = w1.calls := by
  obtain ⟨hb1, hb2⟩ := build_of_consent expName config env w w1 qid h1
  unfold mturkPrepareQualifications
  simp only [hmode, Bool.false_eq_true, if_false, run_bind]
  rcases hr : mturkPrepareQualifications.build expName config env w with ⟨o, w2⟩
  rw [hr] at hb1 hb2
  simp only at hb1 hb2
  subst hb1
  simp only []
  split
  · simp only [promptConfirm, run_bind]
    split <;> exact hb2
  · exact hb2

theorem prepare_calls_listing (expName : String) (config : StudyConfig) (options : Options)
    (env : Env) (w : World) (qs : List QualificationType)
    (hmode : (options.compensation || expName == "compensation") = false)
    (hlist : env.listQualificationTypes w
      { Query := expName, MustBeRequestable := false, MustBeOwnedByCaller := true } = .ok qs) :
    (mturkPrepareQualifications expName config options env w).2.calls =
      w.calls ++ lookupRequest expName ::
        (if qs.any (fun x => x.Name == expName) then []
          else [.createQualificationType (consentRequest expName config)]) := by
  obtain ⟨w1, h1, h2, _⟩ := studyConsent_run expName config env w qs hlist
  rw [prepare_calls expName config options env w w1 _ hmode h1, h2]
  cases hf : qs.find? fun x => x.Name == expName with
  | none =>
    have h3 : qs.any (fun x => x.Name == expName) = false := by
      rw [List.find?_eq_none] at hf
      simpa using hf
    simp [h3]
  | some q =>
    have h3 : qs.any (fun x => x.Name == expName) = true := by
      have h4 := List.find?_some hf
      have h5 := List.mem_of_find?_eq_some hf
      exact List.any_eq_true.2 ⟨q, h5, h4⟩
    simp [h3]

/-- C14. Outside compensation mode and when the listing call succeeds,
`mturkPrepareQualifications` sends the lookup and then a create-qualification request for
the experiment name if and only if no listed record has exactly that name, and sends
nothing else; so a second run, started where the first ended and in which the listing
contains that name, sends no create-qualification request. -/
theorem mturkPrepareQualifications_creates_iff_absent (expName : String)
    (config : StudyConfig) (options : Options) (env : Env) (w : World)
    (qs : List QualificationType)
    (hmode : (options.compensation || expName == "compensation") = false)
    (hlist : env.listQualificationTypes w
      { Query := expName, MustBeRequestable := false, MustBeOwnedByCaller := true } = .ok qs) :
    (mturkPrepareQualifications expName config options env w).2.calls =
      w.calls ++ lookupRequest expName ::
        (if qs.any (fun x => x.Name == expName) then []
          else [.createQualificationType (consentRequest expName config)]) ∧
    (createQualificationRequests
        ((mturkPrepareQualifications expName config options env w).2.calls.drop
          w.calls.length) =
      if ∀ x ∈ qs, x.Name ≠ expName then [consentRequest expName config] else []) ∧
    (∀ qs2 : List QualificationType,
      env.listQualificationTypes (mturkPrepareQualifications expName config options env w).2
        { Query := expName, MustBeRequestable := false, MustBeOwnedByCaller := true } =
          .ok qs2 →
      (∃ x ∈ qs2, x.Name = expName) →
      createQualificationRequests
        ((mturkPrepareQualifications expName config options env
            (mturkPrepareQualifications expName config options env w).2).2.calls.drop
          (mturkPrepareQualifications expName config options env w).2.calls.length) = []) := by
  have h1 := prepare_calls_listing expName config options env w qs hmode hlist
  refine ⟨h1, ?_, ?_⟩
  · rw [h1, List.drop_left]
    by_cases h : ∀ x ∈ qs, x.Name ≠ expName
    · have h3 : qs.any (fun x => x.Name == expName) = false := by simpa using h
      rw [if_pos h]
      simp [h3, createQualificationRequests, lookupRequest]
    · have h3 : qs.any (fun x => x.Name == expName) = true := by simpa using h
      rw [if_neg h]
      simp [h3, createQualificationRequests, lookupRequest]
  · intro qs2 hlist2 hx
    rw [prepare_calls_listing expName config options env _ qs2 hmode hlist2, List.drop_left]
    have h3 : qs2.any (fun x => x.Name == expName) = true := by simpa using hx
    simp [h3, createQualificationRequests, lookupRequest]

/-- Witness of C14: against a marketplace that lists what was created, the first run looks
up and creates, and two runs in a row send lookup, create, lookup. -/
theorem mturkPrepareQualifications_creates_iff_absent_witness :
    ((({} : Options).compensation || "exp" == "compensation") = false ∧
      Env.marketplace.listQualificationTypes {}
        { Query := "exp", MustBeRequestable := false, MustBeOwnedByCaller := true } = .ok []) ∧
    (mturkPrepareQualifications "exp" sampleConfig {} Env.marketplace {}).2.calls =
      ({} : World).calls ++ lookupRequest "exp" ::
        (if ([] : List QualificationType).any (fun x => x.Name == "exp") then []
          else [.createQualificationType (consentRequest "exp" sampleConfig)]) ∧
    (prepareTwice "exp" sampleConfig {} Env.marketplace {}).2.calls =
      [lookupRequest "exp", .createQualificationType (consentRequest "exp" sampleConfig),
        lookupRequest "exp"] :=
  ⟨⟨rfl, rfl⟩,
    (mturkPrepareQualifications_creates_iff_absent "exp" sampleConfig {} Env.marketplace {} []
      rfl rfl).1,
    by decide!⟩

/-- C15. Outside compensation mode and when the listing call succeeds, the list built by
`mturkPrepareQualifications` begins with the study-consent requirement, whose
`QualificationTypeId` is the whole listed record when the lookup found the qualification,
and the id string that the create request answered with when it was created; a record is
never its own id string. -/
theorem mturkPrepareQualifications_consent_reference (expName : String)
    (config : StudyConfig) (env : Env) (w : World) (qs : List QualificationType)
    (hlist : env.listQualificationTypes w
      { Query := expName, MustBeRequestable := false, MustBeOwnedByCaller := true } = .ok qs) :
    (∃ rest, (mturkPrepareQualifications.build expName config env w).1 =
      .returned (consentRequirement
        (match qs.find? fun x => x.Name == expName with
          | some q => .record q
          | none => QualificationRef.ofResponse (env.createQualificationType
              { w with
                calls := w.calls ++ [lookupRequest expName]
                output := w.output ++ [.info "No qualification exists for this study."] }
              (consentRequest expName config))) :: rest)) ∧
    ∀ q : QualificationType, QualificationRef.record q ≠ .id q.QualificationTypeId := by
  obtain ⟨w1, h1, _, _⟩ := studyConsent_run expName config env w qs hlist
  obtain ⟨hb, _⟩ := build_of_consent expName config env w w1 _ h1
  obtain ⟨rest, hrest⟩ := requirementLayout_head
    (match qs.find? fun x => x.Name == expName with
      | some q => .record q
      | none => QualificationRef.ofResponse (env.createQualificationType
          { w with
            calls := w.calls ++ [lookupRequest expName]
            output := w.output ++ [.info "No qualification exists for this study."] }
          (consentRequest expName config))) config (env.confirm w1 "blockUnder100")
  rw [hrest] at hb
  exact ⟨⟨rest, hb⟩, fun q h => by cases h⟩

/-- Witness of C15: with the qualification `exp` listed under the id `3ABC`, the requirement
carries the record and not `3ABC`; with nothing listed it carries the id `Q-exp` of the
qualification created. -/
theorem mturkPrepareQualifications_consent_reference_witness :
    ((Env.listing [⟨"3ABC", "exp"⟩]).listQualificationTypes {}
        { Query := "exp", MustBeRequestable := false, MustBeOwnedByCaller := true } =
      .ok [⟨"3ABC", "exp"⟩]) ∧
    (∀ q : QualificationType, QualificationRef.record q ≠ .id q.QualificationTypeId) ∧
    (mturkPrepareQualifications.build "exp" sampleConfig (Env.listing [⟨"3ABC", "exp"⟩]) {}).1 =
      .returned [consentRequirement (.record ⟨"3ABC", "exp"⟩)] ∧
    (mturkPrepareQualifications.build "exp" sampleConfig (Env.answering true) {}).1 =
      .returned [consentRequirement (.id "Q-exp")] :=
  ⟨rfl,
    (mturkPrepareQualifications_consent_reference "exp" sampleConfig
      (Env.listing [⟨"3ABC", "exp"⟩]) {} [⟨"3ABC", "exp"⟩] rfl).2,
    by decide!, by decide!⟩

/-- C16. Against a marketplace that rejects the create-qualification request,
`mturkPrepareQualifications` returns a requirement list all the same, outside compensation
mode and in it, with `undefined` as the qualification id; in compensation mode it goes on
to send the three assignment requests with that `undefined` id; and `mturkPostStudy` goes
on to create the three HITs of the plan. -/
theorem mturkPrepareQualifications_continues_after_failed_creation :
    (mturkPrepareQualifications "exp" sampleConfig {} Env.rejectingCreation {}).1 =
      .returned [consentRequirement .undefined] ∧
    (mturkPrepareQualifications "exp" compensationConfig { compensation := true }
        Env.rejectingCreation {}).1 =
      .returned [{ QualificationTypeId := .undefined, Comparator := "Exists",
                   ActionsGuarded := "DiscoverPreviewAndAccept" }] ∧
    (mturkPrepareQualifications "exp" compensationConfig { compensation := true }
        Env.rejectingCreation {}).2.calls.drop 1 =
      [assignRequest .undefined "W1", assignRequest .undefined "W2",
        assignRequest .undefined "W3"] ∧
    createHITTokens
        (mturkPostStudy (pure "<html>") "exp" sampleConfig mturkConfig { sandbox := true }
          Env.rejectingCreation {}).2.calls =
      ["exp_20240101_1200_v001", "exp_20240101_1200_v002", "exp_20240101_1200_v003"] := by
  refine ⟨by decide!, by decide!, by decide!, by decide!⟩

/-! ## Failures of the journal getters -/

theorem lookup_isSeq (j : Journal) (key : String) (v : JournalValue)
    (hseq : ∀ kv ∈ j, kv.2.isSeq = true) (h : j.lookup key = some v) : v.isSeq = true := by
  induction j with
  | nil => simp [List.lookup] at h
  | cons kv rest ih =>
    obtain ⟨k, x⟩ := kv
    by_cases hk : key = k
    · subst hk
      simp only [List.lookup, beq_self_eq_true, Option.some.injEq] at h
      subst h
      exact hseq _ (List.mem_cons_self _ _)
    · have h2 : (key == k) = false := by simpa using hk
      simp only [List.lookup, h2] at h
      exact ih (fun kv hkv => hseq kv (List.mem_cons_of_mem _ hkv)) h

/-- C21. `getLatestDeploySite` and `getLatestDeployProject` end the process with exit code 1
exactly when the journal file of the experiment is absent. When the file exists and cannot
be parsed, both throw the error of the read. When the journal is read and its values are
sequences, `getLatestDeployProject` returns a value, and `getLatestDeploySite` returns a
URL when the journal has the key `siteId`. Last two conjuncts: on the journal holding `S1`
under `siteId` and `P1` under `projectId`, the values returned. -/
theorem getLatest_fails_without_journal (expName : String) (env : Env) (w : World) :
    ((getLatestDeploySite expName env w).1 = .exited 1 ↔ w.journals expName = .absent) ∧
    ((getLatestDeployProject expName env w).1 = .exited 1 ↔ w.journals expName = .absent) ∧
    (w.journals expName = .unreadable →
      (getLatestDeploySite expName env w).1 = .threw "readJSON failed" ∧
      (getLatestDeployProject expName env w).1 = .threw "readJSON failed") ∧
    (∀ j : Journal, w.journals expName = .present j → (∀ kv ∈ j, kv.2.isSeq = true) →
      (∃ v, (getLatestDeployProject expName env w).1 = .returned v) ∧
      ("siteId" ∈ j.map Prod.fst →
        ∃ url, (getLatestDeploySite expName env w).1 = .returned url)) ∧
    (getLatestDeploySite "exp" (Env.answering true)
        (journalWorld [("siteId", .seq ["S1"]), ("projectId", .seq ["P1"])])).1 =
      .returned "https://S1.web.app" ∧
    (getLatestDeployProject "exp" (Env.answering true)
        (journalWorld [("siteId", .seq ["S1"]), ("projectId", .seq ["P1"])])).1 =
      .returned (.array [.string "P1"]) := by
  refine ⟨?_, ?_, ?_, ?_, by decide!, by decide!⟩
  · unfold getLatestDeploySite
    simp only [run_bind, getStudyHistory_run]
    rcases hj : w.journals expName with _ | _ | j
    · simp [say, processExit]
    · simp
    · simp only [run_pure]
      rcases hl : j.lookup "siteId" with _ | v
      · simp [jsThrow]
      · cases v <;> simp [jsThrow]
  · unfold getLatestDeployProject
    simp only [run_bind, getStudyHistory_run]
    rcases hj : w.journals expName with _ | _ | j
    · simp [say, processExit]
    · simp
    · simp only [run_pure]
      rcases hl : j.lookup "projectId" with _ | v
      · simp
      · cases v <;> simp [jsThrow]
  · intro hj
    unfold getLatestDeploySite getLatestDeployProject
    simp only [run_bind, getStudyHistory_run, hj]
    exact ⟨trivial, trivial⟩
  · intro j hj hseq
    refine ⟨?_, ?_⟩
    · unfold getLatestDeployProject
      simp only [run_bind, getStudyHistory_run, hj, run_pure]
      rcases hl : j.lookup "projectId" with _ | v
      · exact ⟨_, rfl⟩
      · have hv := lookup_isSeq j _ v hseq hl
        cases v <;> simp only [JournalValue.isSeq] at hv <;> try cases hv
        exact ⟨_, rfl⟩
    · intro hk
      unfold getLatestDeploySite
      simp only [run_bind, getStudyHistory_run, hj, run_pure]
      rcases hl : j.lookup "siteId" with _ | v
      · exact absurd hk ((lookup_eq_none_iff j "siteId").1 hl)
      · have hv := lookup_isSeq j _ v hseq hl
        cases v <;> simp only [JournalValue.isSeq] at hv <;> try cases hv
        exact ⟨_, rfl⟩

/-- Counterexample to C21 as worded: the journal file of `exp` exists, and both getters throw
instead of returning a value. -/
theorem getLatest_fails_on_unreadable_journal :
    unreadableWorld.journals "exp" ≠ .absent ∧
    (getLatestDeploySite "exp" (Env.answering true) unreadableWorld).1 =
      .threw "readJSON failed" ∧
    (getLatestDeployProject "exp" (Env.answering true) unreadableWorld).1 =
      .threw "readJSON failed" := by
  decide!

/-! ## The sections of the task page -/

theorem appendList_found (id tag : String) (items : Option (List String))
    (edits : List DomEdit) (flag : Bool) :
    mturkPrepareHTML.appendList true id tag items (edits, flag) =
      .ok (edits ++ sectionEdits id tag items none,
        flag && decide (items.getD [] = [])) := by
  rcases items with _ | _ | ⟨x, xs⟩ <;>
    simp [mturkPrepareHTML.appendList, sectionEdits, sectionContent]

theorem appendParagraphs_found (id : String) (paras : Option (List String))
    (edits : List DomEdit) (flag : Bool) :
    mturkPrepareHTML.appendParagraphs true id paras (edits, flag) =
      .ok (edits ++ sectionEdits id "" none paras,
        flag && decide (paras.getD [] = [])) := by
  rcases paras with _ | _ | ⟨x, xs⟩ <;>
    simp [mturkPrepareHTML.appendParagraphs, sectionEdits, sectionContent]

theorem sectionEdits_split (id tag : String) (items paras : Option (List String)) :
    sectionEdits id tag items none ++ sectionEdits id "" none paras =
      sectionEdits id tag items paras := by
  simp [sectionEdits, sectionContent]

theorem removeIf_found (id : String) (items paras : Option (List String))
    (edits : List DomEdit) :
    mturkPrepareHTML.removeIf (decide (items.getD [] = []) && decide (paras.getD [] = [])) true
        id edits =
      .ok (edits ++ sectionRemoval id items paras) := by
  by_cases h1 : items.getD [] = [] <;> by_cases h2 : paras.getD [] = [] <;>
    simp [mturkPrepareHTML.removeIf, sectionRemoval, h1, h2]

/-- The edits made when every element is found. -/
theorem modifyDOM_found (tools : PageTools) (text : String) (config : StudyConfig)
    (hfound : ∀ edits, ∀ id ∈ lookedUpIds, tools.hasElement text edits id = true) :
    mturkPrepareHTML.modifyDOM tools text config =
      .ok ([.setTextContent "title-text" config.title] ++
        sectionEdits "requirements" "ul" config.requirementsList config.requirementsPara ++
        sectionEdits "summary" "" none config.summaryPara ++
        sectionEdits "instructions" "ol" config.instructionsList config.instructionsPara ++
        sectionRemoval "requirements" config.requirementsList config.requirementsPara ++
        sectionRemoval "summary" none config.summaryPara ++
        sectionRemoval "instructions" config.instructionsList config.instructionsPara) := by
  have hfound : ∀ edits, tools.hasElement text edits "title-text" = true ∧
      tools.hasElement text edits "requirements" = true ∧
      tools.hasElement text edits "summary" = true ∧
      tools.hasElement text edits "instructions" = true := fun edits =>
    ⟨hfound edits _ (by simp [lookedUpIds]), hfound edits _ (by simp [lookedUpIds]),
      hfound edits _ (by simp [lookedUpIds]), hfound edits _ (by simp [lookedUpIds])⟩
  unfold mturkPrepareHTML.modifyDOM
  simp only [(hfound _).1, (hfound _).2.1, (hfound _).2.2.1, (hfound _).2.2.2, if_true, bind,
    Except.bind, pure, Except.pure, appendList_found,
    appendParagraphs_found, Bool.true_and, List.append_assoc, sectionEdits_split]
  have h0 : ∀ paras : Option (List String),
      decide (paras.getD [] = []) =
        (decide ((none : Option (List String)).getD [] = []) && decide (paras.getD [] = [])) := by
    intro paras
    simp
  rw [h0 config.summaryPara]
  simp only [removeIf_found, List.append_assoc]

theorem appendedTo_append (id : String) (xs ys : List DomEdit) :
    appendedTo id (xs ++ ys) = appendedTo id xs ++ appendedTo id ys := by
  simp [appendedTo, List.filterMap_append]

theorem appendedTo_sectionEdits (id target tag : String) (items paras : Option (List String)) :
    appendedTo id (sectionEdits target tag items paras) =
      if target = id then sectionContent tag items paras else [] := by
  unfold sectionEdits
  induction sectionContent tag items paras with
  | nil => simp [appendedTo]
  | cons c cs ih =>
    by_cases h : target = id
    · simp only [h, if_true] at ih ⊢
      simp only [List.map_cons, appendedTo, List.filterMap_cons, if_true]
      exact congrArg _ ih
    · simp only [h, if_false] at ih ⊢
      simp only [List.map_cons, appendedTo, List.filterMap_cons, h, if_false]
      exact ih

theorem appendedTo_sectionRemoval (id target : String) (items paras : Option (List String)) :
    appendedTo id (sectionRemoval target items paras) = [] := by
  unfold sectionRemoval
  split <;> rfl

theorem removal_mem_sectionEdits (id target tag : String) (items paras : Option (List String)) :
    DomEdit.removeFromParent id ∉ sectionEdits target tag items paras := by
  simp [sectionEdits]

theorem removal_mem_sectionRemoval (id target : String) (items paras : Option (List String)) :
    DomEdit.removeFromParent id ∈ sectionRemoval target items paras ↔
      id = target ∧ items.getD [] = [] ∧ paras.getD [] = [] := by
  unfold sectionRemoval
  split
  · rename_i h
    simp [h]
  · rename_i h
    simp only [List.not_mem_nil, false_iff]
    exact fun h2 => h h2.2

/-- C22. In the templated path of `mturkPrepareHTML`, on a document that has the four elements
the code looks up, the DOM step succeeds with edits such that: the elements appended to the
requirements container are a single `ul` holding one `li` per entry of `requirementsList`,
in order, when there is an entry, followed by one `p` per entry of `requirementsPara`, in
order; likewise for the instructions container with an `ol`, `instructionsList` and
`instructionsPara`; the summary container receives one `p` per entry of `summaryPara`; and
each container is removed from its parent if and only if all its inputs are absent or
empty. -/
theorem mturkPrepareHTML_sections (tools : PageTools) (text : String) (config : StudyConfig)
    (hfound : ∀ edits, ∀ id ∈ lookedUpIds, tools.hasElement text edits id = true) :
    ∃ edits : List DomEdit,
      mturkPrepareHTML.modifyDOM tools text config = .ok edits ∧
      appendedTo "requirements" edits =
        sectionContent "ul" config.requirementsList config.requirementsPara ∧
      appendedTo "summary" edits = (config.summaryPara.getD []).map NewElement.paragraph ∧
      appendedTo "instructions" edits =
        sectionContent "ol" config.instructionsList config.instructionsPara ∧
      (DomEdit.removeFromParent "requirements" ∈ edits ↔
        config.requirementsList.getD [] = [] ∧ config.requirementsPara.getD [] = []) ∧
      (DomEdit.removeFromParent "summary" ∈ edits ↔ config.summaryPara.getD [] = []) ∧
      (DomEdit.removeFromParent "instructions" ∈ edits ↔
        config.instructionsList.getD [] = [] ∧ config.instructionsPara.getD [] = []) := by
  have e0 : ∀ (id a b : String) (l : List DomEdit),
      appendedTo id (DomEdit.setTextContent a b :: l) = appendedTo id l := fun _ _ _ _ => rfl
  have e1 : sectionContent "" none config.summaryPara =
      (config.summaryPara.getD []).map NewElement.paragraph := by
    simp [sectionContent]
  refine ⟨_, modifyDOM_found tools text config hfound, ?_, ?_, ?_, ?_, ?_, ?_⟩
  · simp only [List.singleton_append, List.cons_append, List.append_assoc, e0,
      appendedTo_append, appendedTo_sectionEdits, appendedTo_sectionRemoval]
    simp [appendedTo]
  · simp only [List.singleton_append, List.cons_append, List.append_assoc, e0,
      appendedTo_append, appendedTo_sectionEdits, appendedTo_sectionRemoval]
    simp [e1, appendedTo]
  · simp only [List.singleton_append, List.cons_append, List.append_assoc, e0,
      appendedTo_append, appendedTo_sectionEdits, appendedTo_sectionRemoval]
    simp [appendedTo]
  · simp [removal_mem_sectionEdits, removal_mem_sectionRemoval]
  · simp [removal_mem_sectionEdits, removal_mem_sectionRemoval]
  · simp [removal_mem_sectionEdits, removal_mem_sectionRemoval]

/-- The sample layout has the four elements looked up. -/
theorem sampleLayout_ids :
    ∀ id ∈ lookedUpIds, plainTools.hasElement sampleLayout [] id = true := by
  decide!

/-- Witness of C22: the sample layout and a study with two requirement items, one
requirement paragraph, one instruction paragraph and no summary; the last conjunct lists
the edits made. -/
theorem mturkPrepareHTML_sections_witness :
    (∀ (edits : List DomEdit), ∀ id ∈ lookedUpIds,
      plainTools.hasElement sampleLayout edits id = true) ∧
    (∃ edits : List DomEdit,
      mturkPrepareHTML.modifyDOM plainTools sampleLayout sectionedConfig = .ok edits ∧
      appendedTo "requirements" edits =
        sectionContent "ul" sectionedConfig.requirementsList sectionedConfig.requirementsPara ∧
      appendedTo "summary" edits =
        (sectionedConfig.summaryPara.getD []).map NewElement.paragraph ∧
      appendedTo "instructions" edits =
        sectionContent "ol" sectionedConfig.instructionsList sectionedConfig.instructionsPara ∧
      (DomEdit.removeFromParent "requirements" ∈ edits ↔
        sectionedConfig.requirementsList.getD [] = [] ∧
          sectionedConfig.requirementsPara.getD [] = []) ∧
      (DomEdit.removeFromParent "summary" ∈ edits ↔ sectionedConfig.summaryPara.getD [] = []) ∧
      (DomEdit.removeFromParent "instructions" ∈ edits ↔
        sectionedConfig.instructionsList.getD [] = [] ∧
          sectionedConfig.instructionsPara.getD [] = [])) ∧
    (mturkPrepareHTML.modifyDOM plainTools sampleLayout sectionedConfig).toOption =
      some [.setTextContent "title-text" "Reaching",
        .appendChild "requirements" (.list "ul" "padding-left: 1em" ["Adult", "Mouse"]),
        .appendChild "requirements" (.paragraph "Sit upright."),
        .appendChild "instructions" (.paragraph "Reach."),
        .removeFromParent "summary"] :=
  ⟨fun _ => sampleLayout_ids,
    mturkPrepareHTML_sections plainTools sampleLayout sectionedConfig
      (fun _ => sampleLayout_ids),
    by decide!⟩

/-! ## The payload of the task page -/

theorem wrap_returned (tools : PageTools) (html : String) (files : LayoutFiles)
    (payload : String)
    (h : (mturkPrepareHTML.wrap tools html files).outcome = .returned payload) :
    ∃ minified, tools.minify html = .ok minified ∧
      payload = beginXmlTags ++ minified ++ endXmlTags := by
  unfold mturkPrepareHTML.wrap at h
  cases hm : tools.minify html with
  | error msg =>
    rw [hm] at h
    cases h
  | ok minified =>
    rw [hm] at h
    simp only [Outcome.returned.injEq] at h
    exact ⟨minified, rfl, h.symm⟩

/-- C23. Whenever `mturkPrepareHTML` returns a payload, on either path, the payload is the
opening `beginXmlTags`, then the minified page, then the closing `endXmlTags`; the page is
the text of the compensation layout in the compensation path, and the serialised document
after the edits in the templated path. In the compensation path the result is the same
for every experiment name, study URL, configuration and Firebase configuration. -/
theorem mturkPrepareHTML_envelope (tools : PageTools) (expName studyURL : String)
    (config : StudyConfig) (firebaseConfig : FirebaseConfig) (options : Options)
    (files : LayoutFiles) (payload : String)
    (hret : (mturkPrepareHTML tools expName studyURL config firebaseConfig options
      files).outcome = .returned payload) :
    (∃ page minified, tools.minify page = .ok minified ∧
      payload = beginXmlTags ++ minified ++ endXmlTags ∧
      (if options.compensation then files.compensationLayout = .ok page
        else ∃ text edits,
          (mturkPrepareHTML tools expName studyURL config firebaseConfig options
            files).files.layout = .ok text ∧
          mturkPrepareHTML.modifyDOM tools text config = .ok edits ∧
          page = tools.serialize text edits)) ∧
    (options.compensation = true →
      ∀ (expName2 studyURL2 : String) (config2 : StudyConfig) (firebaseConfig2 : FirebaseConfig),
        mturkPrepareHTML tools expName2 studyURL2 config2 firebaseConfig2 options files =
          mturkPrepareHTML tools expName studyURL config firebaseConfig options files) := by
  constructor
  · unfold mturkPrepareHTML at hret ⊢
    by_cases hc : options.compensation = true
    · simp only [hc, if_true] at hret ⊢
      cases hl : files.compensationLayout with
      | error msg =>
        rw [hl] at hret
        cases hret
      | ok html =>
        rw [hl] at hret
        obtain ⟨minified, h1, h2⟩ := wrap_returned tools html files payload hret
        exact ⟨html, minified, h1, h2, rfl⟩
    · simp only [hc, if_false, Bool.false_eq_true] at hret ⊢
      cases hl : files.layout with
      | error msg =>
        rw [hl] at hret
        cases hret
      | ok text =>
        simp only [hl] at hret ⊢
        cases hd : mturkPrepareHTML.modifyDOM tools
            (replaceMarkedLine "databaseURL = "
              ("        const databaseURL = '" ++ jsTemplate firebaseConfig.databaseURL ++ "'; " ++
                ("// " ++ tools.dateText))
              (replaceMarkedLine "taskURL = "
                ("        const taskURL = '" ++ studyURL ++ "'; " ++ ("// " ++ tools.dateText))
                (replaceMarkedLine "expName = "
                  ("        const expName = '" ++ expName ++ "'; " ++ ("// " ++ tools.dateText))
                  text))) config with
        | error msg =>
          simp only [hd] at hret
          cases hret
        | ok edits =>
          simp only [hd] at hret ⊢
          obtain ⟨minified, h1, h2⟩ := wrap_returned tools _ _ payload hret
          refine ⟨_, minified, h1, h2, _, edits, ?_, hd, rfl⟩
          unfold mturkPrepareHTML.wrap
          split <;> rfl
  · intro hc expName2 studyURL2 config2 firebaseConfig2
    unfold mturkPrepareHTML
    simp only [hc, if_true]

/-- Witness of C23: the compensation payload of the sample files, which no other argument
changes; on the templated path of the same files a payload in the same envelope is
returned. -/
theorem mturkPrepareHTML_envelope_witness :
    ((mturkPrepareHTML plainTools "exp" "https://exp.web.app" sampleConfig {}
        { compensation := true } sampleFiles).outcome =
      .returned (beginXmlTags ++ "<p>Thank you</p>" ++ endXmlTags)) ∧
    (({ compensation := true } : Options).compensation = true →
      ∀ (expName2 studyURL2 : String) (config2 : StudyConfig) (firebaseConfig2 : FirebaseConfig),
        mturkPrepareHTML plainTools expName2 studyURL2 config2 firebaseConfig2
            { compensation := true } sampleFiles =
          mturkPrepareHTML plainTools "exp" "https://exp.web.app" sampleConfig {}
            { compensation := true } sampleFiles) ∧
    ∃ page, (mturkPrepareHTML plainTools "exp" "https://exp.web.app" sampleConfig {} {}
        sampleFiles).outcome = .returned (beginXmlTags ++ page ++ endXmlTags) :=
  ⟨by decide!,
    (mturkPrepareHTML_envelope plainTools "exp" "https://exp.web.app" sampleConfig {}
      { compensation := true } sampleFiles (beginXmlTags ++ "<p>Thank you</p>" ++ endXmlTags)
      (by decide!)).2,
    ⟨jsJoin "\n" (((sampleLines.set 4 (expNameLine plainTools "exp")).set 5
        (taskURLLine plainTools "https://exp.web.app")).set 6
        (databaseURLLine plainTools {})) ++ "<!-- 4 -->", by decide!⟩⟩

/-! ## The places submitted -/

theorem bind_returned {α β : Type} {m : Run α} {f : α → Run β} {env : Env} {w w2 : World}
    {b : β} (h : (m >>= f) env w = (.returned b, w2)) :
    ∃ a w1, m env w = (.returned a, w1) ∧ f a env w1 = (.returned b, w2) := by
  rw [run_bind] at h
  rcases hr : m env w with ⟨o, w1⟩
  rw [hr] at h
  cases o with
  | returned a => exact ⟨a, w1, rfl, h⟩
  | threw msg => cases h
  | exited code => cases h

theorem createHITSizes_append (xs ys : List Command) :
    createHITSizes (xs ++ ys) = createHITSizes xs ++ createHITSizes ys := by
  simp [createHITSizes, List.filterMap_append]

theorem createHITSizes_map (reqs : List CreateHITInput) :
    createHITSizes (reqs.map Command.createHIT) = reqs.map fun r => r.MaxAssignments := by
  induction reqs with
  | nil => rfl
  | cons r rest ih =>
    have h : createHITSizes (Command.createHIT r :: rest.map Command.createHIT) =
        r.MaxAssignments :: createHITSizes (rest.map Command.createHIT) := rfl
    rw [List.map_cons, List.map_cons, h, ih]

theorem plan_sum (N : Nat) (env : Env) (w : World) :
    ∃ sizes w1, mturkPromptPostCopies N env w = (.returned sizes, w1) ∧ sizes.sum = N ∧
      w1.calls = w.calls := by
  rw [mturkPromptPostCopies_run]
  by_cases h9 : N ≤ 9
  · rw [if_pos h9]
    exact ⟨_, _, rfl, by simp, rfl⟩
  · simp only [h9, if_false]
    by_cases hc : env.confirm w "avoidExtraFee" = false
    · rw [if_pos hc]
      exact ⟨_, _, rfl, by simp, rfl⟩
    · simp only [hc, if_false]
      by_cases hr : N % 9 = 0
      · refine ⟨_, _, rfl, ?_, rfl⟩
        simp [hr]
        omega
      · refine ⟨_, _, rfl, ?_, rfl⟩
        simp [hr]
        omega

theorem batchRequests_sizes (baseToken : String) (input : CreateHITInput) :
    ∀ (sizes : List Nat) (i : Nat),
      (batchRequests baseToken input i sizes).map (fun r => r.MaxAssignments) = sizes := by
  intro sizes
  induction sizes with
  | nil => intro i; rfl
  | cons n rest ih =>
    intro i
    rw [batchRequests_cons, List.map_cons, ih]
    rfl

/-- The requests that the batch loop sends: those of the plan, in order, as far as the loop
gets, and all of them when it returns. -/
theorem batches_requests (expName previewURL baseToken : String) (env : Env) :
    ∀ (sizes : List Nat) (input : CreateHITInput) (i : Nat) (w : World),
      ∃ k, k ≤ sizes.length ∧
        (mturkPostStudy.batches expName previewURL baseToken input i sizes env w).2.calls =
          w.calls ++ ((batchRequests baseToken input i sizes).take k).map Command.createHIT ∧
        ((mturkPostStudy.batches expName previewURL baseToken input i sizes env w).1 =
          .returned () → k = sizes.length) := by
  intro sizes
  induction sizes with
  | nil =>
    intro input i w
    exact ⟨0, by simp, by simp [mturkPostStudy.batches, batchRequests], fun _ => rfl⟩
  | cons n rest ih =>
    intro input i w
    simp only [mturkPostStudy.batches, run_bind, say, batchRequests_cons]
    have hs := fun w0 => submit_sends expName previewURL
      (batchRequest baseToken input (i + 1) n) env w0
    have hb : ({ input with
        UniqueRequestToken := baseToken ++ ("_v" ++ padStart (jsStringOfNat (i + 1)) 3 "0")
        MaxAssignments := n } : CreateHITInput) = batchRequest baseToken input (i + 1) n := rfl
    rw [hb]
    split
    · rename_i r u w1 hr
      have h1 := congrArg (fun r => r.2.calls) hr
      simp only [hs] at h1
      obtain ⟨k, hk, hk2, hk3⟩ := ih (batchRequest baseToken input (i + 1) n) (i + 1) w1
      rw [batchRequests_batchRequest] at hk2
      refine ⟨k + 1, by simpa using hk, ?_, fun h => by simpa using hk3 h⟩
      rw [hk2, ← h1]
      simp
    · rename_i r msg w1 hr
      have h1 := congrArg (fun r => r.2.calls) hr
      simp only [hs] at h1
      refine ⟨1, by simp, ?_, fun h => by cases h⟩
      rw [← h1]
      simp
    · rename_i r code w1 hr
      have h1 := congrArg (fun r => r.2.calls) hr
      simp only [hs] at h1
      refine ⟨1, by simp, ?_, fun h => by cases h⟩
      rw [← h1]
      simp

/-- When the batch loop returns, the places it has submitted are those of the plan. -/
theorem batches_sizes (expName previewURL baseToken : String) (env : Env) (sizes : List Nat)
    (input : CreateHITInput) (i : Nat) (w w1 : World)
    (h : mturkPostStudy.batches expName previewURL baseToken input i sizes env w =
      (.returned (), w1)) :
    createHITSizes w1.calls = createHITSizes w.calls ++ sizes := by
  obtain ⟨k, _, hk2, hk3⟩ := batches_requests expName previewURL baseToken env sizes input i w
  rw [h] at hk2 hk3
  have hk : k = sizes.length := hk3 rfl
  simp only at hk2
  rw [hk2, createHITSizes_append, hk]
  congr 1
  have hlen : (batchRequests baseToken input i sizes).length = sizes.length :=
    batchRequests_length baseToken input i sizes
  rw [← hlen, List.take_length]
  rw [createHITSizes_map, batchRequests_sizes]

theorem preserves_sizes_of_calls {α : Type} (m : Run α) (h : Run.Preserves World.calls m) :
    Run.Preserves (fun w => createHITSizes w.calls) m :=
  fun env w => congrArg createHITSizes (h env w)

theorem promptConfirm_calls (name : String) : Run.Preserves World.calls (promptConfirm name) :=
  fun _ _ => rfl

theorem newDate_calls : Run.Preserves World.calls newDate := fun _ _ => rfl

theorem sendListQualificationTypes_sizes (req : ListQualificationTypesInput) :
    Run.Preserves (fun w => createHITSizes w.calls) (sendListQualificationTypes req) := by
  intro env w
  unfold sendListQualificationTypes
  cases env.listQualificationTypes w req <;>
    simp [ofExcept, createHITSizes_append, createHITSizes]

theorem sendCreateQualificationType_sizes (req : CreateQualificationTypeInput) :
    Run.Preserves (fun w => createHITSizes w.calls) (sendCreateQualificationType req) := by
  intro env w
  unfold sendCreateQualificationType
  cases env.createQualificationType w req <;>
    simp [ofExcept, createHITSizes_append, createHITSizes]

theorem sendAssociateQualificationWithWorker_sizes
    (req : AssociateQualificationWithWorkerInput) :
    Run.Preserves (fun w => createHITSizes w.calls)
      (sendAssociateQualificationWithWorker req) := by
  intro env w
  unfold sendAssociateQualificationWithWorker
  cases env.associateQualificationWithWorker w req <;>
    simp [ofExcept, createHITSizes_append, createHITSizes]

theorem assign_sizes (qid : QualificationRef) (workers : List String) :
    Run.Preserves (fun w => createHITSizes w.calls)
      (mturkPrepareQualifications.assign qid workers) := by
  intro env w
  rw [assign_exact]
  simp only [createHITSizes_append]
  have h : createHITSizes (workers.map (assignRequest qid)) = [] := by
    induction workers with
    | nil => rfl
    | cons wkr rest ih =>
      have h2 : createHITSizes (assignRequest qid wkr :: rest.map (assignRequest qid)) =
          createHITSizes (rest.map (assignRequest qid)) := rfl
      rw [List.map_cons, h2, ih]
  simp [h]

/-- Building the qualification requirements submits no HIT. -/
theorem mturkPrepareQualifications_sizes (expName : String) (config : StudyConfig)
    (options : Options) :
    Run.Preserves (fun w => createHITSizes w.calls)
      (mturkPrepareQualifications expName config options) := by
  unfold mturkPrepareQualifications mturkPrepareQualifications.compensation
    mturkPrepareQualifications.build mturkPrepareQualifications.studyConsent
    mturkGetQualificationByName mturkListQualifications
  repeat' first
    | exact preserves_pure _ _
    | exact preserves_jsThrow _ _
    | exact preserves_processExit _ _
    | exact preserves_sizes_of_calls _ (say_calls _)
    | exact preserves_sizes_of_calls _ (promptConfirm_calls _)
    | exact preserves_sizes_of_calls _ newDate_calls
    | exact sendListQualificationTypes_sizes _
    | exact sendCreateQualificationType_sizes _
    | exact assign_sizes _ _
    | refine preserves_bind _ _ _ ?_ (fun _ => ?_)
    | refine preserves_tryCatch _ _ _ ?_ (fun _ => ?_)
    | (dsimp only; split)

/-- The batch sizes submitted by a run of `mturkPostStudy` that returns sum to the number of
places of the configuration it leaves. -/
theorem mturkPostStudy_sizes (prepareHTML : Run String) (expName : String)
    (config config2 : StudyConfig) (endpoints : MturkEndpoints) (options : Options) (env : Env)
    (w w2 : World) (hprep : Run.Preserves World.calls prepareHTML)
    (hrun : mturkPostStudy prepareHTML expName config endpoints options env w =
      (.returned config2, w2)) :
    ∃ sizes : List Nat,
      createHITSizes w2.calls = createHITSizes w.calls ++ sizes ∧
      sizes.sum = config2.totalAvailablePlaces := by
  unfold mturkPostStudy at hrun
  obtain ⟨_, w3, h1, hrun⟩ := bind_returned hrun
  have e1 : createHITSizes w3.calls = createHITSizes w.calls := by
    have hp : Run.Preserves (fun w => createHITSizes w.calls)
        (if (!options.sandbox) = true then do
          let confirm ← promptConfirm "confirm"
          if (!confirm) = true then do
            say (.log "\nYour study has NOT been posted to MTurk.\n")
            processExit 1
          else pure ()
        else pure () : Run Unit) := by
      repeat' first
        | exact preserves_pure _ _
        | exact preserves_processExit _ _
        | exact preserves_sizes_of_calls _ (say_calls _)
        | exact preserves_sizes_of_calls _ (promptConfirm_calls _)
        | refine preserves_bind _ _ _ ?_ (fun _ => ?_)
        | split
    have := hp env w
    rw [h1] at this
    exact this
  obtain ⟨html, w4, h2, hrun⟩ := bind_returned hrun
  have e2 : createHITSizes w4.calls = createHITSizes w3.calls := by
    have := preserves_sizes_of_calls _ hprep env w3
    rw [h2] at this
    exact this
  obtain ⟨quals, w5, h3, hrun⟩ := bind_returned hrun
  have e3 : createHITSizes w5.calls = createHITSizes w4.calls := by
    have := mturkPrepareQualifications_sizes expName config options env w4
    rw [h3] at this
    exact this
  obtain ⟨config3, w6, h4, hrun⟩ := bind_returned hrun
  have e4 : w6 = w5 := by
    by_cases hc : options.compensation = true
    · simp only [hc, if_true] at h4
      cases hw : config.workersToCompensate with
      | none =>
        simp only [hw, jsThrow, Prod.mk.injEq] at h4
        exact absurd h4.1 (by simp)
      | some workers =>
        simp only [hw, run_pure, Prod.mk.injEq] at h4
        exact h4.2.symm
    · simp only [hc, Bool.false_eq_true, if_false, run_pure, Prod.mk.injEq] at h4
      exact h4.2.symm
  obtain ⟨date, w7, h5, hrun⟩ := bind_returned hrun
  have e5 : w7.calls = w6.calls := by
    have := newDate_calls env w6
    rw [h5] at this
    exact this
  obtain ⟨input, w8, h6, hrun⟩ := bind_returned hrun
  have e6 : w8 = w7 := by
    cases hm : mturkCreateHIT date expName html quals config3 with
    | error msg =>
      simp only [hm, jsThrow, Prod.mk.injEq] at h6
      exact absurd h6.1 (by simp)
    | ok input2 =>
      simp only [hm, run_pure, Prod.mk.injEq] at h6
      exact h6.2.symm
  obtain ⟨sizes, w9, h7, hrun⟩ := bind_returned hrun
  obtain ⟨sizes2, w10, k1, k2, k3⟩ := plan_sum config3.totalAvailablePlaces env w8
  rw [h7] at k1
  cases k1
  obtain ⟨u, w11, h8, hrun⟩ := bind_returned hrun
  cases hrun
  have e8 := batches_sizes _ _ _ env sizes input 0 w9 w2 h8
  exact ⟨sizes, by rw [e8, k3, e6, e5, e4, e3, e2, e1], k2⟩

/-- C26. For every `N`, every answer to the prompt and every world, the batch sizes that
`mturkPromptPostCopies N` returns sum to `N`; and when `mturkPostStudy` returns, with a
page builder that calls no marketplace operation, the `MaxAssignments` values of the
create-HIT requests it submitted sum to the `totalAvailablePlaces` of the configuration
object as the call leaves it. -/
theorem mturkPostStudy_places_total (prepareHTML : Run String) (expName : String)
    (config config2 : StudyConfig) (endpoints : MturkEndpoints) (options : Options) (env : Env)
    (w : World) (hprep : Run.Preserves World.calls prepareHTML)
    (hrun : (mturkPostStudy prepareHTML expName config endpoints options env w).1 =
      .returned config2) :
    (∀ (N : Nat) (env1 : Env) (w1 : World), ∃ sizes,
      (mturkPromptPostCopies N env1 w1).1 = .returned sizes ∧ sizes.sum = N) ∧
    ∃ sizes : List Nat,
      createHITSizes (mturkPostStudy prepareHTML expName config endpoints options env w).2.calls =
        createHITSizes w.calls ++ sizes ∧
      sizes.sum = config2.totalAvailablePlaces := by
  refine ⟨fun N env1 w1 => ?_, ?_⟩
  · obtain ⟨sizes, w3, h1, h2, _⟩ := plan_sum N env1 w1
    exact ⟨sizes, by rw [h1], h2⟩
  · exact mturkPostStudy_sizes prepareHTML expName config config2 endpoints options env w _
      hprep (Prod.ext hrun rfl)

/-- Witness of C26: the sample study of 23 places is submitted in batches of 9, 9 and 5. -/
theorem mturkPostStudy_places_total_witness :
    (Run.Preserves World.calls (pure "<html>" : Run String) ∧
      (mturkPostStudy (pure "<html>") "exp" sampleConfig mturkConfig { sandbox := true }
        (Env.answering true) {}).1 = .returned sampleConfig) ∧
    ((∀ (N : Nat) (env1 : Env) (w1 : World), ∃ sizes,
      (mturkPromptPostCopies N env1 w1).1 = .returned sizes ∧ sizes.sum = N) ∧
    ∃ sizes : List Nat,
      createHITSizes (mturkPostStudy (pure "<html>") "exp" sampleConfig mturkConfig
          { sandbox := true } (Env.answering true) {}).2.calls =
        createHITSizes ({} : World).calls ++ sizes ∧
      sizes.sum = sampleConfig.totalAvailablePlaces) ∧
    createHITSizes (mturkPostStudy (pure "<html>") "exp" sampleConfig mturkConfig
        { sandbox := true } (Env.answering true) {}).2.calls = [9, 9, 5] :=
  ⟨⟨preserves_pure _ _, by decide!⟩,
    mturkPostStudy_places_total (pure "<html>") "exp" sampleConfig sampleConfig mturkConfig
      { sandbox := true } (Env.answering true) {} (preserves_pure _ _) (by decide!),
    by decide!⟩

/-! ## The configuration object after posting -/

/-- The configuration object as `prolificCreateStudyObject` leaves it when it returns. -/
theorem prolificCreateStudyObject_config (sel : Run String) (expName studyURL : String)
    (config : StudyConfig) (existingStudy : Bool) (env : Env) (w : World)
    (studyObject : StudyObject) (config1 : StudyConfig)
    (hret : (prolificCreateStudyObject sel expName studyURL config existingStudy env w).1 =
      .returned (studyObject, config1)) :
    config1 = { config with description := some (prolificPrepareDescriptionHTML config) } := by
  unfold prolificCreateStudyObject at hret
  simp only [run_bind, run_pure] at hret
  by_cases hc : (!existingStudy &&
      !decide (config.prolific.project ≠ none ∧ config.prolific.project ≠ some "")) = true
  · rcases hs : sel env w with ⟨o, w1⟩
    cases o with
    | returned p =>
      simp only [hc, if_true, run_bind, hs, run_pure, Outcome.returned.injEq,
        Prod.mk.injEq] at hret
      exact hret.2.symm
    | threw msg =>
      simp only [hc, if_true, run_bind, hs] at hret
      cases hret
    | exited code =>
      simp only [hc, if_true, run_bind, hs] at hret
      cases hret
  · simp only [hc, if_false, run_pure, Bool.false_eq_true, Outcome.returned.injEq,
      Prod.mk.injEq] at hret
    exact hret.2.symm

/-- The configuration object as `mturkPostStudy` leaves it when it returns. -/
theorem mturkPostStudy_config (prepareHTML : Run String) (expName : String)
    (config config2 : StudyConfig) (endpoints : MturkEndpoints) (options : Options) (env : Env)
    (w w2 : World)
    (hrun : mturkPostStudy prepareHTML expName config endpoints options env w =
      (.returned config2, w2)) :
    config2 = if options.compensation then
        { config with totalAvailablePlaces := (config.workersToCompensate.getD []).length }
      else config := by
  unfold mturkPostStudy at hrun
  obtain ⟨_, w3, _, hrun⟩ := bind_returned hrun
  obtain ⟨html, w4, _, hrun⟩ := bind_returned hrun
  obtain ⟨quals, w5, _, hrun⟩ := bind_returned hrun
  obtain ⟨config3, w6, h4, hrun⟩ := bind_returned hrun
  obtain ⟨date, w7, _, hrun⟩ := bind_returned hrun
  obtain ⟨input, w8, _, hrun⟩ := bind_returned hrun
  obtain ⟨sizes, w9, _, hrun⟩ := bind_returned hrun
  obtain ⟨u, w11, _, hrun⟩ := bind_returned hrun
  simp only [run_pure, Prod.mk.injEq, Outcome.returned.injEq] at hrun
  rw [← hrun.1]
  by_cases hc : options.compensation = true
  · simp only [hc, if_true] at h4 ⊢
    cases hw : config.workersToCompensate with
    | none =>
      simp only [hw, jsThrow, Prod.mk.injEq] at h4
      exact absurd h4.1 (by simp)
    | some workers =>
      simp only [hw, run_pure, Prod.mk.injEq, Outcome.returned.injEq] at h4
      rw [← h4.1]
      rfl
  · simp only [hc, Bool.false_eq_true, if_false, run_pure, Prod.mk.injEq,
      Outcome.returned.injEq] at h4 ⊢
    exact h4.1.symm

theorem outcome_toOption_eq_some {α : Type} (o : Outcome α) (a : α)
    (h : o.toOption = some a) : o = .returned a := by
  cases o with
  | returned b =>
    simp only [Outcome.toOption, Option.some.injEq] at h
    rw [h]
  | threw msg => cases h
  | exited code => cases h

/-- C24. Whenever `prolificCreateStudyObject` returns, the configuration object is as it was
passed except for `description`, which holds the HTML built by
`prolificPrepareDescriptionHTML`. Whenever `mturkPostStudy` returns, the configuration
object is as it was passed outside compensation mode, and in compensation mode as it was
passed except for `totalAvailablePlaces`, which holds the number of workers to compensate.
Each half holds for every configuration and every outside world, independently of the
other. -/
theorem config_after_posting (sel prepareHTML : Run String) (expName studyURL : String)
    (config : StudyConfig) (existingStudy : Bool) (endpoints : MturkEndpoints)
    (options : Options) (env : Env) (w : World) :
    (∀ config1 : StudyConfig,
      (prolificCreateStudyObject sel expName studyURL config existingStudy env
        w).1.toOption.map (fun r => r.2) = some config1 →
      config1 = { config with description := some (prolificPrepareDescriptionHTML config) }) ∧
    (∀ config2 : StudyConfig,
      (mturkPostStudy prepareHTML expName config endpoints options env w).1.toOption =
        some config2 →
      config2 = (if options.compensation then
          { config with totalAvailablePlaces := (config.workersToCompensate.getD []).length }
        else config)) := by
  constructor
  · intro config1 hprolific
    rcases hr : (prolificCreateStudyObject sel expName studyURL config existingStudy env
        w).1.toOption with _ | ⟨obj, c⟩
    · rw [hr] at hprolific
      cases hprolific
    · rw [hr] at hprolific
      simp only [Option.map_some', Option.some.injEq] at hprolific
      subst hprolific
      exact prolificCreateStudyObject_config sel expName studyURL config existingStudy env w
        obj c (outcome_toOption_eq_some _ _ hr)
  · intro config2 hmturk
    exact mturkPostStudy_config prepareHTML expName config config2 endpoints options env w
      (mturkPostStudy prepareHTML expName config endpoints options env w).2
      (Prod.ext (outcome_toOption_eq_some _ _ hmturk) rfl)

/-- Witness of C24: the study with a summary, described on Prolific, and the compensation
study, posted on MTurk in compensation mode; both calls return. -/
theorem config_after_posting_witness :
    ((prolificCreateStudyObject (pure "P1") "exp" "https://exp.web.app" describedConfig
          false (Env.answering true) {}).1.toOption.map (fun r => r.2) =
        some { describedConfig with description := some "<h2>Summary</h2><p>A study.</p>" } ∧
      (mturkPostStudy (pure "<html>") "exp" compensationConfig mturkConfig
          { sandbox := true, compensation := true } (Env.answering true) {}).1.toOption =
        some { compensationConfig with totalAvailablePlaces := 3 }) ∧
    ({ describedConfig with description := some "<h2>Summary</h2><p>A study.</p>" } :
        StudyConfig) =
      { describedConfig with
        description := some (prolificPrepareDescriptionHTML describedConfig) } ∧
    ({ compensationConfig with totalAvailablePlaces := 3 } : StudyConfig) =
      (if ({ sandbox := true, compensation := true } : Options).compensation then
        { compensationConfig with
          totalAvailablePlaces := (compensationConfig.workersToCompensate.getD []).length }
      else compensationConfig) :=
  ⟨⟨by decide!, by decide!⟩,
    (config_after_posting (pure "P1") (pure "<html>") "exp" "https://exp.web.app"
      describedConfig false mturkConfig {} (Env.answering true) {}).1 _ (by decide!),
    (config_after_posting (pure "P1") (pure "<html>") "exp" "https://exp.web.app"
      compensationConfig false mturkConfig { sandbox := true, compensation := true }
      (Env.answering true) {}).2 _ (by decide!)⟩

/-- Counterexample to C24 as worded: `prolificCreateStudyObject` leaves a description in a
configuration that had none, and `mturkPostStudy` in compensation mode leaves 3 places in
a configuration that had 23. -/
theorem config_changed_by_posting :
    (prolificCreateStudyObject (pure "P1") "exp" "https://exp.web.app" describedConfig false
        (Env.answering true) {}).1.toOption.map (fun r => r.2.description) =
      some (some "<h2>Summary</h2><p>A study.</p>") ∧
    describedConfig.description = none ∧
    (mturkPostStudy (pure "<html>") "exp" compensationConfig mturkConfig
        { sandbox := true, compensation := true } (Env.answering true) {}).1.toOption.map
        (fun c => c.totalAvailablePlaces) = some 3 ∧
    compensationConfig.totalAvailablePlaces = 23 := by
  refine ⟨by decide!, rfl, by decide!, rfl⟩

/-! ## The variables of the task page -/

theorem findMarkedLine_line (m : List Char) :
    ∀ l : List Char, (∀ c ∈ l, jsLineTerminator c = false) →
      ∀ before line rest : List Char,
        findMarkedLine m before line (l ++ rest) = findMarkedLine m before (line ++ l) rest := by
  intro l
  induction l with
  | nil => intro _ before line rest; simp
  | cons c l ih =>
    intro h before line rest
    have hc : jsLineTerminator c = false := h c (List.mem_cons_self _ _)
    rw [List.cons_append, findMarkedLine]
    simp only [hc, Bool.false_eq_true, if_false]
    rw [ih (fun d hd => h d (List.mem_cons_of_mem _ hd))]
    simp

theorem jsJoin_cons_cons (x y : String) (rest : List String) :
    (jsJoin "\n" (x :: y :: rest)).data = x.data ++ '\n' :: (jsJoin "\n" (y :: rest)).data := by
  simp only [jsJoin, String.data_append]
  simp

theorem singleLine_iff (s : String) :
    singleLine s = true ↔ ∀ c ∈ s.data, jsLineTerminator c = false := by
  simp [singleLine]

theorem findMarkedLine_join (m : String) :
    ∀ (ls : List String) (i : Nat) (before : List Char),
      (∀ l ∈ ls, singleLine l = true) → markedAt m ls i →
      ∃ pre post, findMarkedLine m.data before [] (jsJoin "\n" ls).data =
          some (before ++ pre, (ls.getD i "").data, post) ∧
        ∀ t : String, pre ++ t.data ++ post = (jsJoin "\n" (ls.set i t)).data := by
  intro ls
  induction ls with
  | nil =>
    intro i before _ hm
    exact absurd hm.1 (by simp)
  | cons x rest ih =>
    intro i before hl hm
    have hx : ∀ c ∈ x.data, jsLineTerminator c = false :=
      (singleLine_iff x).1 (hl x (List.mem_cons_self _ _))
    cases rest with
    | nil =>
      have hi : i = 0 := by
        have := hm.1
        simp at this
        omega
      subst hi
      have h1 : m.data <:+: x.data := by simpa [jsIncludes] using hm.2.1
      refine ⟨[], [], ?_, fun t => by simp [jsJoin]⟩
      have h2 := findMarkedLine_line m.data x.data hx before [] []
      simp only [List.append_nil, List.nil_append] at h2
      simp only [jsJoin, h2, findMarkedLine, h1, if_true, List.append_nil]
      rfl
    | cons y rest2 =>
      have h2 := findMarkedLine_line m.data x.data hx before []
        ('\n' :: (jsJoin "\n" (y :: rest2)).data)
      simp only [List.nil_append] at h2
      have ht : jsLineTerminator '\n' = true := by decide
      rw [jsJoin_cons_cons, h2, findMarkedLine]
      simp only [ht, if_true]
      cases i with
      | zero =>
        have h1 : m.data <:+: x.data := by simpa [jsIncludes] using hm.2.1
        refine ⟨[], '\n' :: (jsJoin "\n" (y :: rest2)).data, ?_, fun t => ?_⟩
        · simp only [h1, if_true, List.append_nil]
          rfl
        · simp [jsJoin_cons_cons]
      | succ k =>
        have h1 : ¬ m.data <:+: x.data := by
          have := hm.2.2 0 (by omega)
          simpa [jsIncludes] using this
        have hm2 : markedAt m (y :: rest2) k := by
          refine ⟨?_, ?_, ?_⟩
          · have := hm.1
            simp only [List.length_cons] at this ⊢
            omega
          · simpa using hm.2.1
          · intro j hj
            have := hm.2.2 (j + 1) (by omega)
            simpa using this
        obtain ⟨pre, post, e1, e2⟩ := ih k (before ++ x.data ++ ['\n'])
          (fun l hlm => hl l (List.mem_cons_of_mem _ hlm)) hm2
        refine ⟨x.data ++ ['\n'] ++ pre, post, ?_, fun t => ?_⟩
        · simp only [h1, if_false, e1]
          simp
        · have e3 := e2 t
          cases k with
          | zero =>
            simp only [List.set_cons_succ, List.set_cons_zero] at e3 ⊢
            rw [jsJoin_cons_cons, ← e3]
            simp
          | succ k2 =>
            simp only [List.set_cons_succ] at e3 ⊢
            rw [jsJoin_cons_cons, ← e3]
            simp

theorem jsExpandReplacement_plain (before matched after : List Char) :
    ∀ s : List Char, (∀ c ∈ s, c ≠ '$') →
      jsExpandReplacement before matched after s = s := by
  intro s
  induction s with
  | nil => intro _; rfl
  | cons c tail ih =>
    intro h
    have hc : c ≠ '$' := h c (List.mem_cons_self _ _)
    have ht := ih fun d hd => h d (List.mem_cons_of_mem _ hd)
    cases tail with
    | nil => rfl
    | cons d rest =>
      rw [jsExpandReplacement]
      simp only [hc, if_false, ht]

theorem dollarFree_iff (s : String) : dollarFree s = true ↔ ∀ c ∈ s.data, c ≠ '$' := by
  simp [dollarFree]

/-- Replacing the first marked line of a text given by its lines. -/
theorem replaceMarkedLine_join (m t : String) (ls : List String) (i : Nat)
    (hl : ∀ l ∈ ls, singleLine l = true) (hm : markedAt m ls i) (ht : dollarFree t = true) :
    replaceMarkedLine m t (jsJoin "\n" ls) = jsJoin "\n" (ls.set i t) := by
  obtain ⟨pre, post, e1, e2⟩ := findMarkedLine_join m ls i [] hl hm
  unfold replaceMarkedLine
  rw [e1]
  simp only [List.nil_append, jsExpandReplacement_plain _ _ _ _ ((dollarFree_iff t).1 ht)]
  apply String.ext
  exact e2 t

theorem findMarkedLine_sound (m : List Char) :
    ∀ (rest before line b l a : List Char),
      findMarkedLine m before line rest = some (b, l, a) →
      m <:+: l ∧ b ++ l ++ a = before ++ line ++ rest := by
  intro rest
  induction rest with
  | nil =>
    intro before line b l a h
    rw [findMarkedLine] at h
    split at h
    · rename_i hm
      simp only [Option.some.injEq, Prod.mk.injEq] at h
      obtain ⟨rfl, rfl, rfl⟩ := h
      exact ⟨hm, rfl⟩
    · cases h
  | cons c rest ih =>
    intro before line b l a h
    rw [findMarkedLine] at h
    split at h
    · split at h
      · rename_i hm
        simp only [Option.some.injEq, Prod.mk.injEq] at h
        obtain ⟨rfl, rfl, rfl⟩ := h
        exact ⟨hm, rfl⟩
      · obtain ⟨h1, h2⟩ := ih _ _ _ _ _ h
        exact ⟨h1, by simpa using h2⟩
    · obtain ⟨h1, h2⟩ := ih _ _ _ _ _ h
      exact ⟨h1, by simpa using h2⟩

/-- A text that does not hold the marker is left as it is. -/
theorem replaceMarkedLine_absent (m t text : String) (h : jsIncludes text m = false) :
    replaceMarkedLine m t text = text := by
  unfold replaceMarkedLine
  cases hf : findMarkedLine m.data [] [] text.data with
  | none => rfl
  | some r =>
    obtain ⟨b, l, a⟩ := r
    obtain ⟨h1, h2⟩ := findMarkedLine_sound m.data _ _ _ _ _ _ hf
    exfalso
    have h3 : m.data <:+: text.data := by
      simp only [List.nil_append] at h2
      rw [← h2]
      obtain ⟨p, q, hpq⟩ := h1
      exact ⟨b ++ p, q ++ a, by simp [← hpq]⟩
    simp [jsIncludes, h3] at h

theorem markedAt_set (m t : String) (ls : List String) (i j : Nat) (hm : markedAt m ls j)
    (hij : i ≠ j) (ht : jsIncludes t m = false) : markedAt m (ls.set i t) j := by
  obtain ⟨h1, h2, h3⟩ := hm
  refine ⟨by simpa using h1, ?_, ?_⟩
  · simpa [List.getElem?_set_ne hij] using h2
  · intro k hk
    by_cases hik : i = k
    · subst hik
      by_cases hlt : i < ls.length
      · simpa [List.getElem?_set_self hlt] using ht
      · have hnone : ls[i]? = none := List.getElem?_eq_none (Nat.le_of_not_lt hlt)
        have := h3 i hk
        simpa [List.getElem?_set_self', hnone] using this
    · have := h3 k hk
      simpa [List.getElem?_set_ne hik] using this

theorem singleLine_set (t : String) (ls : List String) (i : Nat)
    (hl : ∀ l ∈ ls, singleLine l = true) (ht : singleLine t = true) :
    ∀ l ∈ ls.set i t, singleLine l = true := by
  intro l hmem
  rcases List.mem_or_eq_of_mem_set hmem with h | h
  · exact hl l h
  · rw [h]; exact ht

theorem wrap_files (tools : PageTools) (html : String) (files : LayoutFiles) :
    (mturkPrepareHTML.wrap tools html files).files = files := by
  unfold mturkPrepareHTML.wrap
  split <;> rfl

theorem wrap_outcome (tools : PageTools) (html : String) (files : LayoutFiles) :
    (mturkPrepareHTML.wrap tools html files).outcome =
      match tools.minify html with
      | .error msg => .threw msg
      | .ok minified => .returned (beginXmlTags ++ minified ++ endXmlTags) := by
  unfold mturkPrepareHTML.wrap
  cases tools.minify html <;> rfl

/-- The templated path on a readable layout file: the file is left holding the text after
the three replacements, and the call ends as the later steps end. -/
theorem mturkPrepareHTML_templated (tools : PageTools) (expName studyURL : String)
    (config : StudyConfig) (firebaseConfig : FirebaseConfig) (options : Options)
    (files : LayoutFiles) (text : String) (hopt : options.compensation = false)
    (hfile : files.layout = .ok text) :
    (mturkPrepareHTML tools expName studyURL config firebaseConfig options files).files.layout =
        .ok (replaceMarkedLine "databaseURL = " (databaseURLLine tools firebaseConfig)
          (replaceMarkedLine "taskURL = " (taskURLLine tools studyURL)
            (replaceMarkedLine "expName = " (expNameLine tools expName) text))) ∧
      (mturkPrepareHTML tools expName studyURL config firebaseConfig options files).outcome =
        match mturkPrepareHTML.modifyDOM tools
          (replaceMarkedLine "databaseURL = " (databaseURLLine tools firebaseConfig)
            (replaceMarkedLine "taskURL = " (taskURLLine tools studyURL)
              (replaceMarkedLine "expName = " (expNameLine tools expName) text))) config with
        | .error msg => .threw msg
        | .ok edits =>
          match tools.minify (tools.serialize
            (replaceMarkedLine "databaseURL = " (databaseURLLine tools firebaseConfig)
              (replaceMarkedLine "taskURL = " (taskURLLine tools studyURL)
                (replaceMarkedLine "expName = " (expNameLine tools expName) text))) edits) with
          | .error msg => .threw msg
          | .ok minified => .returned (beginXmlTags ++ minified ++ endXmlTags) := by
  unfold mturkPrepareHTML
  simp only [hopt, Bool.false_eq_true, if_false, hfile]
  rw [show ("        const expName = '" ++ expName ++ "'; " ++ ("// " ++ tools.dateText)) =
      expNameLine tools expName from rfl,
    show ("        const taskURL = '" ++ studyURL ++ "'; " ++ ("// " ++ tools.dateText)) =
      taskURLLine tools studyURL from rfl,
    show ("        const databaseURL = '" ++ jsTemplate firebaseConfig.databaseURL ++ "'; " ++
      ("// " ++ tools.dateText)) = databaseURLLine tools firebaseConfig from rfl]
  cases hd : mturkPrepareHTML.modifyDOM tools
      (replaceMarkedLine "databaseURL = " (databaseURLLine tools firebaseConfig)
        (replaceMarkedLine "taskURL = " (taskURLLine tools studyURL)
          (replaceMarkedLine "expName = " (expNameLine tools expName) text))) config with
  | error msg => exact ⟨rfl, rfl⟩
  | ok edits =>
    simp only [wrap_files, wrap_outcome]
    exact ⟨trivial, trivial⟩

theorem plainLine_iff (s : String) :
    plainLine s = true ↔ singleLine s = true ∧ dollarFree s = true := by
  simp [plainLine]

/-- C25. In the templated path of `mturkPrepareHTML`: the process ends with exit code 1
exactly when the layout file cannot be read, and with no other code. On a layout file
that is read: when the document of the file as rewritten has the four elements looked up
and the minifier succeeds, a payload is returned whatever markers the file holds; a file without any of the three
markers is left as it is; and when the file is made of lines of which line `i` is the
first to hold `expName = `, line `j` the first to hold `taskURL = ` and line `k` the first
to hold `databaseURL = `, with `i`, `j`, `k` different, and the three assignment lines
written hold no line terminator, no `$` and no marker of a later step, the file is left
with line `i` replaced by the assignment of the experiment name, line `j` by that of the
study URL and line `k` by that of the database URL. -/
theorem mturkPrepareHTML_markers (tools : PageTools) (expName studyURL : String)
    (config : StudyConfig) (firebaseConfig : FirebaseConfig) (options : Options)
    (files : LayoutFiles) (hopt : options.compensation = false) :
    (∀ code, (mturkPrepareHTML tools expName studyURL config firebaseConfig options
        files).outcome = .exited code ↔ code = 1 ∧ ∃ msg, files.layout = .error msg) ∧
    ∀ text, files.layout = .ok text →
      (∀ text2, (mturkPrepareHTML tools expName studyURL config firebaseConfig options
          files).files.layout = .ok text2 →
        (∀ edits, ∀ id ∈ lookedUpIds, tools.hasElement text2 edits id = true) →
        (∀ html, ∃ minified, tools.minify html = .ok minified) →
        ∃ payload, (mturkPrepareHTML tools expName studyURL config firebaseConfig options
          files).outcome = .returned payload) ∧
      (jsIncludes text "expName = " = false → jsIncludes text "taskURL = " = false →
        jsIncludes text "databaseURL = " = false →
        (mturkPrepareHTML tools expName studyURL config firebaseConfig options
          files).files.layout = .ok text) ∧
      ∀ (ls : List String) (i j k : Nat), text = jsJoin "\n" ls →
        (∀ l ∈ ls, singleLine l = true) →
        markedAt "expName = " ls i → markedAt "taskURL = " ls j →
        markedAt "databaseURL = " ls k → i ≠ j → i ≠ k → j ≠ k →
        plainLine (expNameLine tools expName) = true →
        plainLine (taskURLLine tools studyURL) = true →
        plainLine (databaseURLLine tools firebaseConfig) = true →
        jsIncludes (expNameLine tools expName) "taskURL = " = false →
        jsIncludes (expNameLine tools expName) "databaseURL = " = false →
        jsIncludes (taskURLLine tools studyURL) "databaseURL = " = false →
        (mturkPrepareHTML tools expName studyURL config firebaseConfig options
          files).files.layout =
          .ok (jsJoin "\n" (((ls.set i (expNameLine tools expName)).set j
            (taskURLLine tools studyURL)).set k (databaseURLLine tools firebaseConfig))) := by
  constructor
  · intro code
    cases hl : files.layout with
    | error msg =>
      unfold mturkPrepareHTML
      simp only [hopt, Bool.false_eq_true, if_false, hl]
      constructor
      · intro h
        simp only [Outcome.exited.injEq] at h
        exact ⟨h.symm, msg, rfl⟩
      · rintro ⟨rfl, _⟩
        rfl
    | ok text =>
      obtain ⟨_, h2⟩ := mturkPrepareHTML_templated tools expName studyURL config
        firebaseConfig options files text hopt hl
      rw [h2]
      constructor
      · intro h
        exfalso
        split at h
        · cases h
        · split at h <;> cases h
      · rintro ⟨_, msg, hmsg⟩
        cases hmsg
  · intro text hl
    obtain ⟨h1, h2⟩ := mturkPrepareHTML_templated tools expName studyURL config
      firebaseConfig options files text hopt hl
    refine ⟨?_, ?_, ?_⟩
    · intro text2 htext2 hfound hmin
      rw [h1] at htext2
      simp only [Except.ok.injEq] at htext2
      subst htext2
      rw [h2, modifyDOM_found tools _ config hfound]
      dsimp only
      obtain ⟨minified, hm⟩ := hmin (tools.serialize
        (replaceMarkedLine "databaseURL = " (databaseURLLine tools firebaseConfig)
          (replaceMarkedLine "taskURL = " (taskURLLine tools studyURL)
            (replaceMarkedLine "expName = " (expNameLine tools expName) text)))
        ([.setTextContent "title-text" config.title] ++
          sectionEdits "requirements" "ul" config.requirementsList config.requirementsPara ++
          sectionEdits "summary" "" none config.summaryPara ++
          sectionEdits "instructions" "ol" config.instructionsList config.instructionsPara ++
          sectionRemoval "requirements" config.requirementsList config.requirementsPara ++
          sectionRemoval "summary" none config.summaryPara ++
          sectionRemoval "instructions" config.instructionsList config.instructionsPara))
      rw [hm]
      exact ⟨_, rfl⟩
    · intro a b c
      rw [h1, replaceMarkedLine_absent _ _ text a, replaceMarkedLine_absent _ _ text b,
        replaceMarkedLine_absent _ _ text c]
    · intro ls i j k htext hsingle mi mj mk hij hik hjk p1 p2 p3 c1 c2 c3
      obtain ⟨s1, d1⟩ := (plainLine_iff _).1 p1
      obtain ⟨s2, d2⟩ := (plainLine_iff _).1 p2
      obtain ⟨_, d3⟩ := (plainLine_iff _).1 p3
      have hs1 := singleLine_set (expNameLine tools expName) ls i hsingle s1
      have hs2 := singleLine_set (taskURLLine tools studyURL) _ j hs1 s2
      have mj1 := markedAt_set "taskURL = " (expNameLine tools expName) ls i j mj hij c1
      have mk1 := markedAt_set "databaseURL = " (expNameLine tools expName) ls i k mk hik c2
      have mk2 := markedAt_set "databaseURL = " (taskURLLine tools studyURL) _ j k mk1 hjk c3
      rw [h1, htext, replaceMarkedLine_join _ _ ls i hsingle mi d1,
        replaceMarkedLine_join _ _ _ j hs1 mj1 d2, replaceMarkedLine_join _ _ _ k hs2 mk2 d3]

/-- Witness of C25: the sample layout, whose lines 4, 5 and 6 hold the markers; the last
conjunct is the text of the file as rewritten. -/
theorem mturkPrepareHTML_markers_witness :
    ({} : Options).compensation = false ∧
    (mturkPrepareHTML plainTools "exp" "https://exp.web.app" sampleConfig {} {}
        sampleFiles).files.layout =
      .ok (jsJoin "\n" (((sampleLines.set 4 (expNameLine plainTools "exp")).set 5
        (taskURLLine plainTools "https://exp.web.app")).set 6
        (databaseURLLine plainTools {}))) ∧
    jsJoin "\n" (((sampleLines.set 4 (expNameLine plainTools "exp")).set 5
        (taskURLLine plainTools "https://exp.web.app")).set 6
        (databaseURLLine plainTools {})) =
      "<!DOCTYPE html>\n<html>\n<head>\n<script>\n" ++
        "        const expName = 'exp'; // Mon Jan 01 2024 12:00:05 GMT+0000\n" ++
        "        const taskURL = 'https://exp.web.app'; // Mon Jan 01 2024 12:00:05 GMT+0000\n" ++
        "        const databaseURL = 'undefined'; // Mon Jan 01 2024 12:00:05 GMT+0000\n" ++
        "</script>\n</head>\n<body>\n<h1 id=\"title-text\"></h1>\n" ++
        "<div id=\"requirements\"></div>\n<div id=\"summary\"></div>\n" ++
        "<div id=\"instructions\"></div>\n</body>\n</html>" :=
  ⟨rfl,
    ((mturkPrepareHTML_markers plainTools "exp" "https://exp.web.app" sampleConfig {} {}
      sampleFiles rfl).2 _ rfl).2.2 sampleLines 4 5 6 rfl (by decide!) (by decide!)
      (by decide!) (by decide!) (by decide) (by decide) (by decide) (by decide!) (by decide!)
      (by decide!) (by decide!) (by decide!) (by decide!),
    by decide!⟩

/-- Counterexample to C25 as worded: the layout has the four elements looked up and holds
none of the three markers, and `mturkPrepareHTML` returns a payload, leaving the file as it
was. -/
theorem mturkPrepareHTML_without_markers :
    jsIncludes unmarkedLayout "expName = " = false ∧
    jsIncludes unmarkedLayout "taskURL = " = false ∧
    jsIncludes unmarkedLayout "databaseURL = " = false ∧
    (∀ id ∈ lookedUpIds, plainTools.hasElement unmarkedLayout [] id = true) ∧
    (mturkPrepareHTML plainTools "exp" "https://exp.web.app" sampleConfig {} {}
        unmarkedFiles).files.layout.toOption = some unmarkedLayout ∧
    ∃ payload, (mturkPrepareHTML plainTools "exp" "https://exp.web.app" sampleConfig {} {}
        unmarkedFiles).outcome = .returned payload :=
  ⟨by decide!, by decide!, by decide!, by decide!, by decide!,
    beginXmlTags ++ (unmarkedLayout ++ "<!-- 4 -->") ++ endXmlTags, by decide!⟩

/-! ## The label of the base token -/

theorem zeroPadded_two_data (x : Nat) (h : x < 100) :
    (zeroPadded 2 x).data = [Nat.digitChar (x / 10), Nat.digitChar (x % 10)] := by
  unfold zeroPadded
  by_cases h10 : x < 10
  · have h0 : x / 10 = 0 := by omega
    have h1 : x % 10 = x := by omega
    simp [Nat.repr, toDigits_of_lt x h10, h0, h1]
    exact ⟨rfl, rfl⟩
  · have h2 : x / 10 < 10 := by omega
    simp [Nat.repr, toDigits_of_ge x (by omega), toDigits_of_lt (x / 10) h2]
    rfl

theorem zeroPadded_four_data (y : Nat) (h1 : 1000 ≤ y) (h2 : y ≤ 9999) :
    (zeroPadded 4 y).data = [Nat.digitChar (y / 1000), Nat.digitChar (y / 100 % 10),
      Nat.digitChar (y / 10 % 10), Nat.digitChar (y % 10)] := by
  have h := fourDigits_data y h1 h2
  have hr : (Nat.repr y).data = (jsStringOfNat y).data := rfl
  have hl : (Nat.repr y).length = 4 := by
    rw [String.length, hr, h]
    rfl
  unfold zeroPadded
  simp [hl, hr, h]

theorem batchLabel_eq_minuteLabel (d : JsDate) (hd : d.InRange) :
    jsSlice (dateStringYMDHMS d) 0 (some 13) = minuteLabel d := by
  apply String.ext
  rw [batchLabel_data d hd]
  obtain ⟨hy1, hy2, hm, _, hdt, hh, hmi, hs⟩ := hd
  have hu : ("_" : String).data = ['_'] := rfl
  unfold minuteLabel
  simp only [String.data_append, zeroPadded_four_data d.fullYear hy1 hy2,
    zeroPadded_two_data (d.month + 1) (by omega), zeroPadded_two_data d.date (by omega),
    zeroPadded_two_data d.hours (by omega), zeroPadded_two_data d.minutes (by omega), hu]
  rfl

theorem minuteLabel_length (d : JsDate) (hd : d.InRange) : (minuteLabel d).length = 13 := by
  rw [← batchLabel_eq_minuteLabel d hd, String.length, batchLabel_data d hd]
  rfl

theorem toOption_eq_some {α : Type} (e : Except String α) (a : α)
    (h : e.toOption = some a) : e = .ok a := by
  cases e with
  | error msg => cases h
  | ok b =>
    simp only [Except.toOption, Option.some.injEq] at h
    rw [h]

/-- C27. For a clock reading with a four-digit year, the base token built by `mturkCreateHIT`
is the experiment name, an underscore and the label `minuteLabel d`: year, month, day, an
underscore, hour and minute, the year on four digits and the others zero-padded to two,
13 characters in all; and two invocations for the same experiment at clock readings of
the same minute build the same base token. -/
theorem mturkCreateHIT_base_token (d : JsDate) (expName q : String)
    (r : List QualificationRequirement) (c : StudyConfig) (input : CreateHITInput)
    (hd : d.InRange) (h : (mturkCreateHIT d expName q r c).toOption = some input) :
    input.UniqueRequestToken = expName ++ "_" ++ minuteLabel d ∧
    (minuteLabel d).length = 13 ∧
    (∀ y, 1000 ≤ y → y ≤ 9999 → (zeroPadded 4 y).length = 4) ∧
    (∀ x < 100, (zeroPadded 2 x).length = 2) ∧
    ∀ (d2 : JsDate) (q2 : String) (r2 : List QualificationRequirement) (c2 : StudyConfig)
      (input2 : CreateHITInput), d2.InRange → d.SameMinute d2 →
      (mturkCreateHIT d2 expName q2 r2 c2).toOption = some input2 →
      input2.UniqueRequestToken = input.UniqueRequestToken := by
  have h1 := mturkCreateHIT_token d expName q r c input (toOption_eq_some _ _ h)
  rw [batchLabel_eq_minuteLabel d hd] at h1
  refine ⟨h1, minuteLabel_length d hd, ?_, ?_, ?_⟩
  · intro y h1 h2
    rw [String.length, zeroPadded_four_data _ h1 h2]
    rfl
  · intro x hx
    rw [String.length, zeroPadded_two_data _ hx]
    rfl
  · intro d2 q2 r2 c2 input2 hd2 hsame h2
    have h3 := mturkCreateHIT_token d2 expName q2 r2 c2 input2 (toOption_eq_some _ _ h2)
    rw [batchLabel_eq_minuteLabel d2 hd2] at h3
    rw [h1, h3]
    obtain ⟨e1, e2, e3, e4, e5⟩ := hsame
    unfold minuteLabel
    rw [e1, e2, e3, e4, e5]

/-- Witness of C27: at 12:00:05 and at 12:00:45 on 2024-01-01 the base token of `exp` is
`exp_20240101_1200`. -/
theorem mturkCreateHIT_base_token_witness :
    ((⟨2024, 0, 1, 12, 0, 5⟩ : JsDate).InRange ∧
      (mturkCreateHIT ⟨2024, 0, 1, 12, 0, 5⟩ "exp" "<html>" [] sampleConfig).toOption =
        some sampleRequest) ∧
    sampleRequest.UniqueRequestToken = "exp" ++ "_" ++ minuteLabel ⟨2024, 0, 1, 12, 0, 5⟩ ∧
    minuteLabel ⟨2024, 0, 1, 12, 0, 5⟩ = "20240101_1200" ∧
    (mturkCreateHIT ⟨2024, 0, 1, 12, 0, 45⟩ "exp" "<html>" [] sampleConfig).toOption.map
        (fun x => x.UniqueRequestToken) = some "exp_20240101_1200" :=
  ⟨⟨by decide, by decide!⟩,
    (mturkCreateHIT_base_token ⟨2024, 0, 1, 12, 0, 5⟩ "exp" "<html>" [] sampleConfig
      sampleRequest (by decide) (by decide!)).1,
    by decide!, by decide!⟩

/-! ## The sections of the description -/

theorem jsIncludes_mid (d h x : String) : jsIncludes (d ++ h ++ x) h = true := by
  simp only [jsIncludes, decide_eq_true_eq, String.data_append]
  exact ⟨d.data, x.data, by simp⟩

theorem jsIncludes_head (h x : String) : jsIncludes (h ++ x) h = true := by
  simp only [jsIncludes, decide_eq_true_eq, String.data_append]
  exact ⟨[], x.data, by simp⟩

theorem jsIncludes_append_left (a s h : String) (hs : jsIncludes s h = true) :
    jsIncludes (a ++ s) h = true := by
  simp only [jsIncludes, decide_eq_true_eq, String.data_append] at hs ⊢
  obtain ⟨p, q, hpq⟩ := hs
  exact ⟨a.data ++ p, q, by simp [← hpq]⟩

theorem string_join_nil : String.join [] = "" := rfl

theorem string_append_empty (s : String) : s ++ "" = s := by
  apply String.ext
  simp

theorem string_empty_append (s : String) : "" ++ s = s := by
  apply String.ext
  simp

theorem string_append_assoc (a b c : String) : a ++ b ++ c = a ++ (b ++ c) := by
  apply String.ext
  simp

set_option maxHeartbeats 4000000 in
/-- What the code builds, in the words of the specification. -/
theorem prolificPrepareDescriptionHTML_eq (config : StudyConfig) :
    prolificPrepareDescriptionHTML config =
      if config.instructionsList.getD [] = [] ∧ config.instructionsPara.getD [] ≠ [] ∧
          jsIncludes (describedLead config) "<h2>Instructions</h2>" = true then
        describedLead config ++
          String.join ((config.instructionsPara.getD []).map fun x => "<p>" ++ x ++ "</p>")
      else describedHTML config := by
  obtain ⟨title, description, rl, rp, sp, il, ip, places, workers, mturk, prolific⟩ := config
  have e0 : jsIncludes "" "<h2>Requirements</h2>" = false := by decide
  rcases rl with _ | _ | ⟨a1, l1⟩ <;> rcases rp with _ | _ | ⟨a2, l2⟩ <;>
    rcases sp with _ | _ | ⟨a3, l3⟩ <;> rcases il with _ | _ | ⟨a4, l4⟩ <;>
    rcases ip with _ | _ | ⟨a5, l5⟩ <;>
    simp only [prolificPrepareDescriptionHTML, describedHTML, describedLead, describedSection,
      Option.getD, e0, jsIncludes_append_left, jsIncludes_head, string_append_empty,
      string_empty_append, string_append_assoc, and_self, if_true, if_false, ne_eq,
      not_true_eq_false, not_false_eq_true, false_and, and_false, true_and, and_true,
      reduceCtorEq, Bool.false_eq_true, List.map_nil, string_join_nil] <;>
    first
      | done
      | (split
         all_goals first
           | done
           | (simp only [string_append_assoc, string_append_empty, string_empty_append]; done)
           | (rename_i h
              exact absurd (by
                repeat (first | exact jsIncludes_head _ _ | apply jsIncludes_append_left)) h))

/-- C28. `prolificPrepareDescriptionHTML` builds the description worded by `describedHTML`
(sections Requirements, Summary, Instructions in this order, each with its header once
when it has content and absent otherwise, list before paragraphs) whenever the text built
for the first two sections does not hold `<h2>Instructions</h2>`, or the instructions have
a list, or they have no paragraph; a configuration without content gives the empty
string. When the instructions have paragraphs and no list and the earlier text holds
`<h2>Instructions</h2>`, the paragraphs follow the earlier text directly, without a header.
Last two conjuncts: the description built for `quotingConfig`, and the one worded. -/
theorem prolificPrepareDescriptionHTML_sections (config : StudyConfig) :
    (jsIncludes (describedLead config) "<h2>Instructions</h2>" = false →
      prolificPrepareDescriptionHTML config = describedHTML config) ∧
    (config.instructionsList.getD [] ≠ [] ∨ config.instructionsPara.getD [] = [] →
      prolificPrepareDescriptionHTML config = describedHTML config) ∧
    (config.requirementsList.getD [] = [] → config.requirementsPara.getD [] = [] →
      config.summaryPara.getD [] = [] → config.instructionsList.getD [] = [] →
      config.instructionsPara.getD [] = [] → prolificPrepareDescriptionHTML config = "") ∧
    (config.instructionsList.getD [] = [] → config.instructionsPara.getD [] ≠ [] →
      jsIncludes (describedLead config) "<h2>Instructions</h2>" = true →
      prolificPrepareDescriptionHTML config =
        describedLead config ++
          String.join ((config.instructionsPara.getD []).map fun x => "<p>" ++ x ++ "</p>")) ∧
    prolificPrepareDescriptionHTML quotingConfig =
      "<h2>Summary</h2><p>See <h2>Instructions</h2></p><p>Do it</p>" ∧
    describedHTML quotingConfig =
      "<h2>Summary</h2><p>See <h2>Instructions</h2></p><h2>Instructions</h2><p>Do it</p>" := by
  refine ⟨?_, ?_, ?_, ?_, by decide, by decide⟩
  · intro h
    rw [prolificPrepareDescriptionHTML_eq, if_neg]
    rw [h]
    simp
  · intro h
    rw [prolificPrepareDescriptionHTML_eq, if_neg]
    rintro ⟨h1, h2, _⟩
    rcases h with h | h
    · exact h h1
    · exact h2 h
  · intro h1 h2 h3 h4 h5
    rw [prolificPrepareDescriptionHTML_eq, if_neg (fun h => h.2.1 h5)]
    simp only [describedHTML, describedLead, describedSection, h1, h2, h3, h4, h5, and_self,
      if_true]
    rfl
  · intro h1 h2 h3
    rw [prolificPrepareDescriptionHTML_eq, if_pos ⟨h1, h2, h3⟩]

end Ouvrai
